import Mathlib

/-!
The default sertype of Cyclone DDS (`ddsi_sertype_default.c`) and the key descriptors of
`idlc`

A shallow embedding of the operations table `ddsi_sertype_ops_default` and
theorems about its members, followed by a model of the key descriptor builder of the
IDL compiler that is checked against the tests of `descriptor.c`.

Conventions of the embedding

* C unsigned integers are natural numbers; a conversion or an operation that
  can wrap is written with an explicit `% 2 ^ w` (`size_t` is 64 bits wide).
* A counted array (`nkeys`/`keys`, `nops`/`ops`) is a list; its count is the
  length of the list.
* Memory that the C code reads as raw bytes (`memcmp`, `ddsrt_md5_append`) is the
  list of the bytes of the object, in host byte order.
* A pointer is an address, a natural number; `NULL` is `none`.
* A failed `assert` in a build without `NDEBUG` aborts: the function has no
  return value, which is `none`.
-/

namespace Sertype

/-! ## Data model -/

/-- Entry of the key array, `struct ddsi_sertype_default_desc_key`: two 32-bit words (`Xux2`). -/
structure ddsi_sertype_default_desc_key where
  ops_offs : Nat
  idx : Nat
deriving DecidableEq, Repr

/-- Counted key array, `struct ddsi_sertype_default_desc_key_seq`. -/
structure ddsi_sertype_default_desc_key_seq where
  keys : List ddsi_sertype_default_desc_key
deriving DecidableEq, Repr

/-- Counted array of layout-bytecode words, `struct ddsi_sertype_default_desc_op_seq`. -/
structure ddsi_sertype_default_desc_op_seq where
  ops : List Nat
deriving DecidableEq, Repr

/-- Number of entries of the key array (field `nkeys`). -/
def ddsi_sertype_default_desc_key_seq.nkeys (s : ddsi_sertype_default_desc_key_seq) : Nat :=
  s.keys.length

/-- Number of words of the layout bytecode (field `nops`). -/
def ddsi_sertype_default_desc_op_seq.nops (s : ddsi_sertype_default_desc_op_seq) : Nat :=
  s.ops.length

/-- The type descriptor, `struct ddsi_sertype_default_desc`: four 32-bit words
followed by the two counted arrays, as laid out by `ddsi_sertype_default_desc_ops`. -/
structure ddsi_sertype_default_desc where
  size : Nat
  align : Nat
  flagset : Nat
  extensibility : Nat
  keys : ddsi_sertype_default_desc_key_seq
  ops : ddsi_sertype_default_desc_op_seq
deriving DecidableEq, Repr

/-- The two serdata operation tables a default sertype can point to. -/
inductive serdata_ops_table where
  | ddsi_serdata_ops_cdr
  | ddsi_serdata_ops_cdr_nokey
deriving DecidableEq, Repr

/-- The part common to all sertypes, `struct ddsi_sertype` (member `c`). -/
structure ddsi_sertype where
  type_name : List Nat
  flags_refc : Nat
  base_sertype : Option Nat
  typekind_no_key : Bool
  serdata_ops : serdata_ops_table
  dynamic_types : Bool
deriving DecidableEq, Repr

/-- The default sertype, `struct ddsi_sertype_default`. -/
structure ddsi_sertype_default where
  c : ddsi_sertype
  encoding_format : Nat
  encoding_version : Nat
  serpool : Nat
  type : ddsi_sertype_default_desc
  opt_size : Nat
deriving DecidableEq, Repr

/-- A block of heap memory: its address and the bytes it holds. -/
structure mem_block where
  addr : Nat
  bytes : List Nat
deriving DecidableEq, Repr

/-- Build options, constants, macros and helper functions that
`ddsi_sertype_default.c` takes from headers and translation units outside it;
they are parameters of the embedding. -/
structure Env where
  /-- Whether `NDEBUG` is defined, i.e. `assert` expands to nothing. -/
  NDEBUG : Bool
  /-- Whether `DDS_HAS_TYPE_DISCOVERY` is defined. -/
  DDS_HAS_TYPE_DISCOVERY : Bool
  /-- Whether `DDSRT_ENDIAN != DDSRT_LITTLE_ENDIAN` (big-endian host). -/
  DDSRT_BIG_ENDIAN : Bool
  DDS_TOPIC_NO_OPTIMIZE : Nat
  DDS_TOPIC_DISABLE_TYPECHECK : Nat
  DDS_FREE_ALL_BIT : Nat
  DDSI_SERTYPE_REFC_MASK : Nat
  /-- The macro extracting the extensibility from a flag set. -/
  DDS_TOPIC_TYPE_EXTENSIBILITY : Nat → Nat
  ddsi_sertype_get_encoding_format : Nat → Nat
  dds_stream_check_optimize : ddsi_sertype_default_desc → Nat
  dds_stream_has_dynamic_type : List Nat → Bool
  /-- `sizeof (struct CDRHeader)`. -/
  sizeof_CDRHeader : Nat
  /-- The wire (CDR) encoding of a sample, given as its bytes in memory, for a descriptor
  and an encoding version: what the stream writer produces by walking the layout
  bytecode. -/
  sample_cdr : ddsi_sertype_default_desc → Nat → List Nat → List Nat
  /-- The allocator's `dds_realloc` on a block (or `NULL`) and a size in bytes: the block
  of that size it returns, or `NULL`. -/
  dds_realloc : Option mem_block → Nat → Option mem_block

/-! ## Raw bytes of objects -/

/-- Bytes of a 16-bit object in host byte order. -/
def u16_bytes (big : Bool) (x : Nat) : List Nat :=
  if big then [x / 256 % 256, x % 256] else [x % 256, x / 256 % 256]

/-- Bytes of a 32-bit object in host byte order. -/
def u32_bytes (big : Bool) (x : Nat) : List Nat :=
  if big then [x / 16777216 % 256, x / 65536 % 256, x / 256 % 256, x % 256]
  else [x % 256, x / 256 % 256, x / 65536 % 256, x / 16777216 % 256]

/-- `sizeof (struct ddsi_sertype_default_desc_key)`. -/
def sizeof_key : Nat := 8

/-- `sizeof (uint32_t)`, the size of a layout-bytecode word. -/
def sizeof_op : Nat := 4

/-- Bytes of the key array. -/
def key_seq_bytes (big : Bool) : List ddsi_sertype_default_desc_key → List Nat
  | [] => []
  | k :: ks => u32_bytes big k.ops_offs ++ u32_bytes big k.idx ++ key_seq_bytes big ks

/-- Bytes of the layout-bytecode array. -/
def op_seq_bytes (big : Bool) : List Nat → List Nat
  | [] => []
  | o :: os => u32_bytes big o ++ op_seq_bytes big os

/-- The C library's `memcmp` on the first `n` bytes of two objects: zero, or the difference
of the first two bytes that differ. Bytes past the end of an object are not compared. -/
def memcmp : List Nat → List Nat → Nat → Int
  | _, _, 0 => 0
  | x :: xs, y :: ys, n + 1 => if x = y then memcmp xs ys n else (x : Int) - (y : Int)
  | _, _, _ + 1 => 0

/-- The C library's `strlen` on the bytes of a string (the terminator is the first zero byte or the end of the list). -/
def strlen : List Nat → Nat
  | [] => 0
  | c :: cs => if c = 0 then 0 else strlen cs + 1

/-! ## Well-formed values -/

/-- The descriptor's words fit their 32-bit fields and both counts fit `uint32_t`. -/
def desc_wf (d : ddsi_sertype_default_desc) : Prop :=
  d.size < 2 ^ 32 ∧ d.align < 2 ^ 32 ∧ d.flagset < 2 ^ 32 ∧ d.extensibility < 2 ^ 32 ∧
  d.keys.nkeys < 2 ^ 32 ∧ d.ops.nops < 2 ^ 32 ∧
  (∀ k ∈ d.keys.keys, k.ops_offs < 2 ^ 32 ∧ k.idx < 2 ^ 32) ∧
  (∀ o ∈ d.ops.ops, o < 2 ^ 32)

instance (d : ddsi_sertype_default_desc) : Decidable (desc_wf d) := by
  unfold desc_wf; infer_instance

/-- The sertype's fields fit their C types and the type name is a C string. -/
def sertype_wf (t : ddsi_sertype_default) : Prop :=
  desc_wf t.type ∧ t.encoding_format < 2 ^ 16 ∧ t.encoding_version < 2 ^ 16 ∧
  t.c.flags_refc < 2 ^ 32 ∧ (∀ ch ∈ t.c.type_name, 0 < ch ∧ ch < 256)

instance (t : ddsi_sertype_default) : Decidable (sertype_wf t) := by
  unfold sertype_wf; infer_instance

/-! ## `sertype_default_equal` -/

/-- `sertype_default_equal`: field by field comparison, the arrays by `memcmp`;
`none` is the abort of the final `assert` in a build without `NDEBUG`. -/
def sertype_default_equal (env : Env) (a b : ddsi_sertype_default) : Option Bool :=
  if a.encoding_format ≠ b.encoding_format then some false
  else if a.type.size ≠ b.type.size then some false
  else if a.type.align ≠ b.type.align then some false
  else if a.type.flagset ≠ b.type.flagset then some false
  else if a.type.extensibility ≠ b.type.extensibility then some false
  else if a.type.keys.nkeys ≠ b.type.keys.nkeys then some false
  else if a.type.keys.nkeys > 0 ∧
      memcmp (key_seq_bytes env.DDSRT_BIG_ENDIAN a.type.keys.keys)
        (key_seq_bytes env.DDSRT_BIG_ENDIAN b.type.keys.keys)
        (a.type.keys.nkeys * sizeof_key % 2 ^ 64) ≠ 0 then some false
  else if a.type.ops.nops ≠ b.type.ops.nops then some false
  else if a.type.ops.nops > 0 ∧
      memcmp (op_seq_bytes env.DDSRT_BIG_ENDIAN a.type.ops.ops)
        (op_seq_bytes env.DDSRT_BIG_ENDIAN b.type.ops.ops)
        (a.type.ops.nops * sizeof_op % 2 ^ 64) ≠ 0 then some false
  else if ¬ env.NDEBUG ∧ ¬ (a.opt_size = b.opt_size) then none
  else some true

/-- The fields `sertype_default_equal` is specified to compare. -/
def same_structure (a b : ddsi_sertype_default) : Prop :=
  a.encoding_format = b.encoding_format ∧ a.type.size = b.type.size ∧
  a.type.align = b.type.align ∧ a.type.flagset = b.type.flagset ∧
  a.type.extensibility = b.type.extensibility ∧
  a.type.keys.nkeys = b.type.keys.nkeys ∧ a.type.keys.keys = b.type.keys.keys ∧
  a.type.ops.nops = b.type.ops.nops ∧ a.type.ops.ops = b.type.ops.ops

instance (a b : ddsi_sertype_default) : Decidable (same_structure a b) := by
  unfold same_structure; infer_instance

/-! ## MD5 and `sertype_default_typeid_hash` -/

/-- Modelled from the spec: the sine table of the MD5 digest computed by
`ddsrt_md5_finish` (`md5.c` is not among the sources), after RFC 1321. -/
def md5_T : List Nat := [
  0xd76aa478, 0xe8c7b756, 0x242070db, 0xc1bdceee, 0xf57c0faf, 0x4787c62a, 0xa8304613, 0xfd469501,
  0x698098d8, 0x8b44f7af, 0xffff5bb1, 0x895cd7be, 0x6b901122, 0xfd987193, 0xa679438e, 0x49b40821,
  0xf61e2562, 0xc040b340, 0x265e5a51, 0xe9b6c7aa, 0xd62f105d, 0x02441453, 0xd8a1e681, 0xe7d3fbc8,
  0x21e1cde6, 0xc33707d6, 0xf4d50d87, 0x455a14ed, 0xa9e3e905, 0xfcefa3f8, 0x676f02d9, 0x8d2a4c8a,
  0xfffa3942, 0x8771f681, 0x6d9d6122, 0xfde5380c, 0xa4beea44, 0x4bdecfa9, 0xf6bb4b60, 0xbebfbc70,
  0x289b7ec6, 0xeaa127fa, 0xd4ef3085, 0x04881d05, 0xd9d4d039, 0xe6db99e5, 0x1fa27cf8, 0xc4ac5665,
  0xf4292244, 0x432aff97, 0xab9423a7, 0xfc93a039, 0x655b59c3, 0x8f0ccc92, 0xffeff47d, 0x85845dd1,
  0x6fa87e4f, 0xfe2ce6e0, 0xa3014314, 0x4e0811a1, 0xf7537e82, 0xbd3af235, 0x2ad7d2bb, 0xeb86d391]

/-- Modelled from the spec: the per-step rotation amounts of MD5 (RFC 1321). -/
def md5_S : List Nat := [
  7, 12, 17, 22, 7, 12, 17, 22, 7, 12, 17, 22, 7, 12, 17, 22,
  5, 9, 14, 20, 5, 9, 14, 20, 5, 9, 14, 20, 5, 9, 14, 20,
  4, 11, 16, 23, 4, 11, 16, 23, 4, 11, 16, 23, 4, 11, 16, 23,
  6, 10, 15, 21, 6, 10, 15, 21, 6, 10, 15, 21, 6, 10, 15, 21]

/-- Complement of a 32-bit word, the C operator `~` on `uint32_t`. -/
def not32 (x : Nat) : Nat := (2 ^ 32 - 1) ^^^ x

/-- Rotation of a 32-bit word to the left. -/
def rotl32 (x c : Nat) : Nat := ((x <<< c) ||| (x >>> (32 - c))) % 2 ^ 32

/-- Little-endian bytes of a 32-bit word. -/
def le32 (x : Nat) : List Nat := u32_bytes false x

/-- The 32-bit word held in four little-endian bytes. -/
def le32_decode : List Nat → Nat
  | [a, b, c, d] => a + 256 * b + 65536 * c + 16777216 * d
  | _ => 0

/-- The first `n` little-endian words of a byte string. -/
def md5_words : Nat → List Nat → List Nat
  | 0, _ => []
  | n + 1, bs => le32_decode (bs.take 4) :: md5_words n (bs.drop 4)

/-- Modelled from the spec: one of the 64 steps of the MD5 compression function (RFC 1321). -/
def md5_step (m : List Nat) (st : Nat × Nat × Nat × Nat) (i : Nat) : Nat × Nat × Nat × Nat :=
  let (a, b, c, d) := st
  let fg : Nat × Nat :=
    if i < 16 then ((b &&& c) ||| (not32 b &&& d), i)
    else if i < 32 then ((d &&& b) ||| (not32 d &&& c), (5 * i + 1) % 16)
    else if i < 48 then (b ^^^ c ^^^ d, (3 * i + 5) % 16)
    else (c ^^^ (b ||| not32 d), (7 * i) % 16)
  let f := (fg.1 + a + md5_T.getD i 0 + m.getD fg.2 0) % 2 ^ 32
  (d, (b + rotl32 f (md5_S.getD i 0)) % 2 ^ 32, b, c)

/-- Modelled from the spec: the MD5 compression of one 64-byte block. -/
def md5_block (st : Nat × Nat × Nat × Nat) (bs : List Nat) : Nat × Nat × Nat × Nat :=
  let r := (List.range 64).foldl (md5_step (md5_words 16 bs)) st
  ((st.1 + r.1) % 2 ^ 32, (st.2.1 + r.2.1) % 2 ^ 32,
    (st.2.2.1 + r.2.2.1) % 2 ^ 32, (st.2.2.2 + r.2.2.2) % 2 ^ 32)

/-- Compression of `n` consecutive blocks. -/
def md5_blocks : Nat → Nat × Nat × Nat × Nat → List Nat → Nat × Nat × Nat × Nat
  | 0, st, _ => st
  | n + 1, st, bs => md5_blocks n (md5_block st (bs.take 64)) (bs.drop 64)

/-- MD5 padding: a one bit, zeros up to 56 modulo 64, the bit length in 64 bits. -/
def md5_pad (msg : List Nat) : List Nat :=
  msg ++ [128] ++ List.replicate ((119 - msg.length % 64) % 64) 0 ++
    le32 (8 * msg.length % 2 ^ 32) ++ le32 (8 * msg.length / 2 ^ 32 % 2 ^ 32)

/-- Modelled from the spec: the 16-byte MD5 digest of a message (RFC 1321), the
digest that `ddsrt_md5_init`, `ddsrt_md5_append`, `ddsrt_md5_finish` of `md5.c`
(not among the sources) compute. -/
def md5 (msg : List Nat) : List Nat :=
  let r := md5_blocks ((md5_pad msg).length / 64)
    (0x67452301, 0xefcdab89, 0x98badcfe, 0x10325476) (md5_pad msg)
  le32 r.1 ++ le32 r.2.1 ++ le32 r.2.2.1 ++ le32 r.2.2.2

/-- Modelled from the spec: the state of an MD5 computation, `ddsrt_md5_state_t`
(`md5.c` is not among the sources), is the message appended so far. -/
abbrev ddsrt_md5_state_t := List Nat

/-- Modelled from the spec: `ddsrt_md5_init` starts with the empty message. -/
def ddsrt_md5_init : ddsrt_md5_state_t := []

/-- Modelled from the spec: `ddsrt_md5_append` appends the first `nbytes` bytes of `data`. -/
def ddsrt_md5_append (pms : ddsrt_md5_state_t) (data : List Nat) (nbytes : Nat) :
    ddsrt_md5_state_t :=
  pms ++ data.take nbytes

/-- Modelled from the spec: `ddsrt_md5_finish` yields the digest of the message appended. -/
def ddsrt_md5_finish (pms : ddsrt_md5_state_t) : List Nat := md5 pms

/-- `sertype_default_typeid_hash`: the return value and the 16 bytes written to `buf`.
The byte counts are converted to `uint32_t` as in the source; the sertype is given as an
object, so the pointer asserted not to be null is not null. -/
def sertype_default_typeid_hash (env : Env) (tp : ddsi_sertype_default) : Bool × List Nat :=
  let big := env.DDSRT_BIG_ENDIAN
  let md5st := ddsrt_md5_init
  let md5st := ddsrt_md5_append md5st tp.c.type_name (strlen tp.c.type_name % 2 ^ 32)
  let md5st := ddsrt_md5_append md5st (u16_bytes big tp.encoding_format) 2
  let md5st := ddsrt_md5_append md5st (u32_bytes big tp.type.size) 4
  let md5st := ddsrt_md5_append md5st (u32_bytes big tp.type.align) 4
  let md5st := ddsrt_md5_append md5st (u32_bytes big tp.type.flagset) 4
  let md5st := ddsrt_md5_append md5st (u32_bytes big tp.type.extensibility) 4
  let md5st := ddsrt_md5_append md5st (key_seq_bytes big tp.type.keys.keys)
    (tp.type.keys.nkeys * sizeof_key % 2 ^ 64 % 2 ^ 32)
  let md5st := ddsrt_md5_append md5st (op_seq_bytes big tp.type.ops.ops)
    (tp.type.ops.nops * sizeof_op % 2 ^ 64 % 2 ^ 32)
  (true, ddsrt_md5_finish md5st)

/-- The message the specification says the type identifier is the digest of. -/
def typeid_message (big : Bool) (t : ddsi_sertype_default) : List Nat :=
  t.c.type_name ++ u16_bytes big t.encoding_format ++ u32_bytes big t.type.size ++
    u32_bytes big t.type.align ++ u32_bytes big t.type.flagset ++
    u32_bytes big t.type.extensibility ++ key_seq_bytes big t.type.keys.keys ++
    op_seq_bytes big t.type.ops.ops

/-! ## Descriptor serialization: `sertype_default_serialize`, `sertype_default_deserialize` -/

/-- Opcodes of the generic (de)serializer's type descriptions, `enum pserop`: those the
descriptor table uses and the other fixed groups of 32-bit words. -/
inductive pserop where
  | XSTOP
  | Xu
  | Xux2
  | Xux3
  | Xux4
  | Xux5
  | XQ
deriving DecidableEq, Repr

/-- The table that describes `struct ddsi_sertype_default_desc` to the generic
(de)serializer. -/
def ddsi_sertype_default_desc_ops : List pserop :=
  [.Xux4, .XQ, .Xux2, .XSTOP, .XQ, .Xu, .XSTOP, .XSTOP]

/-- Byte order selector of the generic serializer, `enum ddsrt_byte_order_selector`. -/
inductive ddsrt_byte_order_selector where
  | DDSRT_BOSEL_NATIVE
  | DDSRT_BOSEL_BE
  | DDSRT_BOSEL_LE
deriving DecidableEq, Repr

/-- Modelled from the spec: a member of a structure as the generic (de)serializer
(`ddsi_plist_generic.c` is not among the sources) sees it: a 32-bit word, or a sequence
whose elements are groups of 32-bit words. -/
inductive pmember where
  | u (x : Nat)
  | Q (elems : List (List Nat))
deriving DecidableEq, Repr

/-- The members of `struct ddsi_sertype_default_desc` in declaration order. -/
def desc_members (d : ddsi_sertype_default_desc) : List pmember :=
  [.u d.size, .u d.align, .u d.flagset, .u d.extensibility,
   .Q (d.keys.keys.map fun k => [k.ops_offs, k.idx]),
   .Q (d.ops.ops.map fun o => [o])]

/-- A key entry from its two words. -/
def key_of_words : List Nat → Option ddsi_sertype_default_desc_key
  | [x, y] => some ⟨x, y⟩
  | _ => none

/-- A bytecode word from its one word. -/
def op_of_words : List Nat → Option Nat
  | [x] => some x
  | _ => none

/-- The key array held in the elements of a sequence. -/
def keys_of_elems : List (List Nat) → Option (List ddsi_sertype_default_desc_key)
  | [] => some []
  | e :: es =>
    match key_of_words e, keys_of_elems es with
    | some k, some ks => some (k :: ks)
    | _, _ => none

/-- The bytecode array held in the elements of a sequence. -/
def ops_of_elems : List (List Nat) → Option (List Nat)
  | [] => some []
  | e :: es =>
    match op_of_words e, ops_of_elems es with
    | some o, some os => some (o :: os)
    | _, _ => none

/-- The descriptor whose members are the given ones. -/
def members_desc : List pmember → Option ddsi_sertype_default_desc
  | [.u size, .u align, .u flagset, .u extensibility, .Q ks, .Q os] =>
    match keys_of_elems ks, ops_of_elems os with
    | some keys, some ops => some ⟨size, align, flagset, extensibility, ⟨keys⟩, ⟨ops⟩⟩
    | _, _ => none
  | _ => none

/-- The 32-bit word held in four bytes of the given byte order. -/
def u32_decode (big : Bool) : List Nat → Nat
  | [a, b, c, d] =>
    if big then 16777216 * a + 65536 * b + 256 * c + d
    else a + 256 * b + 65536 * c + 16777216 * d
  | _ => 0

/-- Modelled from the spec: the number of 32-bit words an opcode of the generic
(de)serializer stands for (`Xu`, `Xux2` .. `Xux5`); none for the others. -/
def pserop.nwords : pserop → Option Nat
  | .Xu => some 1
  | .Xux2 => some 2
  | .Xux3 => some 3
  | .Xux4 => some 4
  | .Xux5 => some 5
  | _ => none

/-- Modelled from the spec: the number of 32-bit words of one element of a sequence, which
the generic (de)serializer finds described by the opcodes up to the next `XSTOP`. -/
def elem_nwords : List pserop → Option Nat
  | [] => none
  | .XSTOP :: _ => some 0
  | op :: rest =>
    match op.nwords, elem_nwords rest with
    | some n, some m => some (n + m)
    | _, _ => none

/-- Modelled from the spec: the next `n` members of the structure the generic serializer
reads, all of them words. -/
def take_words : Nat → List pmember → Option (List Nat × List pmember)
  | 0, ms => some ([], ms)
  | n + 1, .u x :: ms =>
    match take_words n ms with
    | some (ws, r) => some (x :: ws, r)
    | none => none
  | _ + 1, _ => none

/-- Bytes of consecutive 32-bit words. -/
def words_bytes (big : Bool) : List Nat → List Nat
  | [] => []
  | w :: ws => u32_bytes big w ++ words_bytes big ws

/-- Modelled from the spec: the bytes the generic serializer writes for the elements of a
sequence, each of `w` words. -/
def elems_bytes (big : Bool) (w : Nat) : List (List Nat) → Option (List Nat)
  | [] => some []
  | e :: es =>
    match elems_bytes big w es with
    | some bs => if e.length = w then some (words_bytes big e ++ bs) else none
    | none => none

/-- Modelled from the spec: the encoding the generic serializer (`ddsi_plist_generic.c` is
not among the sources) produces for the members of a structure described by a table:
every word as four bytes of the selected byte order, a sequence as its element count
followed by its elements. `inseq` is set while the opcodes of a sequence's element,
handled at its `XQ`, are passed over. -/
def plist_ser_generic (big : Bool) : List pserop → Bool → List pmember → Option (List Nat)
  | [], _, _ => none
  | .XSTOP :: rest, true, ms => plist_ser_generic big rest false ms
  | .XSTOP :: _, false, ms => if ms.isEmpty then some [] else none
  | _ :: rest, true, ms => plist_ser_generic big rest true ms
  | .XQ :: rest, false, .Q elems :: ms =>
    match elem_nwords rest, plist_ser_generic big rest true ms with
    | some w, some tail =>
      match elems_bytes big w elems with
      | some bs => some (u32_bytes big (elems.length % 2 ^ 32) ++ bs ++ tail)
      | none => none
    | _, _ => none
  | .XQ :: _, false, _ => none
  | op :: rest, false, ms =>
    match op.nwords with
    | some n =>
      match take_words n ms with
      | some (ws, r) =>
        match plist_ser_generic big rest false r with
        | some tail => some (words_bytes big ws ++ tail)
        | none => none
      | none => none
    | none => none

/-- Modelled from the spec: the next `n` words the generic deserializer reads from its
input, or nothing when the input is too short. -/
def read_words (big : Bool) : Nat → List Nat → Option (List Nat × List Nat)
  | 0, bs => some ([], bs)
  | n + 1, a :: b :: c :: d :: bs =>
    match read_words big n bs with
    | some (ws, r) => some (u32_decode big [a, b, c, d] :: ws, r)
    | none => none
  | _ + 1, _ => none

/-- Modelled from the spec: the next `n` elements of `w` words each the generic
deserializer reads from its input, or nothing when the input is too short. -/
def read_elems (big : Bool) (w : Nat) : Nat → List Nat → Option (List (List Nat) × List Nat)
  | 0, bs => some ([], bs)
  | n + 1, bs =>
    match read_words big w bs with
    | some (e, r) =>
      match read_elems big w n r with
      | some (es, r2) => some (e :: es, r2)
      | none => none
    | none => none

/-- Modelled from the spec: the decoder of the generic deserializer
(`ddsi_plist_generic.c` is not among the sources), inverse of `plist_ser_generic`: it
yields the members read and the input left, or nothing when the input ends before the
described structure does (a count or a word is missing, or a sequence is shorter than
its count). -/
def plist_deser_generic (big : Bool) : List pserop → Bool → List Nat →
    Option (List pmember × List Nat)
  | [], _, _ => none
  | .XSTOP :: rest, true, bs => plist_deser_generic big rest false bs
  | .XSTOP :: _, false, bs => some ([], bs)
  | _ :: rest, true, bs => plist_deser_generic big rest true bs
  | .XQ :: rest, false, bs =>
    match elem_nwords rest, read_words big 1 bs with
    | some w, some ([n], r) =>
      match read_elems big w n r with
      | some (elems, r2) =>
        match plist_deser_generic big rest true r2 with
        | some (ms, r3) => some (.Q elems :: ms, r3)
        | none => none
      | none => none
    | _, _ => none
  | op :: rest, false, bs =>
    match op.nwords with
    | some n =>
      match read_words big n bs with
      | some (ws, r) =>
        match plist_deser_generic big rest false r with
        | some (ms, r2) => some (ws.map pmember.u ++ ms, r2)
        | none => none
      | none => none
    | none => none

/-- The next multiple of four, the alignment of a 32-bit word in the encoding. -/
def align4 (off : Nat) : Nat := (off + 3) / 4 * 4

/-- Storing bytes in a buffer from an offset on. -/
def buf_write (buf : List Nat) (off : Nat) (bytes : List Nat) : List Nat :=
  buf.take off ++ List.replicate (off - buf.length) 0 ++ bytes ++ buf.drop (off + bytes.length)

/-- Whether the selected byte order is big-endian on this host. -/
def bosel_big (env : Env) : ddsrt_byte_order_selector → Bool
  | .DDSRT_BOSEL_NATIVE => env.DDSRT_BIG_ENDIAN
  | .DDSRT_BOSEL_BE => true
  | .DDSRT_BOSEL_LE => false

/-- Modelled from the spec: `plist_ser_generic_embeddable` (`ddsi_plist_generic.c` is not
among the sources) stores the encoding of the structure at the next aligned offset of
the destination and advances the offset past it; it returns 0, or a negative code and
leaves the destination alone when the table does not describe the structure. The offset
into the source structure is 0 at the only call and is left out. -/
def plist_ser_generic_embeddable (env : Env) (dst : List Nat) (dst_offset : Nat)
    (src : List pmember) (desc : List pserop) (bo : ddsrt_byte_order_selector) :
    Int × Nat × List Nat :=
  match plist_ser_generic (bosel_big env bo) desc false src with
  | some bytes =>
    (0, align4 dst_offset + bytes.length, buf_write dst (align4 dst_offset) bytes)
  | none => (-3, dst_offset, dst)

/-- Modelled from the spec: `plist_deser_generic_srcoff` (`ddsi_plist_generic.c` is not
among the sources) decodes a structure from the first `srcsize` bytes of the source,
starting at the next aligned offset, swapping the bytes of every word when `bswap` is
set, and advances the offset past what it read; it returns a negative code when the
input is truncated or inconsistent with the table. -/
def plist_deser_generic_srcoff (env : Env) (src : List Nat) (srcsize : Nat) (srcoff : Nat)
    (bswap : Bool) (desc : List pserop) : Int × List pmember × Nat :=
  match plist_deser_generic (env.DDSRT_BIG_ENDIAN != bswap) desc false
      ((src.take srcsize).drop (align4 srcoff)) with
  | some (ms, rest) =>
    (0, ms, align4 srcoff + (((src.take srcsize).drop (align4 srcoff)).length - rest.length))
  | none => (-3, [], srcoff)

/-- `sertype_default_serialize`: the return value, the advanced offset and the buffer. -/
def sertype_default_serialize (env : Env) (stc : ddsi_sertype_default) (dst_offset : Nat)
    (dst_buf : List Nat) : Bool × Nat × List Nat :=
  let st := stc
  let r := plist_ser_generic_embeddable env dst_buf dst_offset (desc_members st.type)
    ddsi_sertype_default_desc_ops .DDSRT_BOSEL_LE
  (decide (r.1 ≥ 0), r.2.1, r.2.2)

/-- The part of `struct ddsi_domaingv` the sertype operations read. -/
structure ddsi_domaingv where
  serpool : Nat
deriving DecidableEq, Repr

/-- `sertype_default_deserialize`: the return value, the target sertype after the call and
the advanced offset. When the decoder fails, the descriptor of the target is left as it
was. The members the decoder yields for the descriptor table always form a descriptor,
so the branch for members that form none is never taken. -/
def sertype_default_deserialize (env : Env) (gv : ddsi_domaingv) (stc : ddsi_sertype_default)
    (src_sz : Nat) (src_data : List Nat) (src_offset : Nat) :
    Bool × ddsi_sertype_default × Nat :=
  let st := stc
  let st := { st with serpool := gv.serpool }
  let st := { st with c := { st.c with base_sertype := none } }
  let st := { st with c := { st.c with serdata_ops :=
    if st.c.typekind_no_key then serdata_ops_table.ddsi_serdata_ops_cdr_nokey
    else serdata_ops_table.ddsi_serdata_ops_cdr } }
  let r := plist_deser_generic_srcoff env src_data src_sz src_offset
    (decide (env.DDSRT_BIG_ENDIAN ≠ false)) ddsi_sertype_default_desc_ops
  if r.1 < 0 then (false, st, r.2.2)
  else
    match members_desc r.2.1 with
    | none => (false, st, r.2.2)
    | some d =>
      let st := { st with type := d }
      let st := { st with encoding_format :=
        env.ddsi_sertype_get_encoding_format (env.DDS_TOPIC_TYPE_EXTENSIBILITY st.type.flagset) }
      let st := { st with opt_size :=
        if st.type.flagset &&& env.DDS_TOPIC_NO_OPTIMIZE ≠ 0 then 0
        else env.dds_stream_check_optimize st.type }
      let st := { st with c := { st.c with
        dynamic_types := (env.dds_stream_has_dynamic_type st.type.ops.ops) } }
      (true, st, r.2.2)

/-! ## `sertype_default_assignable_from` -/

/-- Modelled from the spec: `ddsi_typeid_from_sertype` (`ddsi_typelookup.c` is not among
the sources) yields the type identifier of a sertype, the digest its `typeid_hash`
operation writes, or `NULL` when that operation fails. -/
def ddsi_typeid_from_sertype (env : Env) (type : ddsi_sertype_default) : Option (List Nat) :=
  if (sertype_default_typeid_hash env type).1 then some (sertype_default_typeid_hash env type).2
  else none

/-- Modelled from the spec: `ddsi_typeid_equal` (`ddsi_typelookup.c` is not among the
sources) is exact equality of two type identifiers. -/
def ddsi_typeid_equal (a b : List Nat) : Bool := decide (a = b)

/-- `sertype_default_assignable_from`; `none` is the failure of the assertion that both
type identifiers exist (without the assertion, the use of a null identifier). -/
def sertype_default_assignable_from (env : Env) (type_a type_b : ddsi_sertype_default) :
    Option Bool :=
  if env.DDS_HAS_TYPE_DISCOVERY then
    let a := type_a
    let b := type_b
    if a.type.flagset &&& env.DDS_TOPIC_DISABLE_TYPECHECK ≠ 0 then some true
    else
      let typeid_a := ddsi_typeid_from_sertype env a
      let typeid_b := ddsi_typeid_from_sertype env b
      match typeid_a, typeid_b with
      | some ta, some tb =>
        let assignable := ddsi_typeid_equal ta tb
        some assignable
      | _, _ => none
  else some false

/-! ## `sertype_default_derive_sertype` -/

/-- Modelled from the spec: `ddsi_sertype_ref` (`ddsi_sertype.c` is not among the sources)
takes one reference: it increments the reference count, kept in the 32-bit word
`flags_refc`, by one. -/
def ddsi_sertype_ref (sertype : ddsi_sertype_default) : ddsi_sertype_default :=
  { sertype with c := { sertype.c with flags_refc := (sertype.c.flags_refc + 1) % 2 ^ 32 } }

/-- `sertype_default_derive_sertype` on the sertype `base` stored at address
`base_sertype` (not null, as asserted): the new sertype, a copy of the bytes of `base`
made by `ddsrt_memdup`, and `base` after the call. -/
def sertype_default_derive_sertype (env : Env) (base_sertype : Nat)
    (base : ddsi_sertype_default) : ddsi_sertype_default × ddsi_sertype_default :=
  let derived_sertype := base
  let refc := derived_sertype.c.flags_refc
  let derived_sertype := { derived_sertype with c := { derived_sertype.c with
    flags_refc := (refc &&& not32 env.DDSI_SERTYPE_REFC_MASK) } }
  let base := ddsi_sertype_ref base
  let derived_sertype := { derived_sertype with c := { derived_sertype.c with
    base_sertype := some base_sertype } }
  (derived_sertype, base)

/-! ## `sertype_default_free_samples` -/

/-- A call that releases memory: the inner-member release of one sample by the walk of
the layout bytecode, or the release of a block. -/
inductive free_call where
  | dds_stream_free_sample (data : Nat) (ops : List Nat)
  | dds_free (ptr : Nat)
deriving DecidableEq, Repr

/-- The assertions of the debug loop of `sertype_default_free_samples`, from index `i` and
offset `off` on, `n` iterations: `ptrs[i] == ptrs[0] + off`. -/
def free_samples_asserts (ptrs : List Nat) (size : Nat) : Nat → Nat → Nat → Bool
  | 0, _, _ => true
  | n + 1, i, off =>
    (match ptrs[i]?, ptrs[0]? with
     | some pi, some p0 => decide (pi = p0 + off)
     | _, _ => false) &&
    free_samples_asserts ptrs size n (i + 1) ((off + size) % 2 ^ 64)

/-- The release loop of `sertype_default_free_samples`: `n` iterations from `ptr` on. -/
def free_samples_loop (size : Nat) (ops : List Nat) : Nat → Nat → List free_call
  | 0, _ => []
  | n + 1, ptr => .dds_stream_free_sample ptr ops :: free_samples_loop size ops n (ptr + size)

/-- `sertype_default_free_samples`: the releasing calls it makes, in order; `none` when an
assertion of the debug loop fails or `ptrs[0]` is read from an empty array. -/
def sertype_default_free_samples (env : Env) (tp : ddsi_sertype_default) (ptrs : List Nat)
    (count : Nat) (op : Nat) : Option (List free_call) :=
  if count > 0 then
    let type := tp.type
    let size := type.size
    if ¬ env.NDEBUG ∧ free_samples_asserts ptrs size count 0 0 = false then none
    else
      match ptrs[0]? with
      | none => none
      | some p0 =>
        let walk :=
          if type.flagset &&& env.DDS_TOPIC_NO_OPTIMIZE ≠ 0 then
            free_samples_loop size type.ops.ops count p0
          else []
        let block := if op &&& env.DDS_FREE_ALL_BIT ≠ 0 then [free_call.dds_free p0] else []
        some (walk ++ block)
  else some []

/-- The pointer array of a contiguous block of `count` samples of `size` bytes at `p0`. -/
def contiguous_ptrs (p0 size count : Nat) : List Nat :=
  (List.range count).map fun i => p0 + i * size

/-! ## `sertype_default_get_serialized_size`, `sertype_default_serialize_into` -/

/-- An output stream, `dds_ostream_t`; the buffer is given by its contents. -/
structure dds_ostream_t where
  m_buffer : List Nat
  m_size : Nat
  m_index : Nat
  m_xcdr_version : Nat
deriving DecidableEq, Repr

/-- `ostream_from_buffer`. -/
def ostream_from_buffer (buffer : List Nat) (size : Nat) (encoding_version : Nat) :
    dds_ostream_t :=
  { m_buffer := buffer, m_size := size % 2 ^ 32, m_index := 0,
    m_xcdr_version := encoding_version }

/-- Modelled from the spec: `dds_stream_write_sample` (`ddsi_cdrstream.c` is not among the
sources) writes the wire encoding of the sample at the index of the stream and advances
the index past it; a stream whose buffer is too small grows, which is what lets a trial
serialization start from an empty stream. -/
def dds_stream_write_sample (env : Env) (os : dds_ostream_t) (sample : List Nat)
    (type : ddsi_sertype_default) : dds_ostream_t :=
  { os with
    m_buffer := buf_write os.m_buffer os.m_index
      (env.sample_cdr type.type os.m_xcdr_version sample)
    m_size := max os.m_size
      ((os.m_index + (env.sample_cdr type.type os.m_xcdr_version sample).length) % 2 ^ 32)
    m_index := (os.m_index + (env.sample_cdr type.type os.m_xcdr_version sample).length) % 2 ^ 32 }

/-- Modelled from the spec: a serialized sample, `struct ddsi_serdata` of the default
implementation (`ddsi_serdata_default.c` is not among the sources): the fixed CDR header
followed by `pos` bytes of data. -/
structure ddsi_serdata where
  hdr : List Nat
  data : List Nat
  pos : Nat
deriving DecidableEq, Repr

/-- Modelled from the spec: `ddsi_serdata_from_sample` for the kind `SDK_DATA`, the kind
of the only call (`ddsi_serdata_default.c` is not among the sources): a full trial
serialization of the sample into a fresh stream, behind the fixed CDR header. -/
def ddsi_serdata_from_sample (env : Env) (type : ddsi_sertype_default) (sample : List Nat) :
    ddsi_serdata :=
  let os := dds_stream_write_sample env (ostream_from_buffer [] 0 type.encoding_version)
    sample type
  { hdr := List.replicate env.sizeof_CDRHeader 0, data := os.m_buffer, pos := os.m_index }

/-- Modelled from the spec: `ddsi_serdata_size` (`ddsi_serdata_default.c` is not among the
sources): the length of the serialized sample with its fixed header, a `uint32_t`. -/
def ddsi_serdata_size (env : Env) (d : ddsi_serdata) : Nat :=
  (d.pos + env.sizeof_CDRHeader) % 2 ^ 32

/-- `sertype_default_get_serialized_size`; the subtraction is in `size_t`. Dropping the
reference to the trial serialization (`ddsi_serdata_unref`) has no effect on the result. -/
def sertype_default_get_serialized_size (env : Env) (type : ddsi_sertype_default)
    (sample : List Nat) : Nat :=
  let serdata := ddsi_serdata_from_sample env type sample
  let serialized_size :=
    (ddsi_serdata_size env serdata + 2 ^ 64 - env.sizeof_CDRHeader % 2 ^ 64) % 2 ^ 64
  serialized_size

/-- `sertype_default_serialize_into`: the return value and the stream after the write. -/
def sertype_default_serialize_into (env : Env) (type : ddsi_sertype_default)
    (sample : List Nat) (dst_buffer : List Nat) (dst_size : Nat) : Bool × dds_ostream_t :=
  let type_default := type
  let os := ostream_from_buffer dst_buffer dst_size type_default.encoding_version
  let os := dds_stream_write_sample env os sample type_default
  (true, os)

/-! ## `sertype_default_hash` -/

/-- `sertype_default_hash`: the `uint32_t` read in host byte order from the start of the
16 bytes `sertype_default_typeid_hash` writes. -/
def sertype_default_hash (env : Env) (tpcmn : ddsi_sertype_default) : Nat :=
  let buf := (sertype_default_typeid_hash env tpcmn).2
  u32_decode env.DDSRT_BIG_ENDIAN (buf.take 4)

/-! ## `sertype_default_zero_samples`, `sertype_default_realloc_samples` -/

/-- The C library's `memset` of `n` bytes at offset `off` of a block to the byte `c`. -/
def memset (bytes : List Nat) (off : Nat) (c : Nat) (n : Nat) : List Nat :=
  bytes.take off ++ List.replicate n c ++ bytes.drop (off + n)

/-- `sertype_default_zero_samples` on the bytes of the samples. -/
def sertype_default_zero_samples (sertype_common : ddsi_sertype_default) (sample : List Nat)
    (count : Nat) : List Nat :=
  let tp := sertype_common
  memset sample 0 0 (tp.type.size * count % 2 ^ 64)

/-- The loop of `sertype_default_realloc_samples` that fills the pointer array: `n`
iterations from index `i` on. -/
def realloc_samples_loop (new : Nat) (size : Nat) : Nat → Nat → List Nat → List Nat
  | 0, _, ptrs => ptrs
  | n + 1, i, ptrs =>
    realloc_samples_loop new size n (i + 1) (ptrs.set i (new + i * size % 2 ^ 64))

/-- `sertype_default_realloc_samples`: the pointer array and the block after the call. The
address of `NULL` is 0. -/
def sertype_default_realloc_samples (env : Env) (ptrs : List Nat)
    (sertype_common : ddsi_sertype_default) (old : Option mem_block) (oldcount count : Nat) :
    List Nat × Option mem_block :=
  let tp := sertype_common
  let size := tp.type.size
  let new := if oldcount = count then old else env.dds_realloc old (size * count % 2 ^ 64)
  let new :=
    match new with
    | some b =>
      if count > oldcount then
        some { b with bytes := memset b.bytes (size * oldcount % 2 ^ 64) 0
                                 (size * (count - oldcount) % 2 ^ 64) }
      else some b
    | none => none
  let ptrs := realloc_samples_loop (match new with | some b => b.addr | none => 0) size count 0
    ptrs
  (ptrs, new)

/-! ## Example values -/

/-- An environment: a release build with type discovery on a little-endian host, the flag
bits of the public headers, and simple stand-ins for the extensibility macro, the
encoding format, the stream helpers, the wire encoding (the bytes of the sample
themselves) and the allocator (a moved block whose new bytes are 255). -/
def example_env : Env where
  NDEBUG := true
  DDS_HAS_TYPE_DISCOVERY := true
  DDSRT_BIG_ENDIAN := false
  DDS_TOPIC_NO_OPTIMIZE := 1
  DDS_TOPIC_DISABLE_TYPECHECK := 8
  DDS_FREE_ALL_BIT := 4
  DDSI_SERTYPE_REFC_MASK := 0x0fffffff
  DDS_TOPIC_TYPE_EXTENSIBILITY := fun flagset => flagset / 64 % 4
  ddsi_sertype_get_encoding_format := fun ext => ext
  dds_stream_check_optimize := fun d => d.size
  dds_stream_has_dynamic_type := fun _ => false
  sizeof_CDRHeader := 4
  sample_cdr := fun _ _ sample => sample
  dds_realloc := fun old n =>
    match old with
    | some b => some { addr := b.addr + 65536,
                       bytes := b.bytes.take n ++ List.replicate (n - b.bytes.length) 255 }
    | none => some { addr := 65536, bytes := List.replicate n 255 }

/-- The same environment built with assertions enabled. -/
def example_env_debug : Env := { example_env with NDEBUG := false }

/-- A sertype named "A": one key, three bytecode words, reference count 1. -/
def example_sertype : ddsi_sertype_default where
  c := { type_name := [65], flags_refc := 1, base_sertype := none, typekind_no_key := false,
         serdata_ops := .ddsi_serdata_ops_cdr, dynamic_types := false }
  encoding_format := 0
  encoding_version := 1
  serpool := 4096
  type := { size := 8, align := 4, flagset := 0, extensibility := 0,
            keys := ⟨[⟨0, 0⟩]⟩, ops := ⟨[0x01040000, 0, 0]⟩ }
  opt_size := 8

/-- A sertype named "B" whose flag set holds the disable-typecheck flag. -/
def example_sertype_notypecheck : ddsi_sertype_default :=
  { example_sertype with
    c := { example_sertype.c with type_name := [66] }
    type := { example_sertype.type with flagset := 8 } }

/-- The example sertype under the name "B". -/
def example_sertype_renamed : ddsi_sertype_default :=
  { example_sertype with c := { example_sertype.c with type_name := [66] } }

/-! ## The key descriptor builder of the IDL compiler (`idlc`)

Of the builder only the tests are among the sources (`descriptor.c` of the
tests); the builder is modelled from the spec, and the expectations of the tests are
checked on the model. -/

/-- Extensibility of a constructed type, `idl_extensibility_t`. -/
inductive idl_extensibility where
  | IDL_FINAL
  | IDL_APPENDABLE
  | IDL_MUTABLE
deriving DecidableEq, Repr

mutual
/-- Modelled from the spec: the type of a member in the annotated type tree the IDL
front-end hands to the builder (the tree is not among the sources): a primitive of 1, 2,
4 or 8 bytes, a bounded or unbounded string, a sequence, an array, or a struct. -/
inductive idl_type_spec where
  | base (size : Nat)
  | bstring (bound : Nat)
  | string
  | sequence
  | array (elem : idl_type_spec) (dim : Nat)
  | struct (s : idl_struct)
/-- Modelled from the spec: a struct of the annotated type tree: its extensibility, the
struct it inherits from, its members. -/
inductive idl_struct where
  | mk (ext : idl_extensibility) (inherit : idl_inherit) (members : idl_members)
/-- Modelled from the spec: the inheritance specification of a struct. -/
inductive idl_inherit where
  | none
  | base (s : idl_struct)
/-- Modelled from the spec: the members of a struct in declaration order, each with its
name, its `@id` when it has one, whether it is annotated `@key`, and its type. -/
inductive idl_members where
  | nil
  | cons (name : String) (id : Option Nat) (key : Bool) (type : idl_type_spec)
      (rest : idl_members)
end

mutual
/-- Modelled from the spec: number of members of a struct, the inherited ones included. -/
def idl_struct.count : idl_struct → Nat
  | .mk _ inh ms => inh.count + ms.count
/-- Modelled from the spec: number of members inherited. -/
def idl_inherit.count : idl_inherit → Nat
  | .none => 0
  | .base s => s.count
/-- Modelled from the spec: number of members of a member list. -/
def idl_members.count : idl_members → Nat
  | .nil => 0
  | .cons _ _ _ _ rest => rest.count + 1
end

mutual
/-- Modelled from the spec: whether a member of the struct, inherited ones included, is
annotated `@key`. -/
def idl_struct.has_key : idl_struct → Bool
  | .mk _ inh ms => inh.has_key || ms.has_key
/-- Modelled from the spec: whether an inherited member is annotated `@key`. -/
def idl_inherit.has_key : idl_inherit → Bool
  | .none => false
  | .base s => s.has_key
/-- Modelled from the spec: whether a member of the list is annotated `@key`. -/
def idl_members.has_key : idl_members → Bool
  | .nil => false
  | .cons _ _ key _ rest => key || rest.has_key
end

mutual
/-- Modelled from the spec: whether a `@key` annotation exists anywhere in the type. -/
def idl_type_spec.annotated : idl_type_spec → Bool
  | .array e _ => e.annotated
  | .struct s => s.annotated
  | _ => false
/-- Modelled from the spec: whether a `@key` annotation exists anywhere in the struct. -/
def idl_struct.annotated : idl_struct → Bool
  | .mk _ inh ms => inh.annotated || ms.annotated
/-- Modelled from the spec: whether a `@key` annotation exists anywhere in the base. -/
def idl_inherit.annotated : idl_inherit → Bool
  | .none => false
  | .base s => s.annotated
/-- Modelled from the spec: whether a `@key` annotation exists anywhere in the members. -/
def idl_members.annotated : idl_members → Bool
  | .nil => false
  | .cons _ _ key type rest => key || type.annotated || rest.annotated
end

/-- Modelled from the spec: what the builder knows of the size of a key field: a
statically known layout of `dims` elements of `size` bytes aligned to `align`, or no
statically known size. -/
inductive key_size where
  | fixed (size align dims : Nat)
  | var
deriving DecidableEq, Repr

/-- Modelled from the spec: the size of a key field of a type: a primitive is its size,
aligned to its size; a bounded string is its length prefix, bound and terminator, aligned
to 4; an array of a fixed-size element is fixed; strings, sequences and the rest are
not. -/
def idl_type_spec.key_size : idl_type_spec → key_size
  | .base sz => .fixed sz sz 1
  | .bstring b => .fixed (4 + b + 1) 4 1
  | .array e n =>
    match e.key_size with
    | .fixed s a d => .fixed s a (d * n)
    | .var => .var
  | _ => .var

/-- Modelled from the spec: a key field of a topic: the member names and the member ids
on the way from the topic to the field, its size, whether a MUTABLE struct lies on the
way, and its index in the CDR. -/
structure key_field where
  path : List String
  order : List Nat
  size : key_size
  framed : Bool
  key_idx : Nat
deriving DecidableEq, Repr

/-- A dotted path. -/
def dotted : List String → String
  | [] => ""
  | [a] => a
  | a :: b :: rest => a ++ "." ++ dotted (b :: rest)

/-- Modelled from the spec: the name of a key field, its dotted path. -/
def key_field.name (k : key_field) : String := dotted k.path

/-- Modelled from the spec: a key field of a nested struct seen from the member that holds
the struct: the path is prefixed with the name of the member and the id path with its
id. -/
def key_field.nest (name : String) (id : Nat) (k : key_field) : key_field :=
  { k with path := name :: k.path, order := id :: k.order }

mutual
/-- Modelled from the spec: the key fields a key member of the type contributes: a struct
contributes its own keys, or all its members when none is marked; any other type is one
key field. -/
def idl_type_spec.keys (framed : Bool) : idl_type_spec → List key_field
  | .struct s => s.keys (!s.has_key) framed
  | .base sz => [⟨[], [], (idl_type_spec.base sz).key_size, framed, 0⟩]
  | .bstring b => [⟨[], [], (idl_type_spec.bstring b).key_size, framed, 0⟩]
  | .string => [⟨[], [], .var, framed, 0⟩]
  | .sequence => [⟨[], [], .var, framed, 0⟩]
  | .array e n => [⟨[], [], (idl_type_spec.array e n).key_size, framed, 0⟩]
/-- Modelled from the spec: the key fields of a struct in declaration order, inherited
members first; with `all` every member is a key. Implicit member ids are the declaration
positions, counted from the first inherited member on. -/
def idl_struct.keys (all : Bool) (framed : Bool) : idl_struct → List key_field
  | .mk ext inh ms =>
    inh.keys all (framed || decide (ext = .IDL_MUTABLE)) ext ++
      ms.keys all (framed || decide (ext = .IDL_MUTABLE)) inh.count
/-- Modelled from the spec: the key fields of the base of a struct of extensibility `ext`:
under MUTABLE extensibility they are fields of the struct itself, otherwise fields of its
member `parent`, the first. -/
def idl_inherit.keys (all : Bool) (framed : Bool) (ext : idl_extensibility) :
    idl_inherit → List key_field
  | .none => []
  | .base s =>
    if ext = .IDL_MUTABLE then s.keys all framed
    else (s.keys all framed).map (key_field.nest "parent" 0)
/-- Modelled from the spec: the key fields of the members from declaration position `pos`
on: those of the members annotated `@key` (of all members with `all`). -/
def idl_members.keys (all : Bool) (framed : Bool) (pos : Nat) : idl_members → List key_field
  | .nil => []
  | .cons name id key type rest =>
    (if key || all then (type.keys framed).map (key_field.nest name (id.getD pos)) else []) ++
      rest.keys all framed (pos + 1)
end

mutual
/-- The members of a struct in declaration order, those of its base first, each with its
name, its `@id`, its `@key` annotation and its type. -/
def idl_struct.all_members : idl_struct → List (String × Option Nat × Bool × idl_type_spec)
  | .mk _ inh ms => inh.all_members ++ ms.all_members
/-- The members a struct inherits, in declaration order. -/
def idl_inherit.all_members : idl_inherit → List (String × Option Nat × Bool × idl_type_spec)
  | .none => []
  | .base s => s.all_members
/-- The members of a member list, in declaration order. -/
def idl_members.all_members : idl_members → List (String × Option Nat × Bool × idl_type_spec)
  | .nil => []
  | .cons name id key type rest => (name, id, key, type) :: rest.all_members
end

/-- Whether a member is a key member, in the words of the spec: with annotations (no
keylist), when it is annotated `@key`; with a keylist, when its path `m` of member names
from the topic struct is named there, that is, a field of the keylist is that path or goes
on from it. -/
def key_member (keylist : Option (List (List String))) (m : List String) (key : Bool) : Prop :=
  match keylist with
  | none => key = true
  | some kl => ∃ q ∈ kl, m <+: q

mutual
/-- The key fields reachable through a key member of a type, in the words of the spec,
each with its path of member names and its path of member ids: a struct contributes its
own keys, or all its members when none is marked; any other type is the field itself.
`m` is the path of member names from the topic struct to the member. -/
inductive idl_type_spec.reaches (keylist : Option (List (List String))) :
    List String → idl_type_spec → List String → List Nat → Prop
  | field (m : List String) (t : idl_type_spec) (h : ∀ s, t ≠ .struct s) :
      idl_type_spec.reaches keylist m t [] []
  | own_keys (m : List String) (s : idl_struct) (p : List String) (o : List Nat)
      (h : idl_struct.reaches keylist m false s p o) :
      idl_type_spec.reaches keylist m (.struct s) p o
  | every_member (m : List String) (s : idl_struct) (p : List String) (o : List Nat)
      (hnone : ∀ x ∈ s.all_members, ¬ key_member keylist (m ++ [x.1]) x.2.2.1)
      (h : idl_struct.reaches keylist m true s p o) :
      idl_type_spec.reaches keylist m (.struct s) p o
/-- The key fields reachable in a struct: those reachable through its own members, whose
implicit ids go on from those of the inherited members, and those inherited. With `all`
every member counts as a key member. -/
inductive idl_struct.reaches (keylist : Option (List (List String))) :
    List String → Bool → idl_struct → List String → List Nat → Prop
  | own (m : List String) (all : Bool) (ext : idl_extensibility) (inh : idl_inherit)
      (ms : idl_members) (p : List String) (o : List Nat)
      (h : idl_members.reaches keylist m all inh.all_members.length ms p o) :
      idl_struct.reaches keylist m all (.mk ext inh ms) p o
  | inherited (m : List String) (all : Bool) (ext : idl_extensibility) (inh : idl_inherit)
      (ms : idl_members) (p : List String) (o : List Nat)
      (h : idl_inherit.reaches keylist m all ext inh p o) :
      idl_struct.reaches keylist m all (.mk ext inh ms) p o
/-- The key fields a struct inherits: under MUTABLE extensibility those of the base as they
are, otherwise those of the base below the member `parent` with id 0. -/
inductive idl_inherit.reaches (keylist : Option (List (List String))) :
    List String → Bool → idl_extensibility → idl_inherit → List String → List Nat → Prop
  | merged (m : List String) (all : Bool) (s : idl_struct) (p : List String) (o : List Nat)
      (h : idl_struct.reaches keylist m all s p o) :
      idl_inherit.reaches keylist m all .IDL_MUTABLE (.base s) p o
  | parent (m : List String) (all : Bool) (ext : idl_extensibility) (s : idl_struct)
      (p : List String) (o : List Nat) (hext : ext ≠ .IDL_MUTABLE)
      (h : idl_struct.reaches keylist m all s p o) :
      idl_inherit.reaches keylist m all ext (.base s) ("parent" :: p) (0 :: o)
/-- The key fields reachable through the members of a list that starts at declaration
position `pos`: through a member that is a key member (any member with `all`), prefixed
with the name of the member and with its id, which is its declaration position when it has
no `@id`. -/
inductive idl_members.reaches (keylist : Option (List (List String))) :
    List String → Bool → Nat → idl_members → List String → List Nat → Prop
  | here (m : List String) (all : Bool) (pos : Nat) (name : String) (id : Option Nat)
      (key : Bool) (type : idl_type_spec) (rest : idl_members) (p : List String)
      (o : List Nat) (hkey : key_member keylist (m ++ [name]) key ∨ all = true)
      (h : idl_type_spec.reaches keylist (m ++ [name]) type p o) :
      idl_members.reaches keylist m all pos (.cons name id key type rest) (name :: p)
        (id.getD pos :: o)
  | there (m : List String) (all : Bool) (pos : Nat) (name : String) (id : Option Nat)
      (key : Bool) (type : idl_type_spec) (rest : idl_members) (p : List String)
      (o : List Nat) (h : idl_members.reaches keylist m all (pos + 1) rest p o) :
      idl_members.reaches keylist m all pos (.cons name id key type rest) p o
end

mutual
/-- The fields of a type in declaration order, depth first, each with its path of member
names: a struct has the fields of its members, any other type is one field. -/
def idl_type_spec.fields : idl_type_spec → List (List String)
  | .struct s => s.fields
  | _ => [[]]
/-- The fields of a struct in declaration order: those of its base first, then those of
its own members. -/
def idl_struct.fields : idl_struct → List (List String)
  | .mk ext inh ms => inh.fields ext ++ ms.fields
/-- The fields a struct of extensibility `ext` inherits: under MUTABLE extensibility those
of the base as they are, otherwise those of the base below the member `parent`. -/
def idl_inherit.fields (ext : idl_extensibility) : idl_inherit → List (List String)
  | .none => []
  | .base s => if ext = .IDL_MUTABLE then s.fields else s.fields.map fun p => "parent" :: p
/-- The fields of the members of a list, member after member in declaration order, each
field below the name of its member. -/
def idl_members.fields : idl_members → List (List String)
  | .nil => []
  | .cons name _ _ type rest => (type.fields.map fun p => name :: p) ++ rest.fields
end

/-- The position of the field with the path `p` among the fields `fs`, counted from 0. -/
def field_position : List (List String) → List String → Nat
  | [], _ => 0
  | f :: fs, p => if f = p then 0 else field_position fs p + 1

/-- The fields of a keylist that lie below the member `name`. -/
def sub_keylist (name : String) (kl : List (List String)) : List (List String) :=
  kl.filterMap fun p =>
    match p with
    | n :: m :: q => if n = name then some (m :: q) else none
    | _ => none

/-- Whether a field of the keylist starts with the member `name`. -/
def keylist_names (name : String) (kl : List (List String)) : Bool :=
  kl.any fun p => p.head? = some name

mutual
/-- Modelled from the spec: the type with the members on the fields of a keylist marked as
keys. -/
def idl_type_spec.mark (kl : List (List String)) : idl_type_spec → idl_type_spec
  | .struct s => .struct (s.mark kl)
  | .base sz => .base sz
  | .bstring b => .bstring b
  | .string => .string
  | .sequence => .sequence
  | .array e n => .array e n
/-- Modelled from the spec: the struct with the members on the fields of a keylist marked
as keys. -/
def idl_struct.mark (kl : List (List String)) : idl_struct → idl_struct
  | .mk ext inh ms => .mk ext (inh.mark kl) (ms.mark kl)
/-- Modelled from the spec: the base with the members on the fields of a keylist marked as
keys. -/
def idl_inherit.mark (kl : List (List String)) : idl_inherit → idl_inherit
  | .none => .none
  | .base s => .base (s.mark kl)
/-- Modelled from the spec: the members with those on the fields of a keylist marked as
keys: a member is a key when a field starts with its name, and the rest of such fields
are the keylist of its type. -/
def idl_members.mark (kl : List (List String)) : idl_members → idl_members
  | .nil => .nil
  | .cons name id _ type rest =>
    .cons name id (keylist_names name kl) (type.mark (sub_keylist name kl)) (rest.mark kl)
end

/-- The tree the builder collects the keys from: the tree as it is annotated without a
keylist, the tree marked along the keylist with one. -/
def seen {α : Type} (keylist : Option (List (List String))) (annotated marked : α) : α :=
  match keylist with
  | none => annotated
  | some _ => marked

mutual
/-- Modelled from the spec: whether a field of a keylist names a member below the type. -/
def idl_type_spec.resolves : idl_type_spec → List String → Bool
  | _, [] => true
  | .struct s, n :: q => s.resolves (n :: q)
  | _, _ :: _ => false
/-- Modelled from the spec: whether a field of a keylist names a member of the struct. -/
def idl_struct.resolves : idl_struct → List String → Bool
  | .mk _ inh ms, p => ms.resolves p || inh.resolves p
/-- Modelled from the spec: whether a field of a keylist names an inherited member. -/
def idl_inherit.resolves : idl_inherit → List String → Bool
  | .none, _ => false
  | .base s, p => s.resolves p
/-- Modelled from the spec: whether a field of a keylist names one of the members. -/
def idl_members.resolves : idl_members → List String → Bool
  | .nil, _ => false
  | .cons name _ _ type rest, p =>
    (match p with
     | [] => false
     | n :: q => decide (n = name) && type.resolves q) || rest.resolves p
end

/-- Lexicographic order of member-id paths: `a` before or equal to `b`. -/
def order_le : List Nat → List Nat → Bool
  | [], _ => true
  | _ :: _, [] => false
  | x :: xs, y :: ys => decide (x < y) || (decide (x = y) && order_le xs ys)

/-- The order of key fields by member-id path. -/
def key_le (a b : key_field) : Prop := order_le a.order b.order = true

instance : DecidableRel key_le := fun a b => by unfold key_le; infer_instance

/-- Modelled from the spec: the key indexes, assigned in the order the key fields are
collected. -/
def assign_key_idx : Nat → List key_field → List key_field
  | _, [] => []
  | i, k :: ks => { k with key_idx := i } :: assign_key_idx (i + 1) ks

/-- The macro `FIXED_KEY_MAX_SIZE`: the rows of the test `key_size` put it at 16 (a key of
16 bytes is fixed, one of 17 bytes is not). -/
def FIXED_KEY_MAX_SIZE : Nat := 16

/-- The next multiple of the alignment `a`. -/
def align_up (off a : Nat) : Nat := if a = 0 then off else (off + a - 1) / a * a

/-- Modelled from the spec: the offset after `dims` elements of `size` bytes, each aligned
to `align`, laid out from `off` on. -/
def add_to_key_size (off size align : Nat) : Nat → Nat
  | 0 => off
  | d + 1 => add_to_key_size (align_up off align + size) size align d

/-- Modelled from the spec: the size of the key under an encoding version whose largest
alignment is `maxalign` (8 for version 1, 4 for version 2): the key fields laid out left
to right from `off` on; nothing when a field has no statically known size on the
wire. -/
def key_layout (maxalign : Nat) : Nat → List key_field → Option Nat
  | off, [] => some off
  | off, k :: ks =>
    match k.size, k.framed with
    | .fixed size align dims, false =>
      key_layout maxalign (add_to_key_size off size (min align maxalign) dims) ks
    | _, _ => none

/-- A key field has a statically known size on the wire, in the words of the spec: its type
has a fixed size and no MUTABLE struct on the way to it forces variable framing. -/
def key_field.static (k : key_field) : Prop := k.size ≠ .var ∧ k.framed = false

instance (k : key_field) : Decidable k.static := by unfold key_field.static; infer_instance

/-- The total size of the key fields laid out left to right from `off` on, in the words of
the spec: each field adds its size and the alignment padding before it; the largest
alignment is `maxalign`. -/
def key_total (maxalign : Nat) : Nat → List key_field → Nat
  | off, [] => off
  | off, k :: ks =>
    match k.size with
    | .fixed size align dims =>
      key_total maxalign (add_to_key_size off size (min align maxalign) dims) ks
    | .var => key_total maxalign off ks

/-- Modelled from the spec: the descriptor the builder produces, as far as keys go
(`struct descriptor` is not among the sources): the number of keys, the number of key
offsets, the two fixed-key flags of `flags`, the two key sizes, and the keys in the
order in which `key_print_meta_init` lists them. -/
structure descriptor where
  n_keys : Nat
  key_offsets_count : Nat
  fixed_key_xcdr1 : Bool
  fixed_key_xcdr2 : Bool
  keysz_xcdr1 : Nat
  keysz_xcdr2 : Nat
  keys : List key_field
deriving DecidableEq, Repr

/-- Modelled from the spec: whether the key is fixed: every field has a statically known
size and the total is at most `FIXED_KEY_MAX_SIZE`. -/
def key_is_fixed : Option Nat → Bool
  | some sz => decide (sz ≤ FIXED_KEY_MAX_SIZE)
  | none => false

/-- Modelled from the spec: the key size reported: the total when the key is fixed,
`FIXED_KEY_MAX_SIZE + 1` when it is not. -/
def key_size_reported : Option Nat → Nat
  | some sz => if sz ≤ FIXED_KEY_MAX_SIZE then sz else FIXED_KEY_MAX_SIZE + 1
  | none => FIXED_KEY_MAX_SIZE + 1

/-- Modelled from the spec: the key fields of a topic struct with their key indexes, in
declaration order. -/
def topic_key_fields (node : idl_struct) : List key_field :=
  assign_key_idx 0 (node.keys false false)

/-- Modelled from the spec: the descriptor of an annotated topic struct: the key fields
sorted by member-id path, the key sizes computed in the order of the key indexes. -/
def descriptor_init (node : idl_struct) : descriptor :=
  let fields := topic_key_fields node
  { n_keys := fields.length
    key_offsets_count := (fields.map fun k => 1 + k.order.length).sum
    fixed_key_xcdr1 := key_is_fixed (key_layout 8 0 fields)
    fixed_key_xcdr2 := key_is_fixed (key_layout 4 0 fields)
    keysz_xcdr1 := key_size_reported (key_layout 8 0 fields)
    keysz_xcdr2 := key_size_reported (key_layout 4 0 fields)
    keys := fields.insertionSort key_le }

/-- Modelled from the spec: what the builder gets for a topic: the struct and, when the
compilation unit uses keylists (`IDL_FLAG_KEYLIST`), the fields of its `#pragma
keylist`. -/
structure idl_topic where
  node : idl_struct
  keylist : Option (List (List String))

/-- Modelled from the spec: `generate_descriptor_impl` (`descriptor.c` of the compiler is
not among the sources): with annotations the keys are the annotated members; with a
keylist they are the members on its fields, and construction fails when the type also
has a `@key` annotation or a field does not resolve. -/
def generate_descriptor_impl (topic : idl_topic) : Option descriptor :=
  match topic.keylist with
  | none => some (descriptor_init topic.node)
  | some kl =>
    if topic.node.annotated then none
    else if kl.all fun p => topic.node.resolves p then some (descriptor_init (topic.node.mark kl))
    else none

/-- Modelled from the spec: the topic struct with its keys marked: the struct itself with
annotations, the struct marked along the fields of the keylist with a keylist. -/
def idl_topic.marked (topic : idl_topic) : idl_struct :=
  match topic.keylist with
  | none => topic.node
  | some kl => topic.node.mark kl

/-- What the test `keys_nested` compares of a descriptor: the number of keys, the number
of key offsets and, per key, the id path, the name and the key index. -/
def keys_nested_result (topic : idl_topic) :
    Option (Nat × Nat × List (List Nat) × List String × List Nat) :=
  (generate_descriptor_impl topic).map fun d =>
    (d.n_keys, d.key_offsets_count, d.keys.map (·.order), d.keys.map (·.name),
      d.keys.map (·.key_idx))

/-- What the test `key_size` compares of a descriptor: the two fixed-key flags and the two
key sizes. -/
def key_size_result (topic : idl_topic) : Option (Bool × Bool × Nat × Nat) :=
  (generate_descriptor_impl topic).map fun d =>
    (d.fixed_key_xcdr1, d.fixed_key_xcdr2, d.keysz_xcdr1, d.keysz_xcdr2)

/-- What the test `keys_inheritance` compares of a descriptor: the number of keys and the
names of the keys. -/
def keys_inheritance_result (topic : idl_topic) : Option (Nat × List String) :=
  (generate_descriptor_impl topic).map fun d => (d.n_keys, d.keys.map (·.name))

/-! ## The rows of the tests of the builder -/

/-- A member list from the list of its members. -/
def idl_members.of_list : List (String × Option Nat × Bool × idl_type_spec) → idl_members
  | [] => .nil
  | (name, id, key, type) :: rest => .cons name id key type (idl_members.of_list rest)

/-- A FINAL struct without base. -/
def idl_struct.final (ms : List (String × Option Nat × Bool × idl_type_spec)) : idl_struct :=
  .mk .IDL_FINAL .none (idl_members.of_list ms)

/-- IDL `char`. -/
def idl_char : idl_type_spec := .base 1
/-- IDL `short`. -/
def idl_short : idl_type_spec := .base 2
/-- IDL `long`. -/
def idl_long : idl_type_spec := .base 4
/-- IDL `long long`. -/
def idl_llong : idl_type_spec := .base 8
/-- IDL `float`. -/
def idl_float : idl_type_spec := .base 4
/-- IDL `double`. -/
def idl_double : idl_type_spec := .base 8

/-- The rows of the test `keys_nested`: the topic of the IDL text and the expected number
of keys, number of key offsets, and id paths, names and key indexes of the keys. -/
def keys_nested_tests :
    List (idl_topic × (Nat × Nat × List (List Nat) × List String × List Nat)) := [
  -- struct test { @key @id(2) long a; short b; };
  (⟨.final [("a", some 2, true, idl_long), ("b", none, false, idl_short)], none⟩,
    (1, 2, [[2]], ["a"], [0])),
  -- struct test { @key long a; @key short b; };
  (⟨.final [("a", none, true, idl_long), ("b", none, true, idl_short)], none⟩,
    (2, 4, [[0], [1]], ["a", "b"], [0, 1])),
  -- @nested struct inner { @id(3) long i1; @id(1) short i2; }; struct outer { @key inner o1; };
  (⟨.final [("o1", none, true, .struct (.final [("i1", some 3, false, idl_long),
      ("i2", some 1, false, idl_short)]))], none⟩,
    (2, 6, [[0, 1], [0, 3]], ["o1.i2", "o1.i1"], [1, 0])),
  -- @nested struct inner { long i1; @key short i2; }; struct outer { @key inner o1; };
  (⟨.final [("o1", none, true, .struct (.final [("i1", none, false, idl_long),
      ("i2", none, true, idl_short)]))], none⟩,
    (1, 3, [[0, 1]], ["o1.i2"], [0])),
  -- @nested struct inner { @key @id(5) short i1; };
  -- struct outer { @key @id(0) inner o1; @key @id(10) inner o2; };
  (⟨.final [("o1", some 0, true, .struct (.final [("i1", some 5, true, idl_short)])),
            ("o2", some 10, true, .struct (.final [("i1", some 5, true, idl_short)]))], none⟩,
    (2, 6, [[0, 5], [10, 5]], ["o1.i1", "o2.i1"], [0, 1])),
  -- @nested struct inner { @key short i1; };
  -- @nested struct mid { @key @id(3) char m1; @key @id(2) inner m2; @id(1) long m3; };
  -- struct outer { @key @id(0) mid o1; @key @id(1) inner o2; };
  (⟨.final [("o1", some 0, true, .struct (.final [("m1", some 3, true, idl_char),
              ("m2", some 2, true, .struct (.final [("i1", none, true, idl_short)])),
              ("m3", some 1, false, idl_long)])),
            ("o2", some 1, true, .struct (.final [("i1", none, true, idl_short)]))], none⟩,
    (3, 10, [[0, 2, 0], [0, 3], [1, 0]], ["o1.m2.i1", "o1.m1", "o2.i1"], [1, 0, 2])),
  -- @nested struct inner { char i1; @key char i2; };
  -- struct outer { @key @id(3) inner o1; @key @id(2) short o2; };
  (⟨.final [("o1", some 3, true, .struct (.final [("i1", none, false, idl_char),
              ("i2", none, true, idl_char)])),
            ("o2", some 2, true, idl_short)], none⟩,
    (2, 5, [[2], [3, 1]], ["o2", "o1.i2"], [1, 0])),
  -- struct test { long a; short b; }; #pragma keylist test a
  (⟨.final [("a", none, false, idl_long), ("b", none, false, idl_short)], some [["a"]]⟩,
    (1, 2, [[0]], ["a"], [0])),
  -- struct test { long a; short b; }; #pragma keylist test a b
  (⟨.final [("a", none, false, idl_long), ("b", none, false, idl_short)],
      some [["a"], ["b"]]⟩,
    (2, 4, [[0], [1]], ["a", "b"], [0, 1])),
  -- struct inner { long i1; short i2; }; struct outer { inner o1; inner o2; };
  -- #pragma keylist outer o1.i1
  (⟨.final [("o1", none, false, .struct (.final [("i1", none, false, idl_long),
              ("i2", none, false, idl_short)])),
            ("o2", none, false, .struct (.final [("i1", none, false, idl_long),
              ("i2", none, false, idl_short)]))], some [["o1", "i1"]]⟩,
    (1, 3, [[0, 0]], ["o1.i1"], [0])),
  -- the same structs; #pragma keylist outer o1.i1 o2.i1
  (⟨.final [("o1", none, false, .struct (.final [("i1", none, false, idl_long),
              ("i2", none, false, idl_short)])),
            ("o2", none, false, .struct (.final [("i1", none, false, idl_long),
              ("i2", none, false, idl_short)]))], some [["o1", "i1"], ["o2", "i1"]]⟩,
    (2, 6, [[0, 0], [1, 0]], ["o1.i1", "o2.i1"], [0, 1])),
  -- struct inner { long i1; long i2; }; struct mid { inner m1; };
  -- struct outer { inner o1, o2; inner o3[3]; mid o4; double o5; };
  -- #pragma keylist outer o4.m1.i2
  (⟨.final [("o1", none, false, .struct (.final [("i1", none, false, idl_long),
              ("i2", none, false, idl_long)])),
            ("o2", none, false, .struct (.final [("i1", none, false, idl_long),
              ("i2", none, false, idl_long)])),
            ("o3", none, false, .array (.struct (.final [("i1", none, false, idl_long),
              ("i2", none, false, idl_long)])) 3),
            ("o4", none, false, .struct (.final [("m1", none, false,
              .struct (.final [("i1", none, false, idl_long), ("i2", none, false, idl_long)]))])),
            ("o5", none, false, idl_double)], some [["o4", "m1", "i2"]]⟩,
    (1, 4, [[3, 0, 1]], ["o4.m1.i2"], [0])),
  -- struct inner { long i1; short i2; }; struct outer { inner o1; inner o2; };
  -- #pragma keylist outer o1.i1
  -- struct p { inner p1; }; #pragma keylist p p1.i1
  (⟨.final [("o1", none, false, .struct (.final [("i1", none, false, idl_long),
              ("i2", none, false, idl_short)])),
            ("o2", none, false, .struct (.final [("i1", none, false, idl_long),
              ("i2", none, false, idl_short)]))], some [["o1", "i1"]]⟩,
    (1, 3, [[0, 0]], ["o1.i1"], [0])),
  -- the same structs; #pragma keylist outer
  (⟨.final [("o1", none, false, .struct (.final [("i1", none, false, idl_long),
              ("i2", none, false, idl_short)])),
            ("o2", none, false, .struct (.final [("i1", none, false, idl_long),
              ("i2", none, false, idl_short)]))], some []⟩,
    (0, 0, [], [], [])),
  -- struct inner { long long i1; }; struct outer { inner o1; inner o2; };
  -- #pragma keylist outer o2.i1 o1.i1
  (⟨.final [("o1", none, false, .struct (.final [("i1", none, false, idl_llong)])),
            ("o2", none, false, .struct (.final [("i1", none, false, idl_llong)]))],
      some [["o2", "i1"], ["o1", "i1"]]⟩,
    (2, 6, [[0, 0], [1, 0]], ["o1.i1", "o2.i1"], [0, 1])),
  -- struct inner { char i1; }; struct mid { short m1; inner m2; long m3; };
  -- struct outer { mid o1; inner o2; };
  -- #pragma keylist outer o1.m1 o2.i1 o1.m2.i1
  (⟨.final [("o1", none, false, .struct (.final [("m1", none, false, idl_short),
              ("m2", none, false, .struct (.final [("i1", none, false, idl_char)])),
              ("m3", none, false, idl_long)])),
            ("o2", none, false, .struct (.final [("i1", none, false, idl_char)]))],
      some [["o1", "m1"], ["o2", "i1"], ["o1", "m2", "i1"]]⟩,
    (3, 10, [[0, 0], [0, 1, 0], [1, 0]], ["o1.m1", "o1.m2.i1", "o2.i1"], [0, 1, 2]))]

/-- The rows of the test `key_size`: the topic of the IDL text and the expected fixed-key
flags and key sizes of the two encoding versions (`VAR` is `FIXED_KEY_MAX_SIZE + 1`). -/
def key_size_tests : List (idl_topic × (Bool × Bool × Nat × Nat)) := [
  -- @topic struct test { @key long a; @key short b; };
  (⟨.final [("a", none, true, idl_long), ("b", none, true, idl_short)], none⟩,
    (true, true, 6, 6)),
  -- @topic struct test { @key char a; @key long long b; @key short c; };
  (⟨.final [("a", none, true, idl_char), ("b", none, true, idl_llong),
            ("c", none, true, idl_short)], none⟩,
    (false, true, FIXED_KEY_MAX_SIZE + 1, 14)),
  -- @nested struct nested { @key char a; @key long long b; @key short c; };
  -- @topic struct test { @key nested a; };
  (⟨.final [("a", none, true, .struct (.final [("a", none, true, idl_char),
              ("b", none, true, idl_llong), ("c", none, true, idl_short)]))], none⟩,
    (false, true, FIXED_KEY_MAX_SIZE + 1, 14)),
  -- @nested struct nested { char a; short b; };
  -- @topic struct test { @key nested a; @key long long b; @key char c; };
  (⟨.final [("a", none, true, .struct (.final [("a", none, false, idl_char),
              ("b", none, false, idl_short)])),
            ("b", none, true, idl_llong), ("c", none, true, idl_char)], none⟩,
    (false, true, FIXED_KEY_MAX_SIZE + 1, 13)),
  -- @topic struct test { @key sequence<long> a; };
  (⟨.final [("a", none, true, .sequence)], none⟩,
    (false, false, FIXED_KEY_MAX_SIZE + 1, FIXED_KEY_MAX_SIZE + 1)),
  -- @topic struct test { @key long a[5]; };
  (⟨.final [("a", none, true, .array idl_long 5)], none⟩,
    (false, false, FIXED_KEY_MAX_SIZE + 1, FIXED_KEY_MAX_SIZE + 1)),
  -- @nested struct nested { @key long long a; };
  -- @topic struct test { @key nested a; long b[5]; @key char c; @key float d; };
  (⟨.final [("a", none, true, .struct (.final [("a", none, true, idl_llong)])),
            ("b", none, false, .array idl_long 5), ("c", none, true, idl_char),
            ("d", none, true, idl_float)], none⟩,
    (true, true, 16, 16)),
  -- @nested struct nested1 { @key short a; }; @nested struct nested2 { @key long long a; };
  -- @topic struct test { @key nested1 a; @key nested2 b; @key char c; @key nested1 d; };
  (⟨.final [("a", none, true, .struct (.final [("a", none, true, idl_short)])),
            ("b", none, true, .struct (.final [("a", none, true, idl_llong)])),
            ("c", none, true, idl_char),
            ("d", none, true, .struct (.final [("a", none, true, idl_short)]))], none⟩,
    (false, true, FIXED_KEY_MAX_SIZE + 1, 16)),
  -- @topic struct test { @key char a[15]; };
  (⟨.final [("a", none, true, .array idl_char 15)], none⟩, (true, true, 15, 15)),
  -- @topic struct test { @key short a[6]; };
  (⟨.final [("a", none, true, .array idl_short 6)], none⟩, (true, true, 12, 12)),
  -- @nested struct nested { @key long long a; long b; };
  -- @topic struct test { nested a; @key nested b; };
  (⟨.final [("a", none, false, .struct (.final [("a", none, true, idl_llong),
              ("b", none, false, idl_long)])),
            ("b", none, true, .struct (.final [("a", none, true, idl_llong),
              ("b", none, false, idl_long)]))], none⟩,
    (true, true, 8, 8)),
  -- @topic struct test { @key string<3> a; @key long long b; };
  (⟨.final [("a", none, true, .bstring 3), ("b", none, true, idl_llong)], none⟩,
    (true, true, 16, 16)),
  -- @topic struct test { @key char a; @key string<3> b; @key long c; };
  (⟨.final [("a", none, true, idl_char), ("b", none, true, .bstring 3),
            ("c", none, true, idl_long)], none⟩,
    (true, true, 16, 16))]

/-- The rows of the test `keys_inheritance`: the topic of the IDL text and the expected
number of keys and names of the keys. -/
def keys_inheritance_tests : List (idl_topic × (Nat × List String)) := [
  -- @nested struct test_base { long a; }; @topic struct test : test_base { long c; };
  (⟨.mk .IDL_FINAL (.base (.final [("a", none, false, idl_long)]))
      (.of_list [("c", none, false, idl_long)]), none⟩,
    (0, [])),
  -- @nested struct test_base { @key long a; short b; }; @topic struct test : test_base { };
  (⟨.mk .IDL_FINAL (.base (.final [("a", none, true, idl_long), ("b", none, false, idl_short)]))
      .nil, none⟩,
    (1, ["parent.a"])),
  -- @nested struct test_base2 { @key long a2; };
  -- @nested struct test_base1 : test_base2 { long a1; };
  -- @topic struct test : test_base1 { long a; };
  (⟨.mk .IDL_FINAL (.base (.mk .IDL_FINAL (.base (.final [("a2", none, true, idl_long)]))
        (.of_list [("a1", none, false, idl_long)])))
      (.of_list [("a", none, false, idl_long)]), none⟩,
    (1, ["parent.parent.a2"])),
  -- @nested struct test_base2 { long a2; long b2; };
  -- @nested struct test_base1 { @key long a1; @key test_base2 b1; };
  -- @topic struct test : test_base1 { long c; };
  (⟨.mk .IDL_FINAL (.base (.final [("a1", none, true, idl_long),
        ("b1", none, true, .struct (.final [("a2", none, false, idl_long),
          ("b2", none, false, idl_long)]))]))
      (.of_list [("c", none, false, idl_long)]), none⟩,
    (3, ["parent.a1", "parent.b1.a2", "parent.b1.b2"])),
  -- @nested struct test_base { @key @id(1) long a; @key @id(0) short b; };
  -- @topic struct test : test_base { @id(2) long c; };
  (⟨.mk .IDL_FINAL (.base (.final [("a", some 1, true, idl_long), ("b", some 0, true, idl_short)]))
      (.of_list [("c", some 2, false, idl_long)]), none⟩,
    (2, ["parent.b", "parent.a"])),
  -- @nested @appendable struct test_base { @key long a; short b; };
  -- @topic @appendable struct test : test_base { long c; };
  (⟨.mk .IDL_APPENDABLE (.base (.mk .IDL_APPENDABLE .none
        (.of_list [("a", none, true, idl_long), ("b", none, false, idl_short)])))
      (.of_list [("c", none, false, idl_long)]), none⟩,
    (1, ["parent.a"])),
  -- @nested @mutable struct test_base { @key long a; short b; };
  -- @topic @mutable struct test : test_base { long c; };
  (⟨.mk .IDL_MUTABLE (.base (.mk .IDL_MUTABLE .none
        (.of_list [("a", none, true, idl_long), ("b", none, false, idl_short)])))
      (.of_list [("c", none, false, idl_long)]), none⟩,
    (1, ["a"])),
  -- @nested @mutable struct test_base2 { @key long a2; @key long b2; };
  -- @nested @mutable struct test_base1 : test_base2 { long a1; };
  -- @topic @mutable struct test : test_base1 { long a; };
  (⟨.mk .IDL_MUTABLE (.base (.mk .IDL_MUTABLE (.base (.mk .IDL_MUTABLE .none
          (.of_list [("a2", none, true, idl_long), ("b2", none, true, idl_long)])))
        (.of_list [("a1", none, false, idl_long)])))
      (.of_list [("a", none, false, idl_long)]), none⟩,
    (2, ["a2", "b2"])),
  -- @nested @appendable struct test_base2 { long a2; long b2; };
  -- @nested @mutable struct test_base1 { @key long a1; @key test_base2 b1; };
  -- @topic @mutable struct test : test_base1 { long c; };
  (⟨.mk .IDL_MUTABLE (.base (.mk .IDL_MUTABLE .none
        (.of_list [("a1", none, true, idl_long),
          ("b1", none, true, .struct (.mk .IDL_APPENDABLE .none
            (.of_list [("a2", none, false, idl_long), ("b2", none, false, idl_long)])))])))
      (.of_list [("c", none, false, idl_long)]), none⟩,
    (3, ["a1", "b1.a2", "b1.b2"])),
  -- @nested @mutable struct test_base { @key @id(1) long a; @key @id(0) short b; };
  -- @topic @mutable struct test : test_base { @id(2) long c; };
  (⟨.mk .IDL_MUTABLE (.base (.mk .IDL_MUTABLE .none
        (.of_list [("a", some 1, true, idl_long), ("b", some 0, true, idl_short)])))
      (.of_list [("c", some 2, false, idl_long)]), none⟩,
    (2, ["b", "a"]))]

/-- The topic `struct inner { long long i1; }; struct outer { inner o1; inner o2; };` with
`#pragma keylist outer o2.i1 o1.i1`. -/
def example_topic_keylist : idl_topic :=
  ⟨.final [("o1", none, false, .struct (.final [("i1", none, false, idl_llong)])),
           ("o2", none, false, .struct (.final [("i1", none, false, idl_llong)]))],
    some [["o2", "i1"], ["o1", "i1"]]⟩

/-- The topic `struct inner { @id(3) long i1; @id(1) short i2; }; struct outer { @key inner
o1; };`. -/
def example_topic_nested : idl_topic :=
  ⟨.final [("o1", none, true, .struct (.final [("i1", some 3, false, idl_long),
      ("i2", some 1, false, idl_short)]))], none⟩

/-- The topic `struct test { @key long a; @key short b; };`. -/
def example_topic_long_short : idl_topic :=
  ⟨.final [("a", none, true, idl_long), ("b", none, true, idl_short)], none⟩

/-- The topic `struct test { @key char a; @key long long b; @key short c; };`. -/
def example_topic_char_llong_short : idl_topic :=
  ⟨.final [("a", none, true, idl_char), ("b", none, true, idl_llong),
           ("c", none, true, idl_short)], none⟩

/-- The struct `@mutable struct base { @key @id(1) long a; @key @id(0) short b; };`. -/
def example_mutable_base : idl_struct :=
  .mk .IDL_MUTABLE .none (.of_list [("a", some 1, true, idl_long), ("b", some 0, true, idl_short)])

/-- The struct `@final struct base { @key @id(1) long a; @key @id(0) short b; };`. -/
def example_final_base : idl_struct :=
  .final [("a", some 1, true, idl_long), ("b", some 0, true, idl_short)]

/-- The topic `struct test { long a; short b; };` with `#pragma keylist test a`. -/
def example_topic_keylist_a : idl_topic :=
  ⟨.final [("a", none, false, idl_long), ("b", none, false, idl_short)], some [["a"]]⟩

/-- The topic `struct base { @key long a; }; struct test : base { @key char c; };`. -/
def example_topic_inherit : idl_topic :=
  ⟨.mk .IDL_FINAL (.base (.final [("a", none, true, idl_long)]))
    (.of_list [("c", none, true, idl_char)]), none⟩

/-! # Theorems -/

/-! ## Raw bytes determine the values -/

theorem u32_bytes_length (big : Bool) (x : Nat) : (u32_bytes big x).length = 4 := by
  unfold u32_bytes; split <;> rfl

theorem u16_bytes_length (big : Bool) (x : Nat) : (u16_bytes big x).length = 2 := by
  unfold u16_bytes; split <;> rfl

theorem u32_bytes_inj (big : Bool) (x y : Nat) (hx : x < 2 ^ 32) (hy : y < 2 ^ 32)
    (h : u32_bytes big x = u32_bytes big y) : x = y := by
  unfold u32_bytes at h
  cases big <;> simp at h <;> omega

theorem key_seq_bytes_length (big : Bool) (ks : List ddsi_sertype_default_desc_key) :
    (key_seq_bytes big ks).length = ks.length * sizeof_key := by
  induction ks with
  | nil => rfl
  | cons k ks ih =>
    simp only [key_seq_bytes, List.length_append, u32_bytes_length, ih, List.length_cons,
      sizeof_key]
    omega

theorem op_seq_bytes_length (big : Bool) (os : List Nat) :
    (op_seq_bytes big os).length = os.length * sizeof_op := by
  induction os with
  | nil => rfl
  | cons o os ih =>
    simp only [op_seq_bytes, List.length_append, u32_bytes_length, ih, List.length_cons,
      sizeof_op]
    omega

theorem key_seq_bytes_inj (big : Bool) :
    ∀ (ks ls : List ddsi_sertype_default_desc_key),
      (∀ k ∈ ks, k.ops_offs < 2 ^ 32 ∧ k.idx < 2 ^ 32) →
      (∀ k ∈ ls, k.ops_offs < 2 ^ 32 ∧ k.idx < 2 ^ 32) →
      ks.length = ls.length → key_seq_bytes big ks = key_seq_bytes big ls → ks = ls
  | [], [], _, _, _, _ => rfl
  | [], _ :: _, _, _, hl, _ => by simp at hl
  | _ :: _, [], _, _, hl, _ => by simp at hl
  | k :: ks, l :: ls, hk, hl, hlen, h => by
    simp only [key_seq_bytes, List.append_assoc] at h
    have h1 := List.append_inj h (by simp [u32_bytes_length])
    have h2 := List.append_inj h1.2 (by simp [u32_bytes_length])
    have hk0 := hk k (List.mem_cons_self _ _)
    have hl0 := hl l (List.mem_cons_self _ _)
    have e1 := u32_bytes_inj big _ _ hk0.1 hl0.1 h1.1
    have e2 := u32_bytes_inj big _ _ hk0.2 hl0.2 h2.1
    have e3 := key_seq_bytes_inj big ks ls
      (fun x hx => hk x (List.mem_cons_of_mem _ hx))
      (fun x hx => hl x (List.mem_cons_of_mem _ hx))
      (by simpa using hlen) h2.2
    cases k; cases l
    simp only [ddsi_sertype_default_desc_key.mk.injEq, List.cons.injEq] at *
    exact ⟨⟨e1, e2⟩, e3⟩

theorem op_seq_bytes_inj (big : Bool) :
    ∀ (os ps : List Nat), (∀ o ∈ os, o < 2 ^ 32) → (∀ o ∈ ps, o < 2 ^ 32) →
      os.length = ps.length → op_seq_bytes big os = op_seq_bytes big ps → os = ps
  | [], [], _, _, _, _ => rfl
  | [], _ :: _, _, _, hl, _ => by simp at hl
  | _ :: _, [], _, _, hl, _ => by simp at hl
  | o :: os, p :: ps, ho, hp, hlen, h => by
    simp only [op_seq_bytes] at h
    have h1 := List.append_inj h (by simp [u32_bytes_length])
    have e1 := u32_bytes_inj big _ _ (ho o (List.mem_cons_self _ _))
      (hp p (List.mem_cons_self _ _)) h1.1
    have e3 := op_seq_bytes_inj big os ps
      (fun x hx => ho x (List.mem_cons_of_mem _ hx))
      (fun x hx => hp x (List.mem_cons_of_mem _ hx))
      (by simpa using hlen) h1.2
    rw [e1, e3]

theorem memcmp_eq_zero_iff :
    ∀ (xs ys : List Nat) (n : Nat), n ≤ xs.length → n ≤ ys.length →
      (memcmp xs ys n = 0 ↔ xs.take n = ys.take n)
  | _, _, 0, _, _ => by simp [memcmp]
  | [], _, n + 1, h, _ => by simp at h
  | _ :: _, [], n + 1, _, h => by simp at h
  | x :: xs, y :: ys, n + 1, hx, hy => by
    simp only [memcmp, List.take_succ_cons, List.cons.injEq]
    by_cases hxy : x = y
    · simp only [hxy, if_true, true_and]
      exact memcmp_eq_zero_iff xs ys n (by simpa using hx) (by simpa using hy)
    · simp only [hxy, if_false, false_and, iff_false]
      omega

theorem memcmp_full (xs ys : List Nat) (h : xs.length = ys.length) :
    memcmp xs ys xs.length = 0 ↔ xs = ys := by
  rw [memcmp_eq_zero_iff xs ys xs.length (le_refl _) (by omega)]
  rw [List.take_length]
  rw [h, List.take_length]

/-! ## `sertype_default_equal` -/

theorem keys_memcmp_iff (big : Bool) (a b : ddsi_sertype_default_desc)
    (ha : desc_wf a) (hb : desc_wf b) (hn : a.keys.nkeys = b.keys.nkeys) :
    (a.keys.nkeys > 0 ∧ memcmp (key_seq_bytes big a.keys.keys) (key_seq_bytes big b.keys.keys)
      (a.keys.nkeys * sizeof_key % 2 ^ 64) ≠ 0) ↔ ¬ (a.keys.keys = b.keys.keys) := by
  obtain ⟨-, -, -, -, hka, -, hkk, -⟩ := ha
  obtain ⟨-, -, -, -, -, -, hkl, -⟩ := hb
  unfold ddsi_sertype_default_desc_key_seq.nkeys at hn hka ⊢
  have hmod : a.keys.keys.length * sizeof_key % 2 ^ 64
      = (key_seq_bytes big a.keys.keys).length := by
    rw [key_seq_bytes_length]; unfold sizeof_key; omega
  have hlen : (key_seq_bytes big a.keys.keys).length = (key_seq_bytes big b.keys.keys).length := by
    rw [key_seq_bytes_length, key_seq_bytes_length, hn]
  rw [hmod]
  constructor
  · rintro ⟨-, hne⟩ heq
    exact hne ((memcmp_full _ _ hlen).2 (by rw [heq]))
  · intro hne
    refine ⟨?_, fun h0 => hne ?_⟩
    · rcases Nat.eq_zero_or_pos a.keys.keys.length with h0 | h0
      · exfalso; apply hne
        have h1 : b.keys.keys.length = 0 := by omega
        rw [List.length_eq_zero] at h0 h1
        rw [h0, h1]
      · exact h0
    · exact key_seq_bytes_inj big _ _ hkk hkl hn ((memcmp_full _ _ hlen).1 h0)

theorem ops_memcmp_iff (big : Bool) (a b : ddsi_sertype_default_desc)
    (ha : desc_wf a) (hb : desc_wf b) (hn : a.ops.nops = b.ops.nops) :
    (a.ops.nops > 0 ∧ memcmp (op_seq_bytes big a.ops.ops) (op_seq_bytes big b.ops.ops)
      (a.ops.nops * sizeof_op % 2 ^ 64) ≠ 0) ↔ ¬ (a.ops.ops = b.ops.ops) := by
  obtain ⟨-, -, -, -, -, hka, -, hkk⟩ := ha
  obtain ⟨-, -, -, -, -, -, -, hkl⟩ := hb
  unfold ddsi_sertype_default_desc_op_seq.nops at hn hka ⊢
  have hmod : a.ops.ops.length * sizeof_op % 2 ^ 64
      = (op_seq_bytes big a.ops.ops).length := by
    rw [op_seq_bytes_length]; unfold sizeof_op; omega
  have hlen : (op_seq_bytes big a.ops.ops).length = (op_seq_bytes big b.ops.ops).length := by
    rw [op_seq_bytes_length, op_seq_bytes_length, hn]
  rw [hmod]
  constructor
  · rintro ⟨-, hne⟩ heq
    exact hne ((memcmp_full _ _ hlen).2 (by rw [heq]))
  · intro hne
    refine ⟨?_, fun h0 => hne ?_⟩
    · rcases Nat.eq_zero_or_pos a.ops.ops.length with h0 | h0
      · exfalso; apply hne
        have h1 : b.ops.ops.length = 0 := by omega
        rw [List.length_eq_zero] at h0 h1
        rw [h0, h1]
      · exact h0
    · exact op_seq_bytes_inj big _ _ hkk hkl hn ((memcmp_full _ _ hlen).1 h0)

/-- The value of `sertype_default_equal` when the final assertion holds. -/
theorem sertype_default_equal_eq (env : Env) (a b : ddsi_sertype_default)
    (ha : desc_wf a.type) (hb : desc_wf b.type)
    (hassert : env.NDEBUG = true ∨ a.opt_size = b.opt_size) :
    sertype_default_equal env a b = some (decide (same_structure a b)) := by
  unfold sertype_default_equal same_structure
  by_cases h1 : a.encoding_format = b.encoding_format <;> simp only [h1, ne_eq, not_true_eq_false,
    not_false_eq_true, if_true, if_false, true_and, false_and, decide_False]
  by_cases h2 : a.type.size = b.type.size <;> simp only [h2, ne_eq, not_true_eq_false,
    not_false_eq_true, if_true, if_false, true_and, false_and, decide_False]
  by_cases h3 : a.type.align = b.type.align <;> simp only [h3, ne_eq, not_true_eq_false,
    not_false_eq_true, if_true, if_false, true_and, false_and, decide_False]
  by_cases h4 : a.type.flagset = b.type.flagset <;> simp only [h4, ne_eq, not_true_eq_false,
    not_false_eq_true, if_true, if_false, true_and, false_and, decide_False]
  by_cases h5 : a.type.extensibility = b.type.extensibility <;> simp only [h5, ne_eq,
    not_true_eq_false, not_false_eq_true, if_true, if_false, true_and, false_and, decide_False]
  by_cases h6 : a.type.keys.nkeys = b.type.keys.nkeys <;> simp only [h6, ne_eq,
    not_true_eq_false, not_false_eq_true, if_true, if_false, true_and, false_and, decide_False]
  have hk := keys_memcmp_iff env.DDSRT_BIG_ENDIAN a.type b.type ha hb h6
  rw [h6] at hk
  simp only [ne_eq] at hk
  by_cases h7 : a.type.keys.keys = b.type.keys.keys
  · rw [if_neg (by rw [hk]; exact not_not.2 h7)]
    simp only [h7, true_and]
    by_cases h8 : a.type.ops.nops = b.type.ops.nops <;> simp only [h8, ne_eq,
      not_true_eq_false, not_false_eq_true, if_true, if_false, true_and, false_and, decide_False]
    have ho := ops_memcmp_iff env.DDSRT_BIG_ENDIAN a.type b.type ha hb h8
    rw [h8] at ho
    simp only [ne_eq] at ho
    by_cases h9 : a.type.ops.ops = b.type.ops.ops
    · rw [if_neg (by rw [ho]; exact not_not.2 h9)]
      rw [if_neg (by rcases hassert with h | h <;> simp [h])]
      simp [h9]
    · rw [if_pos (by rw [ho]; exact h9)]
      simp [h9]
  · rw [if_pos (by rw [hk]; exact h7)]
    simp [h7]

/-- C1: provided the final assertion holds (a build with `NDEBUG`, or equal `opt_size`),
`sertype_default_equal a b` returns true exactly when `a` and `b` have the same
encoding format, size, alignment, flag set, extensibility, key count and entries, and
bytecode count and words, returns false otherwise, and its result does not change when
the common part (type name, reference count, base link), the pool or the encoding
version of either argument is replaced. -/
theorem sertype_default_equal_iff (env : Env) (a b : ddsi_sertype_default)
    (ha : desc_wf a.type) (hb : desc_wf b.type)
    (hassert : env.NDEBUG = true ∨ a.opt_size = b.opt_size) :
    (sertype_default_equal env a b = some true ↔ same_structure a b) ∧
    (sertype_default_equal env a b = some false ↔ ¬ same_structure a b) ∧
    ∀ (c1 c2 : ddsi_sertype) (p1 p2 v1 v2 : Nat),
      sertype_default_equal env { a with c := c1, serpool := p1, encoding_version := v1 }
        { b with c := c2, serpool := p2, encoding_version := v2 }
        = sertype_default_equal env a b := by
  refine ⟨?_, ?_, fun c1 c2 p1 p2 v1 v2 => rfl⟩ <;>
    rw [sertype_default_equal_eq env a b ha hb hassert] <;> simp

/-- Witness of `sertype_default_equal_iff`: a sertype and a copy of it with another name,
reference count and pool, in a build with assertions. -/
theorem sertype_default_equal_iff_witness :
    (sertype_default_equal example_env_debug example_sertype
        { example_sertype with c := { example_sertype.c with type_name := [66], flags_refc := 7 },
                               serpool := 0 } = some true ↔
      same_structure example_sertype
        { example_sertype with c := { example_sertype.c with type_name := [66], flags_refc := 7 },
                               serpool := 0 }) :=
  (sertype_default_equal_iff example_env_debug example_sertype
    { example_sertype with c := { example_sertype.c with type_name := [66], flags_refc := 7 },
                           serpool := 0 } (by decide) (by decide) (Or.inr rfl)).1

theorem memcmp_self : ∀ (xs : List Nat) (n : Nat), memcmp xs xs n = 0
  | _, 0 => by simp [memcmp]
  | [], n + 1 => by simp [memcmp]
  | x :: xs, n + 1 => by simp [memcmp, memcmp_self xs n]

theorem strlen_eq_length : ∀ (s : List Nat), (∀ ch ∈ s, ch ≠ 0) → strlen s = s.length
  | [], _ => rfl
  | c :: cs, h => by
    have hc : c ≠ 0 := h c (List.mem_cons_self _ _)
    simp only [strlen, hc, if_false, List.length_cons]
    rw [strlen_eq_length cs (fun x hx => h x (List.mem_cons_of_mem _ hx))]

/-- The digest written by `sertype_default_typeid_hash` when no byte count is
truncated by the conversion to `uint32_t`. -/
theorem sertype_default_typeid_hash_eq (env : Env) (t : ddsi_sertype_default)
    (hname : ∀ ch ∈ t.c.type_name, ch ≠ 0) (hlen : t.c.type_name.length < 2 ^ 32)
    (hkeys : t.type.keys.nkeys * sizeof_key < 2 ^ 32)
    (hops : t.type.ops.nops * sizeof_op < 2 ^ 32) :
    sertype_default_typeid_hash env t = (true, md5 (typeid_message env.DDSRT_BIG_ENDIAN t)) := by
  have h64 : (2 : Nat) ^ 32 < 2 ^ 64 := by norm_num
  unfold sertype_default_typeid_hash typeid_message ddsrt_md5_finish ddsrt_md5_append
    ddsrt_md5_init
  simp only [strlen_eq_length _ hname, Nat.mod_eq_of_lt hlen, List.take_length, List.nil_append,
    Nat.mod_eq_of_lt hkeys, Nat.mod_eq_of_lt hops, Nat.mod_eq_of_lt (lt_trans hkeys h64),
    Nat.mod_eq_of_lt (lt_trans hops h64)]
  have e2 : List.take 2 (u16_bytes env.DDSRT_BIG_ENDIAN t.encoding_format)
      = u16_bytes env.DDSRT_BIG_ENDIAN t.encoding_format :=
    List.take_of_length_le (by rw [u16_bytes_length])
  have e4 : ∀ x, List.take 4 (u32_bytes env.DDSRT_BIG_ENDIAN x)
      = u32_bytes env.DDSRT_BIG_ENDIAN x :=
    fun x => List.take_of_length_le (by rw [u32_bytes_length])
  have ek : List.take (t.type.keys.nkeys * sizeof_key)
      (key_seq_bytes env.DDSRT_BIG_ENDIAN t.type.keys.keys)
      = key_seq_bytes env.DDSRT_BIG_ENDIAN t.type.keys.keys :=
    List.take_of_length_le (by
      rw [key_seq_bytes_length]; unfold ddsi_sertype_default_desc_key_seq.nkeys; exact le_refl _)
  have eo : List.take (t.type.ops.nops * sizeof_op)
      (op_seq_bytes env.DDSRT_BIG_ENDIAN t.type.ops.ops)
      = op_seq_bytes env.DDSRT_BIG_ENDIAN t.type.ops.ops :=
    List.take_of_length_le (by
      rw [op_seq_bytes_length]; unfold ddsi_sertype_default_desc_op_seq.nops; exact le_refl _)
  rw [e2, e4, e4, e4, e4, ek, eo]

/-- C2: two sertypes that agree on type name, encoding format, size, alignment, flag
set, extensibility, key entries and bytecode words compare equal and get the same
type identifier digest, whatever their reference count, base link, pool or encoding
version (the final assertion of the comparison holding: a build with `NDEBUG`, or equal
`opt_size`). -/
theorem structurally_identical_equal_and_same_typeid (env : Env) (t1 t2 : ddsi_sertype_default)
    (hname : t1.c.type_name = t2.c.type_name)
    (hfmt : t1.encoding_format = t2.encoding_format)
    (hsize : t1.type.size = t2.type.size) (halign : t1.type.align = t2.type.align)
    (hflags : t1.type.flagset = t2.type.flagset)
    (hext : t1.type.extensibility = t2.type.extensibility)
    (hkeys : t1.type.keys.keys = t2.type.keys.keys)
    (hops : t1.type.ops.ops = t2.type.ops.ops)
    (hassert : env.NDEBUG = true ∨ t1.opt_size = t2.opt_size) :
    sertype_default_equal env t1 t2 = some true ∧
    sertype_default_typeid_hash env t1 = sertype_default_typeid_hash env t2 := by
  constructor
  · unfold sertype_default_equal ddsi_sertype_default_desc_key_seq.nkeys
      ddsi_sertype_default_desc_op_seq.nops
    rw [hfmt, hsize, halign, hflags, hext, hkeys, hops]
    simp only [ne_eq, not_true_eq_false, if_false, memcmp_self, and_false]
    rcases hassert with h | h <;> simp [h]
  · unfold sertype_default_typeid_hash ddsi_sertype_default_desc_key_seq.nkeys
      ddsi_sertype_default_desc_op_seq.nops
    rw [hname, hfmt, hsize, halign, hflags, hext, hkeys, hops]

/-- Witness of `structurally_identical_equal_and_same_typeid`: a sertype and a derived
copy with another reference count, base link, pool and encoding version, in a build
with assertions. -/
theorem structurally_identical_equal_and_same_typeid_witness :
    sertype_default_equal example_env_debug example_sertype
      { example_sertype with c := { example_sertype.c with flags_refc := 5,
                                                            base_sertype := some 64 },
                             serpool := 0, encoding_version := 2 } = some true ∧
    sertype_default_typeid_hash example_env_debug example_sertype =
      sertype_default_typeid_hash example_env_debug
        { example_sertype with c := { example_sertype.c with flags_refc := 5,
                                                              base_sertype := some 64 },
                               serpool := 0, encoding_version := 2 } :=
  structurally_identical_equal_and_same_typeid example_env_debug example_sertype
    { example_sertype with c := { example_sertype.c with flags_refc := 5,
                                                          base_sertype := some 64 },
                           serpool := 0, encoding_version := 2 }
    rfl rfl rfl rfl rfl rfl rfl rfl (Or.inr rfl)

/-- C3: `sertype_default_typeid_hash` returns true and writes the MD5 digest of the
type name (without terminator), encoding format, size, alignment, flag set,
extensibility, the key entries and the bytecode words, concatenated in this order and
in host byte order, for every sertype whose byte counts fit the `uint32_t` length
argument of `ddsrt_md5_append`; the result is a function of these fields only. -/
theorem sertype_default_typeid_hash_is_md5 (env : Env) (t : ddsi_sertype_default)
    (hname : ∀ ch ∈ t.c.type_name, ch ≠ 0) (hlen : t.c.type_name.length < 2 ^ 32)
    (hkeys : t.type.keys.nkeys * sizeof_key < 2 ^ 32)
    (hops : t.type.ops.nops * sizeof_op < 2 ^ 32) :
    (sertype_default_typeid_hash env t).1 = true ∧
    (sertype_default_typeid_hash env t).2 =
      md5 (t.c.type_name ++ u16_bytes env.DDSRT_BIG_ENDIAN t.encoding_format ++
        u32_bytes env.DDSRT_BIG_ENDIAN t.type.size ++
        u32_bytes env.DDSRT_BIG_ENDIAN t.type.align ++
        u32_bytes env.DDSRT_BIG_ENDIAN t.type.flagset ++
        u32_bytes env.DDSRT_BIG_ENDIAN t.type.extensibility ++
        key_seq_bytes env.DDSRT_BIG_ENDIAN t.type.keys.keys ++
        op_seq_bytes env.DDSRT_BIG_ENDIAN t.type.ops.ops) ∧
    (sertype_default_typeid_hash env t).2.length = 16 := by
  rw [sertype_default_typeid_hash_eq env t hname hlen hkeys hops]
  refine ⟨rfl, rfl, ?_⟩
  simp [md5, le32, u32_bytes_length]

/-- Witness of `sertype_default_typeid_hash_is_md5` at the example sertype. -/
theorem sertype_default_typeid_hash_is_md5_witness :
    (sertype_default_typeid_hash example_env example_sertype).1 = true ∧
    (sertype_default_typeid_hash example_env example_sertype).2 =
      md5 ([65] ++ u16_bytes false 0 ++ u32_bytes false 8 ++ u32_bytes false 4 ++
        u32_bytes false 0 ++ u32_bytes false 0 ++ key_seq_bytes false [⟨0, 0⟩] ++
        op_seq_bytes false [0x01040000, 0, 0]) ∧
    (sertype_default_typeid_hash example_env example_sertype).2.length = 16 :=
  sertype_default_typeid_hash_is_md5 example_env example_sertype (by decide) (by decide)
    (by decide) (by decide)
theorem u32_decode_bytes (big : Bool) (x : Nat) (hx : x < 2 ^ 32) :
    u32_decode big (u32_bytes big x) = x := by
  unfold u32_bytes
  cases big <;> simp [u32_decode] <;> omega

theorem read_words_bytes (big : Bool) :
    ∀ (ws : List Nat) (rest : List Nat), (∀ w ∈ ws, w < 2 ^ 32) →
      read_words big ws.length (words_bytes big ws ++ rest) = some (ws, rest)
  | [], rest, _ => by simp [read_words, words_bytes]
  | w :: ws, rest, h => by
    have hw := h w (List.mem_cons_self _ _)
    have ih := read_words_bytes big ws rest (fun x hx => h x (List.mem_cons_of_mem _ hx))
    have hd := u32_decode_bytes big w hw
    simp only [words_bytes, List.length_cons, List.append_assoc]
    unfold u32_bytes at hd ⊢
    cases big <;> simp only [Bool.false_eq_true, if_false, if_true, List.cons_append,
      List.nil_append, read_words] at hd ⊢ <;> rw [hd] <;>
      simp only [List.append_eq, List.nil_append, ih]

theorem read_elems_bytes (big : Bool) (w : Nat) :
    ∀ (es : List (List Nat)) (bs rest : List Nat),
      (∀ e ∈ es, ∀ x ∈ e, x < 2 ^ 32) → elems_bytes big w es = some bs →
      read_elems big w es.length (bs ++ rest) = some (es, rest)
  | [], bs, rest, _, h => by
    simp only [elems_bytes, Option.some.injEq] at h
    subst h
    simp [read_elems]
  | e :: es, bs, rest, hb, h => by
    simp only [elems_bytes] at h
    cases hes : elems_bytes big w es with
    | none => simp [hes] at h
    | some bs2 =>
      simp only [hes] at h
      by_cases hl : e.length = w
      · simp only [hl, if_true, Option.some.injEq] at h
        subst h
        have ih := read_elems_bytes big w es bs2 rest
          (fun x hx => hb x (List.mem_cons_of_mem _ hx)) hes
        have hr := read_words_bytes big e (bs2 ++ rest) (hb e (List.mem_cons_self _ _))
        rw [hl] at hr
        simp only [List.length_cons, read_elems, List.append_assoc, hr, ih]
      · simp [hl] at h

theorem elems_bytes_keys (big : Bool) : ∀ (ks : List ddsi_sertype_default_desc_key),
    elems_bytes big 2 (ks.map fun k => [k.ops_offs, k.idx]) = some (key_seq_bytes big ks)
  | [] => rfl
  | k :: ks => by
    simp [elems_bytes, elems_bytes_keys big ks, key_seq_bytes, words_bytes]

theorem elems_bytes_ops (big : Bool) : ∀ (os : List Nat),
    elems_bytes big 1 (os.map fun o => [o]) = some (op_seq_bytes big os)
  | [] => rfl
  | o :: os => by
    simp [elems_bytes, elems_bytes_ops big os, op_seq_bytes, words_bytes]

/-- The encoding of a descriptor: its four words, the key count and entries, the bytecode
count and words. -/
theorem plist_ser_generic_desc (big : Bool) (d : ddsi_sertype_default_desc) :
    plist_ser_generic big ddsi_sertype_default_desc_ops false (desc_members d) =
      some (u32_bytes big d.size ++ u32_bytes big d.align ++ u32_bytes big d.flagset ++
        u32_bytes big d.extensibility ++
        (u32_bytes big (d.keys.nkeys % 2 ^ 32) ++ key_seq_bytes big d.keys.keys ++
          (u32_bytes big (d.ops.nops % 2 ^ 32) ++ op_seq_bytes big d.ops.ops ++ []))) := by
  simp [plist_ser_generic, ddsi_sertype_default_desc_ops, desc_members, pserop.nwords,
    take_words, elem_nwords, elems_bytes_keys, elems_bytes_ops, words_bytes,
    ddsi_sertype_default_desc_key_seq.nkeys, ddsi_sertype_default_desc_op_seq.nops]

theorem plist_deser_generic_desc (big : Bool) (d : ddsi_sertype_default_desc) (hwf : desc_wf d)
    (rest : List Nat) :
    plist_deser_generic big ddsi_sertype_default_desc_ops false
      (words_bytes big [d.size, d.align, d.flagset, d.extensibility] ++
        (words_bytes big [d.keys.nkeys] ++ (key_seq_bytes big d.keys.keys ++
          (words_bytes big [d.ops.nops] ++ (op_seq_bytes big d.ops.ops ++ rest))))) =
      some (desc_members d, rest) := by
  obtain ⟨h1, h2, h3, h4, h5, h6, h7, h8⟩ := hwf
  have r4 := read_words_bytes big [d.size, d.align, d.flagset, d.extensibility]
    (words_bytes big [d.keys.nkeys] ++ (key_seq_bytes big d.keys.keys ++
      (words_bytes big [d.ops.nops] ++ (op_seq_bytes big d.ops.ops ++ rest))))
    (by simp; exact ⟨h1, h2, h3, h4⟩)
  have rk := read_words_bytes big [d.keys.nkeys] (key_seq_bytes big d.keys.keys ++
      (words_bytes big [d.ops.nops] ++ (op_seq_bytes big d.ops.ops ++ rest)))
    (by simp; exact h5)
  have ro := read_words_bytes big [d.ops.nops] (op_seq_bytes big d.ops.ops ++ rest)
    (by simp; exact h6)
  have ek := read_elems_bytes big 2 (d.keys.keys.map fun k => [k.ops_offs, k.idx])
    (key_seq_bytes big d.keys.keys)
    (words_bytes big [d.ops.nops] ++ (op_seq_bytes big d.ops.ops ++ rest))
    (by
      intro e he x hx
      simp only [List.mem_map] at he
      obtain ⟨k, hk, rfl⟩ := he
      have := h7 k hk
      simp only [List.mem_cons, List.mem_singleton, List.not_mem_nil, or_false] at hx
      rcases hx with rfl | rfl
      · exact this.1
      · exact this.2)
    (elems_bytes_keys big _)
  have eo := read_elems_bytes big 1 (d.ops.ops.map fun o => [o])
    (op_seq_bytes big d.ops.ops) rest
    (by
      intro e he x hx
      simp only [List.mem_map] at he
      obtain ⟨o, ho, rfl⟩ := he
      simp only [List.mem_singleton] at hx
      rw [hx]
      exact h8 o ho)
    (elems_bytes_ops big _)
  simp only [ddsi_sertype_default_desc_key_seq.nkeys, ddsi_sertype_default_desc_op_seq.nops,
    List.length_cons, List.length_nil, List.length_map, Nat.zero_add, Nat.reduceAdd]
    at r4 rk ro ek eo ⊢
  simp only [ddsi_sertype_default_desc_ops, plist_deser_generic, pserop.nwords, elem_nwords,
    Nat.reduceAdd, r4, rk, ek, ro, eo, desc_members, List.map, List.cons_append,
    List.nil_append]

theorem keys_of_elems_map : ∀ (ks : List ddsi_sertype_default_desc_key),
    keys_of_elems (ks.map fun k => [k.ops_offs, k.idx]) = some ks
  | [] => rfl
  | k :: ks => by
    simp [keys_of_elems, keys_of_elems_map ks, key_of_words]

theorem ops_of_elems_map : ∀ (os : List Nat),
    ops_of_elems (os.map fun o => [o]) = some os
  | [] => rfl
  | o :: os => by
    simp [ops_of_elems, ops_of_elems_map os, op_of_words]

theorem members_desc_members (d : ddsi_sertype_default_desc) :
    members_desc (desc_members d) = some d := by
  simp [members_desc, desc_members, keys_of_elems_map, ops_of_elems_map]

theorem buf_write_read (buf : List Nat) (off : Nat) (bytes : List Nat) :
    ((buf_write buf off bytes).take (off + bytes.length)).drop off = bytes := by
  unfold buf_write
  have hl : (List.take off buf ++ List.replicate (off - buf.length) 0).length = off := by
    simp only [List.length_append, List.length_take, List.length_replicate]
    omega
  have hl2 : (List.take off buf ++ List.replicate (off - buf.length) 0 ++ bytes).length
      = off + bytes.length := by
    rw [List.length_append, hl]
  rw [List.take_left' hl2, List.drop_left' hl]

theorem bswap_wire_little (big : Bool) : (big != decide (big ≠ false)) = false := by
  cases big <;> rfl

/-- What `sertype_default_serialize` returns: success, the offset past the encoding and
the buffer holding the little-endian encoding at the aligned offset. -/
theorem sertype_default_serialize_eq (env : Env) (t : ddsi_sertype_default) (dst_offset : Nat)
    (dst_buf : List Nat) :
    sertype_default_serialize env t dst_offset dst_buf =
      (true,
        align4 dst_offset + (words_bytes false [t.type.size, t.type.align, t.type.flagset,
          t.type.extensibility] ++ (words_bytes false [t.type.keys.nkeys % 2 ^ 32] ++
          (key_seq_bytes false t.type.keys.keys ++ (words_bytes false [t.type.ops.nops % 2 ^ 32] ++
          (op_seq_bytes false t.type.ops.ops ++ []))))).length,
        buf_write dst_buf (align4 dst_offset)
          (words_bytes false [t.type.size, t.type.align, t.type.flagset,
          t.type.extensibility] ++ (words_bytes false [t.type.keys.nkeys % 2 ^ 32] ++
          (key_seq_bytes false t.type.keys.keys ++ (words_bytes false [t.type.ops.nops % 2 ^ 32] ++
          (op_seq_bytes false t.type.ops.ops ++ [])))))) := by
  unfold sertype_default_serialize plist_ser_generic_embeddable
  simp only [bosel_big, plist_ser_generic_desc, words_bytes, List.append_assoc, List.append_nil,
    ge_iff_le, le_refl, decide_True]

/-- Deserializing what `sertype_default_serialize` wrote succeeds and rebuilds the
descriptor; the derived fields are recomputed. -/
theorem sertype_default_deserialize_serialize (env : Env) (gv : ddsi_domaingv)
    (t st : ddsi_sertype_default) (dst_offset : Nat) (dst_buf : List Nat)
    (hwf : desc_wf t.type) :
    sertype_default_deserialize env gv st
      (sertype_default_serialize env t dst_offset dst_buf).2.1
      (sertype_default_serialize env t dst_offset dst_buf).2.2 dst_offset =
    (true,
      { c := { st.c with base_sertype := none,
                         serdata_ops := if st.c.typekind_no_key then .ddsi_serdata_ops_cdr_nokey
                                        else .ddsi_serdata_ops_cdr,
                         dynamic_types := env.dds_stream_has_dynamic_type t.type.ops.ops },
        encoding_format :=
          env.ddsi_sertype_get_encoding_format (env.DDS_TOPIC_TYPE_EXTENSIBILITY t.type.flagset),
        encoding_version := st.encoding_version,
        serpool := gv.serpool,
        type := t.type,
        opt_size := if t.type.flagset &&& env.DDS_TOPIC_NO_OPTIMIZE ≠ 0 then 0
                    else env.dds_stream_check_optimize t.type },
      (sertype_default_serialize env t dst_offset dst_buf).2.1) := by
  rw [sertype_default_serialize_eq]
  have hk : t.type.keys.nkeys % 2 ^ 32 = t.type.keys.nkeys := Nat.mod_eq_of_lt hwf.2.2.2.2.1
  have ho : t.type.ops.nops % 2 ^ 32 = t.type.ops.nops := Nat.mod_eq_of_lt hwf.2.2.2.2.2.1
  rw [hk, ho]
  unfold sertype_default_deserialize plist_deser_generic_srcoff
  simp only [bswap_wire_little, buf_write_read, plist_deser_generic_desc false t.type hwf [],
    members_desc_members]
  simp

/-- C4: descriptor round trip. For every sertype `t` with a well-formed descriptor whose
encoding format is the one derived from its flag set, `sertype_default_serialize`
succeeds, and `sertype_default_deserialize` of the bytes it wrote, into a target that
carries the type name of `t`, succeeds, stops at the offset where serialization stopped,
and yields a sertype with the descriptor of `t` (size, alignment, flag set, extensibility,
key entries, bytecode words) and the type identifier digest of `t`. -/
theorem descriptor_round_trip (env : Env) (gv : ddsi_domaingv) (t st : ddsi_sertype_default)
    (dst_offset : Nat) (dst_buf : List Nat)
    (hwf : desc_wf t.type)
    (hname : st.c.type_name = t.c.type_name)
    (hfmt : t.encoding_format =
      env.ddsi_sertype_get_encoding_format (env.DDS_TOPIC_TYPE_EXTENSIBILITY t.type.flagset)) :
    (sertype_default_serialize env t dst_offset dst_buf).1 = true ∧
    (sertype_default_deserialize env gv st
      (sertype_default_serialize env t dst_offset dst_buf).2.1
      (sertype_default_serialize env t dst_offset dst_buf).2.2 dst_offset).1 = true ∧
    (sertype_default_deserialize env gv st
      (sertype_default_serialize env t dst_offset dst_buf).2.1
      (sertype_default_serialize env t dst_offset dst_buf).2.2 dst_offset).2.2 =
      (sertype_default_serialize env t dst_offset dst_buf).2.1 ∧
    (sertype_default_deserialize env gv st
      (sertype_default_serialize env t dst_offset dst_buf).2.1
      (sertype_default_serialize env t dst_offset dst_buf).2.2 dst_offset).2.1.type = t.type ∧
    sertype_default_typeid_hash env (sertype_default_deserialize env gv st
      (sertype_default_serialize env t dst_offset dst_buf).2.1
      (sertype_default_serialize env t dst_offset dst_buf).2.2 dst_offset).2.1 =
      sertype_default_typeid_hash env t := by
  rw [sertype_default_deserialize_serialize env gv t st dst_offset dst_buf hwf]
  refine ⟨?_, rfl, rfl, rfl, ?_⟩
  · rw [sertype_default_serialize_eq]
  · unfold sertype_default_typeid_hash
    simp only [hname, ← hfmt]

/-- Witness of `descriptor_round_trip`: the example sertype, written at offset 5 of a
buffer and read back into a target with other derived fields. -/
theorem descriptor_round_trip_witness :
    (sertype_default_deserialize example_env ⟨7⟩
      { example_sertype with encoding_format := 2, opt_size := 0,
                             type := { example_sertype.type with size := 0 } }
      (sertype_default_serialize example_env example_sertype 5 [9, 9, 9, 9, 9, 9]).2.1
      (sertype_default_serialize example_env example_sertype 5 [9, 9, 9, 9, 9, 9]).2.2
      5).2.1.type = example_sertype.type :=
  (descriptor_round_trip example_env ⟨7⟩ example_sertype
    { example_sertype with encoding_format := 2, opt_size := 0,
                           type := { example_sertype.type with size := 0 } }
    5 [9, 9, 9, 9, 9, 9] (by decide) rfl rfl).2.2.2.1

theorem read_words_length (big : Bool) :
    ∀ (n : Nat) (bs ws r : List Nat), read_words big n bs = some (ws, r) → ws.length = n
  | 0, bs, ws, r, h => by
    simp only [read_words, Option.some.injEq, Prod.mk.injEq] at h
    rw [← h.1]; rfl
  | n + 1, [], ws, r, h => by simp [read_words] at h
  | n + 1, [_], ws, r, h => by simp [read_words] at h
  | n + 1, [_, _], ws, r, h => by simp [read_words] at h
  | n + 1, [_, _, _], ws, r, h => by simp [read_words] at h
  | n + 1, a :: b :: c :: d :: bs, ws, r, h => by
    simp only [read_words] at h
    cases hr : read_words big n bs with
    | none => simp [hr] at h
    | some p =>
      obtain ⟨ws2, r2⟩ := p
      simp only [hr, Option.some.injEq, Prod.mk.injEq] at h
      rw [← h.1, List.length_cons, read_words_length big n bs ws2 r2 hr]

theorem read_elems_length (big : Bool) (w : Nat) :
    ∀ (n : Nat) (bs : List Nat) (es : List (List Nat)) (r : List Nat),
      read_elems big w n bs = some (es, r) → ∀ e ∈ es, e.length = w
  | 0, bs, es, r, h => by
    simp only [read_elems, Option.some.injEq, Prod.mk.injEq] at h
    rw [← h.1]; simp
  | n + 1, bs, es, r, h => by
    simp only [read_elems] at h
    cases hw : read_words big w bs with
    | none => simp [hw] at h
    | some p =>
      obtain ⟨e, r1⟩ := p
      simp only [hw] at h
      cases hr : read_elems big w n r1 with
      | none => simp [hr] at h
      | some q =>
        obtain ⟨es2, r2⟩ := q
        simp only [hr, Option.some.injEq, Prod.mk.injEq] at h
        rw [← h.1]
        intro x hx
        rcases List.mem_cons.1 hx with rfl | hx
        · exact read_words_length big w bs _ r1 hw
        · exact read_elems_length big w n r1 es2 r2 hr x hx

theorem keys_of_elems_isSome : ∀ (es : List (List Nat)), (∀ e ∈ es, e.length = 2) →
    ∃ ks, keys_of_elems es = some ks
  | [], _ => ⟨[], rfl⟩
  | e :: es, h => by
    obtain ⟨ks, hks⟩ := keys_of_elems_isSome es (fun x hx => h x (List.mem_cons_of_mem _ hx))
    have he := h e (List.mem_cons_self _ _)
    match e, he with
    | [x, y], _ => exact ⟨⟨x, y⟩ :: ks, by simp [keys_of_elems, key_of_words, hks]⟩

theorem ops_of_elems_isSome : ∀ (es : List (List Nat)), (∀ e ∈ es, e.length = 1) →
    ∃ os, ops_of_elems es = some os
  | [], _ => ⟨[], rfl⟩
  | e :: es, h => by
    obtain ⟨os, hos⟩ := ops_of_elems_isSome es (fun x hx => h x (List.mem_cons_of_mem _ hx))
    have he := h e (List.mem_cons_self _ _)
    match e, he with
    | [x], _ => exact ⟨x :: os, by simp [ops_of_elems, op_of_words, hos]⟩

/-- Whatever the generic decoder accepts for the descriptor table is a descriptor. -/
theorem plist_deser_generic_members (big : Bool) (bs : List Nat) (ms : List pmember)
    (r : List Nat)
    (h : plist_deser_generic big ddsi_sertype_default_desc_ops false bs = some (ms, r)) :
    ∃ d, members_desc ms = some d := by
  simp only [ddsi_sertype_default_desc_ops, plist_deser_generic, pserop.nwords, elem_nwords,
    Nat.reduceAdd] at h
  cases h4 : read_words big 4 bs with
  | none => simp [h4] at h
  | some p4 =>
    obtain ⟨ws, r1⟩ := p4
    have hl4 := read_words_length big 4 bs ws r1 h4
    simp only [h4] at h
    cases hk : read_words big 1 r1 with
    | none => simp [hk] at h
    | some pk =>
      obtain ⟨nk, r2⟩ := pk
      have hlk := read_words_length big 1 r1 nk r2 hk
      match nk, hlk with
      | [n], _ =>
        simp only [hk] at h
        cases hek : read_elems big 2 n r2 with
        | none => simp [hek] at h
        | some pe =>
          obtain ⟨ks, r3⟩ := pe
          have hks := read_elems_length big 2 n r2 ks r3 hek
          simp only [hek] at h
          cases ho : read_words big 1 r3 with
          | none => simp [ho] at h
          | some po =>
            obtain ⟨no, r4⟩ := po
            have hlo := read_words_length big 1 r3 no r4 ho
            match no, hlo with
            | [m], _ =>
              simp only [ho] at h
              cases heo : read_elems big 1 m r4 with
              | none => simp [heo] at h
              | some pq =>
                obtain ⟨os, r5⟩ := pq
                have hos := read_elems_length big 1 m r4 os r5 heo
                simp only [heo, Option.some.injEq, Prod.mk.injEq] at h
                obtain ⟨keys, hkeys⟩ := keys_of_elems_isSome ks hks
                obtain ⟨ops, hops⟩ := ops_of_elems_isSome os hos
                match ws, hl4 with
                | [a, b, c, d], _ =>
                  rw [← h.1]
                  exact ⟨⟨a, b, c, d, ⟨keys⟩, ⟨ops⟩⟩, by simp [members_desc, hkeys, hops]⟩

/-- `sertype_default_deserialize` returns true exactly when the generic decoder does not
return a negative code. -/
theorem sertype_default_deserialize_ok_iff (env : Env) (gv : ddsi_domaingv)
    (st : ddsi_sertype_default) (src_sz : Nat) (src_data : List Nat) (src_offset : Nat) :
    (sertype_default_deserialize env gv st src_sz src_data src_offset).1 = true ↔
      ¬ (plist_deser_generic_srcoff env src_data src_sz src_offset
        (decide (env.DDSRT_BIG_ENDIAN ≠ false)) ddsi_sertype_default_desc_ops).1 < 0 := by
  unfold sertype_default_deserialize
  by_cases hrc : (plist_deser_generic_srcoff env src_data src_sz src_offset
      (decide (env.DDSRT_BIG_ENDIAN ≠ false)) ddsi_sertype_default_desc_ops).1 < 0
  · simp only [hrc, if_true, not_true_eq_false, iff_false]
    simp
  · simp only [hrc, if_false, not_false_eq_true, iff_true]
    have hex : ∃ d, members_desc (plist_deser_generic_srcoff env src_data src_sz src_offset
        (decide (env.DDSRT_BIG_ENDIAN ≠ false)) ddsi_sertype_default_desc_ops).2.1 = some d := by
      unfold plist_deser_generic_srcoff at hrc ⊢
      rw [bswap_wire_little] at hrc ⊢
      cases hp : plist_deser_generic false ddsi_sertype_default_desc_ops false
          ((src_data.take src_sz).drop (align4 src_offset)) with
      | none =>
        rw [hp] at hrc
        exact absurd (show (-3 : Int) < 0 by decide) hrc
      | some p =>
        obtain ⟨ms, rest⟩ := p
        simp only
        exact plist_deser_generic_members _ _ ms rest hp
    obtain ⟨d, hd⟩ := hex
    rw [hd]

/-- C5: when `sertype_default_deserialize` succeeds, the encoding format of the result is
the one of the extensibility in the reconstructed flag set and its `opt_size` is 0 when
the no-optimize flag is set and the stream optimizer's result for the reconstructed
descriptor otherwise; success, the reconstructed descriptor and both derived fields are
the same for every target; and the function returns false when the generic decoder
returns a negative code, and only then. -/
theorem sertype_default_deserialize_derived (env : Env) (gv : ddsi_domaingv)
    (st : ddsi_sertype_default) (src_sz : Nat) (src_data : List Nat) (src_offset : Nat) :
    ((sertype_default_deserialize env gv st src_sz src_data src_offset).1 = true →
      (sertype_default_deserialize env gv st src_sz src_data src_offset).2.1.encoding_format =
        env.ddsi_sertype_get_encoding_format (env.DDS_TOPIC_TYPE_EXTENSIBILITY
          (sertype_default_deserialize env gv st src_sz src_data src_offset).2.1.type.flagset) ∧
      (sertype_default_deserialize env gv st src_sz src_data src_offset).2.1.opt_size =
        if (sertype_default_deserialize env gv st src_sz src_data src_offset).2.1.type.flagset
            &&& env.DDS_TOPIC_NO_OPTIMIZE ≠ 0 then 0
        else env.dds_stream_check_optimize
          (sertype_default_deserialize env gv st src_sz src_data src_offset).2.1.type) ∧
    (∀ st2 : ddsi_sertype_default,
      (sertype_default_deserialize env gv st2 src_sz src_data src_offset).1 =
        (sertype_default_deserialize env gv st src_sz src_data src_offset).1 ∧
      ((sertype_default_deserialize env gv st src_sz src_data src_offset).1 = true →
        (sertype_default_deserialize env gv st2 src_sz src_data src_offset).2.1.type =
          (sertype_default_deserialize env gv st src_sz src_data src_offset).2.1.type ∧
        (sertype_default_deserialize env gv st2 src_sz src_data src_offset).2.1.encoding_format =
          (sertype_default_deserialize env gv st src_sz src_data src_offset).2.1.encoding_format ∧
        (sertype_default_deserialize env gv st2 src_sz src_data src_offset).2.1.opt_size =
          (sertype_default_deserialize env gv st src_sz src_data src_offset).2.1.opt_size)) ∧
    ((plist_deser_generic_srcoff env src_data src_sz src_offset
        (decide (env.DDSRT_BIG_ENDIAN ≠ false)) ddsi_sertype_default_desc_ops).1 < 0 →
      (sertype_default_deserialize env gv st src_sz src_data src_offset).1 = false) ∧
    ((sertype_default_deserialize env gv st src_sz src_data src_offset).1 = false →
      (plist_deser_generic_srcoff env src_data src_sz src_offset
        (decide (env.DDSRT_BIG_ENDIAN ≠ false)) ddsi_sertype_default_desc_ops).1 < 0) := by
  rw [← and_assoc, ← and_assoc]
  refine ⟨?_, fun hf => ?_⟩
  swap
  · by_contra hrc
    rw [(sertype_default_deserialize_ok_iff env gv st src_sz src_data src_offset).2 hrc] at hf
    exact absurd hf (by decide)
  rw [and_assoc]
  unfold sertype_default_deserialize
  generalize plist_deser_generic_srcoff env src_data src_sz src_offset
      (decide (env.DDSRT_BIG_ENDIAN ≠ false)) ddsi_sertype_default_desc_ops = r
  obtain ⟨rc, ms, off⟩ := r
  simp only
  by_cases hrc : rc < 0
  · simp [hrc]
  · simp only [hrc, if_false]
    cases hm : members_desc ms with
    | none => simp
    | some d => simp

/-- Witness of `sertype_default_deserialize_derived`: a descriptor with the no-optimize
flag decoded into the example sertype, and the same input cut short. -/
theorem sertype_default_deserialize_derived_witness :
    (sertype_default_deserialize example_env ⟨7⟩ example_sertype 24
      [8, 0, 0, 0, 4, 0, 0, 0, 65, 0, 0, 0, 0, 0, 0, 0, 0, 0, 0, 0, 0, 0, 0, 0] 0).1 = true ∧
    ((sertype_default_deserialize example_env ⟨7⟩ example_sertype 24
      [8, 0, 0, 0, 4, 0, 0, 0, 65, 0, 0, 0, 0, 0, 0, 0, 0, 0, 0, 0, 0, 0, 0, 0]
      0).2.1.encoding_format = 1 ∧
    (sertype_default_deserialize example_env ⟨7⟩ example_sertype 24
      [8, 0, 0, 0, 4, 0, 0, 0, 65, 0, 0, 0, 0, 0, 0, 0, 0, 0, 0, 0, 0, 0, 0, 0]
      0).2.1.opt_size = 0) ∧
    (sertype_default_deserialize example_env ⟨7⟩ example_sertype 23
      [8, 0, 0, 0, 4, 0, 0, 0, 65, 0, 0, 0, 0, 0, 0, 0, 0, 0, 0, 0, 0, 0, 0, 0] 0).1 = false :=
  ⟨by decide,
   (sertype_default_deserialize_derived example_env ⟨7⟩ example_sertype 24
      [8, 0, 0, 0, 4, 0, 0, 0, 65, 0, 0, 0, 0, 0, 0, 0, 0, 0, 0, 0, 0, 0, 0, 0] 0).1 (by decide),
   (sertype_default_deserialize_derived example_env ⟨7⟩ example_sertype 23
      [8, 0, 0, 0, 4, 0, 0, 0, 65, 0, 0, 0, 0, 0, 0, 0, 0, 0, 0, 0, 0, 0, 0, 0] 0).2.2.1
      (by decide)⟩

/-! ## `sertype_default_assignable_from` -/

/-- C6, as stated, fails: with the producer as first argument and the consumer as second,
a consumer that disabled type checking does not make the call return true. In a build
with type discovery it returns false for a producer with the flag clear and another
type identifier; in a build without type discovery it returns false. -/
theorem assignable_from_producer_first_counterexample :
    example_sertype_notypecheck.type.flagset &&& example_env.DDS_TOPIC_DISABLE_TYPECHECK ≠ 0 ∧
    sertype_default_assignable_from example_env example_sertype example_sertype_notypecheck
      = some false ∧
    sertype_default_assignable_from { example_env with DDS_HAS_TYPE_DISCOVERY := false }
      example_sertype example_sertype_notypecheck = some false := by
  decide

/-- C6, amended: in a build with type discovery, `sertype_default_assignable_from a b`
returns true for every `b` whenever the flag set of its first argument `a`, the
receiving type, holds the disable-typecheck flag, whatever the type identifiers. -/
theorem assignable_from_receiver_typecheck_disabled (env : Env) (a b : ddsi_sertype_default)
    (hdisc : env.DDS_HAS_TYPE_DISCOVERY = true)
    (hflag : a.type.flagset &&& env.DDS_TOPIC_DISABLE_TYPECHECK ≠ 0) :
    sertype_default_assignable_from env a b = some true := by
  unfold sertype_default_assignable_from
  simp only [hdisc, if_true]
  rw [if_pos hflag]

/-- Witness of `assignable_from_receiver_typecheck_disabled`: the receiver disabled type
checking and the other type has another name. -/
theorem assignable_from_receiver_typecheck_disabled_witness :
    sertype_default_assignable_from example_env example_sertype_notypecheck example_sertype
      = some true :=
  assignable_from_receiver_typecheck_disabled example_env example_sertype_notypecheck
    example_sertype rfl (by decide)

/-! ## `sertype_default_derive_sertype` -/

theorem and_not32_and_self (x m : Nat) (hm : m < 2 ^ 32) : (x &&& not32 m) &&& m = 0 := by
  apply Nat.eq_of_testBit_eq
  intro i
  simp only [Nat.testBit_and, not32, Nat.testBit_xor, Nat.testBit_two_pow_sub_one,
    Nat.zero_testBit]
  by_cases hi : i < 32
  · cases m.testBit i <;> simp [hi]
  · have : m.testBit i = false :=
      Nat.testBit_lt_two_pow (lt_of_lt_of_le hm (Nat.pow_le_pow_right (by norm_num) (by omega)))
    simp [this]

theorem refc_succ (x k : Nat) (hk : k ≤ 32) (hroom : x &&& (2 ^ k - 1) < 2 ^ k - 1) :
    ((x + 1) % 2 ^ 32) &&& (2 ^ k - 1) = (x &&& (2 ^ k - 1)) + 1 := by
  rw [Nat.and_pow_two_sub_one_eq_mod] at hroom ⊢
  rw [Nat.and_pow_two_sub_one_eq_mod]
  rw [Nat.mod_mod_of_dvd _ (Nat.pow_dvd_pow 2 hk)]
  rw [Nat.add_mod, Nat.mod_eq_of_lt (a := x % 2 ^ k + 1 % 2 ^ k)]
  · rcases Nat.eq_zero_or_pos k with h0 | h0
    · subst h0; simp at hroom
    · have : (1 : Nat) < 2 ^ k := Nat.one_lt_two_pow (by omega)
      rw [Nat.mod_eq_of_lt this]
  · rcases Nat.eq_zero_or_pos k with h0 | h0
    · subst h0; simp at hroom
    · have : (1 : Nat) < 2 ^ k := Nat.one_lt_two_pow (by omega)
      rw [Nat.mod_eq_of_lt this]
      omega

theorem flags_succ (x k : Nat) (hk : k ≤ 32) (hx : x < 2 ^ 32)
    (hroom : x &&& (2 ^ k - 1) < 2 ^ k - 1) :
    ((x + 1) % 2 ^ 32) &&& not32 (2 ^ k - 1) = x &&& not32 (2 ^ k - 1) := by
  rw [Nat.and_pow_two_sub_one_eq_mod] at hroom
  have hlt : x + 1 < 2 ^ 32 := by
    have h1 : x % 2 ^ k ≤ x := Nat.mod_le _ _
    have h2 : (2 : Nat) ^ k ≤ 2 ^ 32 := Nat.pow_le_pow_right (by norm_num) hk
    rcases Nat.lt_or_ge (x + 1) (2 ^ 32) with h | h
    · exact h
    · exfalso
      have hx1 : x = 2 ^ 32 - 1 := by omega
      have h3 : (2 : Nat) ^ 32 = 2 ^ k * 2 ^ (32 - k) := by
        rw [← Nat.pow_add]; congr 1; omega
      have h4 : (x + 1) % 2 ^ k = 0 := by
        rw [hx1, Nat.sub_add_cancel (Nat.one_le_two_pow), h3]
        exact Nat.mul_mod_right _ _
      have h5 : (x % 2 ^ k + 1) % 2 ^ k = 0 := by
        rw [← h4, Nat.add_mod x 1, Nat.add_mod (x % 2 ^ k) 1, Nat.mod_mod]
      rw [Nat.mod_eq_of_lt (by omega)] at h5
      omega
  rw [Nat.mod_eq_of_lt hlt]
  apply Nat.eq_of_testBit_eq
  intro i
  simp only [Nat.testBit_and, not32, Nat.testBit_xor, Nat.testBit_two_pow_sub_one]
  by_cases hi : i < k
  · have hi2 : i < 32 := by omega
    simp [hi, hi2]
  · have hx2 : x = 2 ^ k * (x / 2 ^ k) + x % 2 ^ k := (Nat.div_add_mod x (2 ^ k)).symm
    have hx3 : x + 1 = 2 ^ k * (x / 2 ^ k) + (x % 2 ^ k + 1) := by omega
    have e1 : x.testBit i = (x / 2 ^ k).testBit (i - k) := by
      conv_lhs => rw [hx2]
      rw [Nat.testBit_mul_pow_two_add _ (Nat.mod_lt _ (Nat.two_pow_pos k))]
      simp [hi]
    have e2 : (x + 1).testBit i = (x / 2 ^ k).testBit (i - k) := by
      rw [hx3]
      rw [Nat.testBit_mul_pow_two_add _ (by omega)]
      simp [hi]
    rw [e1, e2]

/-- C7: for a base sertype whose reference count is below the largest value its bit field
(the low `k` bits of `flags_refc`, the bits of `DDSI_SERTYPE_REFC_MASK`) can hold,
`sertype_default_derive_sertype` returns a sertype with the encoding format, encoding
version, pool, `opt_size`, type name and descriptor (size, alignment, flag set,
extensibility, keys, bytecode) of the base, with zero reference-count bits and the flag
bits of the base, and with the base link set to the address of the base; after the call
the reference count of the base is one more than before, its flag bits are unchanged
and so is every other field. -/
theorem sertype_default_derive_sertype_spec (env : Env) (base_sertype : Nat)
    (base : ddsi_sertype_default) (k : Nat) (hk : k ≤ 32)
    (hmask : env.DDSI_SERTYPE_REFC_MASK = 2 ^ k - 1)
    (hword : base.c.flags_refc < 2 ^ 32)
    (hroom : base.c.flags_refc &&& env.DDSI_SERTYPE_REFC_MASK < env.DDSI_SERTYPE_REFC_MASK) :
    (sertype_default_derive_sertype env base_sertype base).1 =
      { base with c := { base.c with
          flags_refc := (sertype_default_derive_sertype env base_sertype base).1.c.flags_refc,
          base_sertype := some base_sertype } } ∧
    (sertype_default_derive_sertype env base_sertype base).1.c.flags_refc
      &&& env.DDSI_SERTYPE_REFC_MASK = 0 ∧
    (sertype_default_derive_sertype env base_sertype base).1.c.flags_refc
      &&& not32 env.DDSI_SERTYPE_REFC_MASK
      = base.c.flags_refc &&& not32 env.DDSI_SERTYPE_REFC_MASK ∧
    (sertype_default_derive_sertype env base_sertype base).1.c.base_sertype
      = some base_sertype ∧
    (sertype_default_derive_sertype env base_sertype base).2.c.flags_refc
      &&& env.DDSI_SERTYPE_REFC_MASK
      = (base.c.flags_refc &&& env.DDSI_SERTYPE_REFC_MASK) + 1 ∧
    (sertype_default_derive_sertype env base_sertype base).2.c.flags_refc
      &&& not32 env.DDSI_SERTYPE_REFC_MASK
      = base.c.flags_refc &&& not32 env.DDSI_SERTYPE_REFC_MASK ∧
    (sertype_default_derive_sertype env base_sertype base).2 =
      { base with c := { base.c with
          flags_refc := (sertype_default_derive_sertype env base_sertype base).2.c.flags_refc } }
    := by
  have hm : env.DDSI_SERTYPE_REFC_MASK < 2 ^ 32 := by
    rw [hmask]
    have : (2 : Nat) ^ k ≤ 2 ^ 32 := Nat.pow_le_pow_right (by norm_num) hk
    have : 0 < (2 : Nat) ^ k := Nat.two_pow_pos k
    omega
  refine ⟨rfl, ?_, ?_, rfl, ?_, ?_, rfl⟩
  · exact and_not32_and_self _ _ hm
  · show (base.c.flags_refc &&& not32 env.DDSI_SERTYPE_REFC_MASK)
      &&& not32 env.DDSI_SERTYPE_REFC_MASK = _
    rw [Nat.and_assoc, Nat.and_self]
  · show ((base.c.flags_refc + 1) % 2 ^ 32) &&& env.DDSI_SERTYPE_REFC_MASK = _
    rw [hmask] at hroom ⊢
    exact refc_succ _ k hk hroom
  · show ((base.c.flags_refc + 1) % 2 ^ 32) &&& not32 env.DDSI_SERTYPE_REFC_MASK = _
    rw [hmask] at hroom ⊢
    exact flags_succ _ k hk hword hroom

/-- Witness of `sertype_default_derive_sertype_spec`: a base at address 4096 with flag bit
28 set and reference count 3. -/
theorem sertype_default_derive_sertype_spec_witness :
    (sertype_default_derive_sertype example_env 4096
      { example_sertype with c := { example_sertype.c with flags_refc := 0x10000003 } }).1.c.flags_refc
      &&& example_env.DDSI_SERTYPE_REFC_MASK = 0 ∧
    (sertype_default_derive_sertype example_env 4096
      { example_sertype with c := { example_sertype.c with flags_refc := 0x10000003 } }).2.c.flags_refc
      &&& example_env.DDSI_SERTYPE_REFC_MASK = 4 :=
  ⟨(sertype_default_derive_sertype_spec example_env 4096
      { example_sertype with c := { example_sertype.c with flags_refc := 0x10000003 } }
      28 (by decide) (by decide) (by decide) (by decide)).2.1,
   (sertype_default_derive_sertype_spec example_env 4096
      { example_sertype with c := { example_sertype.c with flags_refc := 0x10000003 } }
      28 (by decide) (by decide) (by decide) (by decide)).2.2.2.2.1⟩

/-! ## `sertype_default_free_samples` -/

theorem free_samples_loop_eq (size : Nat) (ops : List Nat) :
    ∀ (n p : Nat), free_samples_loop size ops n p =
      (List.range n).map fun i => free_call.dds_stream_free_sample (p + i * size) ops
  | 0, _ => rfl
  | n + 1, p => by
    rw [free_samples_loop, free_samples_loop_eq size ops n (p + size), List.range_succ_eq_map]
    simp only [List.map_cons, List.map_map, Nat.zero_mul, Nat.add_zero, List.cons.injEq,
      true_and]
    apply List.map_congr_left
    intro i _
    simp only [Function.comp_apply, free_call.dds_stream_free_sample.injEq, and_true]
    rw [Nat.succ_mul]; omega

theorem contiguous_ptrs_getElem? (p0 size count i : Nat) (hi : i < count) :
    (contiguous_ptrs p0 size count)[i]? = some (p0 + i * size) := by
  simp [contiguous_ptrs, List.getElem?_map, List.getElem?_range hi]

theorem free_samples_asserts_contiguous (p0 size count : Nat) (hsz : count * size < 2 ^ 64)
    (hc : 0 < count) :
    ∀ (n i : Nat), i + n ≤ count →
      free_samples_asserts (contiguous_ptrs p0 size count) size n i (i * size) = true
  | 0, _, _ => rfl
  | n + 1, i, h => by
    have hi : i < count := by omega
    have hle : (i + 1) * size ≤ count * size := Nat.mul_le_mul_right _ (by omega)
    have hmod : (i * size + size) % 2 ^ 64 = (i + 1) * size := by
      rw [Nat.succ_mul]
      rw [Nat.succ_mul] at hle
      exact Nat.mod_eq_of_lt (by omega)
    rw [free_samples_asserts, contiguous_ptrs_getElem? p0 size count i hi,
      contiguous_ptrs_getElem? p0 size count 0 hc, hmod,
      free_samples_asserts_contiguous p0 size count hsz hc n (i + 1) (by omega)]
    simp

/-- C8, as stated, fails: for the free operation `DDS_FREE_CONTENTS` (3, without the
free-all bit 4) on a block of two samples of a not stream-optimizable type, the inner
members of both samples are released and the block is not. -/
theorem free_samples_block_not_released_counterexample :
    sertype_default_free_samples example_env
      { example_sertype with type := { example_sertype.type with flagset := 1 } }
      (contiguous_ptrs 4096 8 2) 2 3 =
    some [free_call.dds_stream_free_sample 4096 [0x01040000, 0, 0],
          free_call.dds_stream_free_sample 4104 [0x01040000, 0, 0]] := by
  decide

/-- C8, amended: for `count > 0` samples of a type flagged not stream-optimizable that lie
contiguously from `p0` on, `sertype_default_free_samples` first invokes the inner-member
release once on each address `p0 + i * size`, `i = 0 .. count - 1`, in this order, and
then releases the block `p0` once when the free operation has the bit
`DDS_FREE_ALL_BIT`, and not at all when it has not; when the size is positive no call is
made twice. -/
theorem sertype_default_free_samples_calls (env : Env) (tp : ddsi_sertype_default)
    (p0 count op : Nat) (hcount : 0 < count)
    (hflag : tp.type.flagset &&& env.DDS_TOPIC_NO_OPTIMIZE ≠ 0)
    (hblock : count * tp.type.size < 2 ^ 64) :
    sertype_default_free_samples env tp (contiguous_ptrs p0 tp.type.size count) count op =
      some (((List.range count).map fun i =>
              free_call.dds_stream_free_sample (p0 + i * tp.type.size) tp.type.ops.ops) ++
            (if op &&& env.DDS_FREE_ALL_BIT ≠ 0 then [free_call.dds_free p0] else [])) ∧
    (0 < tp.type.size →
      (((List.range count).map fun i =>
              free_call.dds_stream_free_sample (p0 + i * tp.type.size) tp.type.ops.ops) ++
            (if op &&& env.DDS_FREE_ALL_BIT ≠ 0 then [free_call.dds_free p0] else [])).Nodup)
    := by
  constructor
  · unfold sertype_default_free_samples
    have ha := free_samples_asserts_contiguous p0 tp.type.size count hblock hcount count 0
      (by omega)
    rw [Nat.zero_mul] at ha
    have h0 := contiguous_ptrs_getElem? p0 tp.type.size count 0 hcount
    rw [Nat.zero_mul, Nat.add_zero] at h0
    simp only [gt_iff_lt, hcount, if_true, ha, Bool.true_eq_false, and_false, if_false, h0,
      if_pos hflag, free_samples_loop_eq]
  · intro hsize
    rw [List.nodup_append]
    refine ⟨?_, ?_, ?_⟩
    · apply List.Nodup.map_on _ (List.nodup_range count)
      intro i _ j _ hij
      simp only [free_call.dds_stream_free_sample.injEq, and_true] at hij
      have : i * tp.type.size = j * tp.type.size := by omega
      exact Nat.eq_of_mul_eq_mul_right hsize this
    · split <;> simp
    · intro a ha hb
      simp only [List.mem_map] at ha
      obtain ⟨i, _, rfl⟩ := ha
      split at hb <;> simp at hb

/-- Witness of `sertype_default_free_samples_calls`: two samples of 8 bytes at 4096
released with `DDS_FREE_ALL` (7). -/
theorem sertype_default_free_samples_calls_witness :
    sertype_default_free_samples example_env_debug
      { example_sertype with type := { example_sertype.type with flagset := 1 } }
      (contiguous_ptrs 4096 8 2) 2 7 =
    some [free_call.dds_stream_free_sample 4096 [0x01040000, 0, 0],
          free_call.dds_stream_free_sample 4104 [0x01040000, 0, 0],
          free_call.dds_free 4096] :=
  (sertype_default_free_samples_calls example_env_debug
    { example_sertype with type := { example_sertype.type with flagset := 1 } }
    4096 2 7 (by decide) (by decide) (by decide)).1

/-! ## `sertype_default_get_serialized_size`, `sertype_default_serialize_into` -/

theorem buf_write_zero_take (buf bytes : List Nat) :
    (buf_write buf 0 bytes).take bytes.length = bytes := by
  have h := buf_write_read buf 0 bytes
  simpa using h

/-- C9: for a sample whose wire encoding with the fixed CDR header fits the 32-bit stream
index, `sertype_default_get_serialized_size` is the size of the trial serialization
(`ddsi_serdata_size` of `ddsi_serdata_from_sample`) minus `sizeof (struct CDRHeader)`,
which is exactly the length of the wire encoding of the sample; and it is the number of
bytes `sertype_default_serialize_into` writes for the same sample (the stream index
after the write, started at 0), these bytes being the wire encoding. -/
theorem sertype_default_get_serialized_size_spec (env : Env) (type : ddsi_sertype_default)
    (sample : List Nat) (dst_buffer : List Nat) (dst_size : Nat)
    (hfit : (env.sample_cdr type.type type.encoding_version sample).length
      + env.sizeof_CDRHeader < 2 ^ 32) :
    sertype_default_get_serialized_size env type sample =
      ddsi_serdata_size env (ddsi_serdata_from_sample env type sample)
        - env.sizeof_CDRHeader ∧
    sertype_default_get_serialized_size env type sample =
      (env.sample_cdr type.type type.encoding_version sample).length ∧
    (sertype_default_serialize_into env type sample dst_buffer dst_size).2.m_index =
      sertype_default_get_serialized_size env type sample ∧
    (sertype_default_serialize_into env type sample dst_buffer dst_size).2.m_buffer.take
      (sertype_default_get_serialized_size env type sample) =
      env.sample_cdr type.type type.encoding_version sample := by
  have h32 : (2 : Nat) ^ 32 < 2 ^ 64 := by norm_num
  have hlen : (env.sample_cdr type.type type.encoding_version sample).length < 2 ^ 32 := by
    omega
  have hsz : ddsi_serdata_size env (ddsi_serdata_from_sample env type sample) =
      (env.sample_cdr type.type type.encoding_version sample).length
        + env.sizeof_CDRHeader := by
    simp only [ddsi_serdata_size, ddsi_serdata_from_sample, dds_stream_write_sample,
      ostream_from_buffer, Nat.zero_add, Nat.mod_eq_of_lt hlen, Nat.mod_eq_of_lt hfit]
  have hget : sertype_default_get_serialized_size env type sample =
      (env.sample_cdr type.type type.encoding_version sample).length := by
    unfold sertype_default_get_serialized_size
    simp only [hsz]
    have hh : env.sizeof_CDRHeader % 2 ^ 64 = env.sizeof_CDRHeader :=
      Nat.mod_eq_of_lt (by omega)
    rw [hh]
    have : (env.sample_cdr type.type type.encoding_version sample).length
        + env.sizeof_CDRHeader + 2 ^ 64 - env.sizeof_CDRHeader
        = (env.sample_cdr type.type type.encoding_version sample).length + 2 ^ 64 := by
      omega
    rw [this, Nat.add_mod_right]
    exact Nat.mod_eq_of_lt (by omega)
  refine ⟨?_, hget, ?_, ?_⟩
  · rw [hget, hsz]; omega
  · rw [hget]
    simp only [sertype_default_serialize_into, dds_stream_write_sample, ostream_from_buffer,
      Nat.zero_add, Nat.mod_eq_of_lt hlen]
  · rw [hget]
    simp only [sertype_default_serialize_into, dds_stream_write_sample, ostream_from_buffer]
    exact buf_write_zero_take _ _

/-- Witness of `sertype_default_get_serialized_size_spec`: a sample of five bytes written
into a buffer of eight. -/
theorem sertype_default_get_serialized_size_spec_witness :
    sertype_default_get_serialized_size example_env example_sertype [1, 2, 3, 4, 5] = 5 ∧
    (sertype_default_serialize_into example_env example_sertype [1, 2, 3, 4, 5]
      [0, 0, 0, 0, 0, 0, 0, 0] 8).2.m_index =
      sertype_default_get_serialized_size example_env example_sertype [1, 2, 3, 4, 5] :=
  ⟨(sertype_default_get_serialized_size_spec example_env example_sertype [1, 2, 3, 4, 5]
      [0, 0, 0, 0, 0, 0, 0, 0] 8 (by decide)).2.1,
   (sertype_default_get_serialized_size_spec example_env example_sertype [1, 2, 3, 4, 5]
      [0, 0, 0, 0, 0, 0, 0, 0] 8 (by decide)).2.2.1⟩

/-- C10, as stated, fails: for a sample of serialized size 4 and a destination of size 0,
`sertype_default_serialize_into` returns true. -/
theorem serialize_into_small_buffer_counterexample :
    (0 : Nat) < sertype_default_get_serialized_size example_env example_sertype [1, 2, 3, 4] ∧
    (sertype_default_serialize_into example_env example_sertype [1, 2, 3, 4] [] 0).1 = true := by
  decide

/-- C10, amended: `sertype_default_serialize_into` checks nothing and returns true for
every sample, destination buffer and size, also a size below the serialized size of the
sample. -/
theorem sertype_default_serialize_into_returns_true (env : Env) (type : ddsi_sertype_default)
    (sample : List Nat) (dst_buffer : List Nat) (dst_size : Nat) :
    (sertype_default_serialize_into env type sample dst_buffer dst_size).1 = true := rfl

/-! ## `sertype_default_hash` -/

theorem ite_some_false_eq_some_true {c : Prop} [Decidable c] {x : Option Bool}
    (h : (if c then some false else x) = some true) : x = some true := by
  by_cases hc : c
  · rw [if_pos hc] at h
    exact absurd (Option.some.inj h) (by decide)
  · rw [if_neg hc] at h
    exact h

/-- When `sertype_default_equal` returns true, the compared fields agree. -/
theorem sertype_default_equal_true_same_structure (env : Env) (a b : ddsi_sertype_default)
    (ha : desc_wf a.type) (hb : desc_wf b.type)
    (h : sertype_default_equal env a b = some true) : same_structure a b := by
  by_cases hassert : env.NDEBUG = true ∨ a.opt_size = b.opt_size
  · rw [sertype_default_equal_eq env a b ha hb hassert] at h
    simpa using h
  · exfalso
    have h1 : ¬ (env.NDEBUG = true) := fun hn => hassert (Or.inl hn)
    have h2 : ¬ (a.opt_size = b.opt_size) := fun ho => hassert (Or.inr ho)
    unfold sertype_default_equal at h
    replace h := ite_some_false_eq_some_true h
    replace h := ite_some_false_eq_some_true h
    replace h := ite_some_false_eq_some_true h
    replace h := ite_some_false_eq_some_true h
    replace h := ite_some_false_eq_some_true h
    replace h := ite_some_false_eq_some_true h
    replace h := ite_some_false_eq_some_true h
    replace h := ite_some_false_eq_some_true h
    replace h := ite_some_false_eq_some_true h
    rw [if_pos ⟨h1, h2⟩] at h
    exact Option.noConfusion h

/-- C16, as stated, fails: two sertypes that differ only in their type name compare equal
and have different type identifier digests and different hashes. -/
theorem equal_sertypes_different_hash_counterexample :
    sertype_default_equal example_env example_sertype example_sertype_renamed = some true ∧
    sertype_default_typeid_hash example_env example_sertype
      ≠ sertype_default_typeid_hash example_env example_sertype_renamed ∧
    sertype_default_hash example_env example_sertype
      ≠ sertype_default_hash example_env example_sertype_renamed := by
  decide

/-- C16, amended: `sertype_default_hash` is the 32-bit value held, in host byte order, in
the first four bytes of `sertype_default_typeid_hash`; and whenever
`sertype_default_equal a b` returns true for two sertypes with the same type name, the
two type identifier digests are the same and so are the two hashes. -/
theorem sertype_default_hash_consistent (env : Env) (a b : ddsi_sertype_default)
    (ha : desc_wf a.type) (hb : desc_wf b.type)
    (hname : a.c.type_name = b.c.type_name)
    (heq : sertype_default_equal env a b = some true) :
    sertype_default_hash env a =
      u32_decode env.DDSRT_BIG_ENDIAN ((sertype_default_typeid_hash env a).2.take 4) ∧
    sertype_default_typeid_hash env a = sertype_default_typeid_hash env b ∧
    sertype_default_hash env a = sertype_default_hash env b := by
  obtain ⟨h1, h2, h3, h4, h5, -, h7, -, h9⟩ :=
    sertype_default_equal_true_same_structure env a b ha hb heq
  have ht : sertype_default_typeid_hash env a = sertype_default_typeid_hash env b := by
    unfold sertype_default_typeid_hash ddsi_sertype_default_desc_key_seq.nkeys
      ddsi_sertype_default_desc_op_seq.nops
    rw [hname, h1, h2, h3, h4, h5, h7, h9]
  refine ⟨rfl, ht, ?_⟩
  unfold sertype_default_hash
  rw [ht]

/-- Witness of `sertype_default_hash_consistent`: the example sertype and a copy with
another reference count and pool, in a build with assertions. -/
theorem sertype_default_hash_consistent_witness :
    sertype_default_hash example_env_debug example_sertype =
      sertype_default_hash example_env_debug
        { example_sertype with c := { example_sertype.c with flags_refc := 9 }, serpool := 0 } :=
  (sertype_default_hash_consistent example_env_debug example_sertype
    { example_sertype with c := { example_sertype.c with flags_refc := 9 }, serpool := 0 }
    (by decide) (by decide) rfl (by decide)).2.2

/-! ## `sertype_default_realloc_samples` -/

theorem realloc_samples_loop_length (new size : Nat) :
    ∀ (n i : Nat) (ptrs : List Nat), (realloc_samples_loop new size n i ptrs).length = ptrs.length
  | 0, _, _ => rfl
  | n + 1, i, ptrs => by
    rw [realloc_samples_loop, realloc_samples_loop_length new size n (i + 1), List.length_set]

theorem realloc_samples_loop_getElem? (new size : Nat) :
    ∀ (n i : Nat) (ptrs : List Nat) (j : Nat), i + n ≤ ptrs.length →
      (realloc_samples_loop new size n i ptrs)[j]? =
        if i ≤ j ∧ j < i + n then some (new + j * size % 2 ^ 64) else ptrs[j]?
  | 0, i, ptrs, j, _ => by
    have : ¬ (i ≤ j ∧ j < i + 0) := by omega
    rw [realloc_samples_loop, if_neg this]
  | n + 1, i, ptrs, j, h => by
    rw [realloc_samples_loop,
      realloc_samples_loop_getElem? new size n (i + 1) _ j (by rw [List.length_set]; omega)]
    by_cases hj : i + 1 ≤ j ∧ j < i + 1 + n
    · rw [if_pos hj, if_pos (by omega)]
    · rw [if_neg hj]
      by_cases hij : i = j
      · subst hij
        rw [if_pos (by omega), List.getElem?_set_self (by omega)]
      · rw [if_neg (by omega), List.getElem?_set_ne hij]

theorem free_samples_asserts_of_getElem? (ptrs : List Nat) (p0 size count : Nat)
    (hp : ∀ i, i < count → ptrs[i]? = some (p0 + i * size))
    (hsz : count * size < 2 ^ 64) (hc : 0 < count) :
    ∀ (n i : Nat), i + n ≤ count → free_samples_asserts ptrs size n i (i * size) = true
  | 0, _, _ => rfl
  | n + 1, i, h => by
    have hi : i < count := by omega
    have hle : (i + 1) * size ≤ count * size := Nat.mul_le_mul_right _ (by omega)
    have hmod : (i * size + size) % 2 ^ 64 = (i + 1) * size := by
      rw [Nat.succ_mul]
      rw [Nat.succ_mul] at hle
      exact Nat.mod_eq_of_lt (by omega)
    have h0 := hp 0 hc
    rw [Nat.zero_mul, Nat.add_zero] at h0
    rw [free_samples_asserts, hp i hi, h0, hmod,
      free_samples_asserts_of_getElem? ptrs p0 size count hp hsz hc n (i + 1) (by omega)]
    simp

theorem memset_tail (bytes : List Nat) (off n : Nat) (h : bytes.length = off + n) :
    (memset bytes off 0 n).drop off = List.replicate n 0 ∧
    (memset bytes off 0 n).take off = bytes.take off := by
  unfold memset
  have hl : (bytes.take off).length = off := by rw [List.length_take]; omega
  rw [List.drop_of_length_le (l := bytes) (by omega), List.append_nil]
  exact ⟨List.drop_left' hl, List.take_left' hl⟩

/-- C15: for an old block holding `oldcount` samples of `size` bytes and a `count`, the
allocation succeeding with the usual contract of `realloc` (a block of `size * count`
bytes that keeps the first `min oldcount count` samples), and `size * count` not
overflowing `size_t`: `sertype_default_realloc_samples` stores in `ptrs[i]` the address
of the block plus `i * size` for every `i < count`, so that the contiguity assertions of
`sertype_default_free_samples` hold on the pointer array; when `count > oldcount` the
samples from index `oldcount` on are zero bytes; the first `min oldcount count` samples
keep their contents; and when `count = oldcount` the block is the old block itself. -/
theorem sertype_default_realloc_samples_spec (env : Env) (tp : ddsi_sertype_default)
    (ptrs : List Nat) (ob nb : mem_block) (oldcount count : Nat)
    (hptrs : count ≤ ptrs.length)
    (hsz : tp.type.size * count < 2 ^ 64)
    (hrealloc : oldcount ≠ count →
      env.dds_realloc (some ob) (tp.type.size * count) = some nb ∧
      nb.bytes.length = tp.type.size * count ∧
      nb.bytes.take (tp.type.size * min oldcount count)
        = ob.bytes.take (tp.type.size * min oldcount count)) :
    ∃ blk : mem_block,
      (sertype_default_realloc_samples env ptrs tp (some ob) oldcount count).2 = some blk ∧
      blk.addr = (if oldcount = count then ob.addr else nb.addr) ∧
      (∀ i, i < count →
        (sertype_default_realloc_samples env ptrs tp (some ob) oldcount count).1[i]?
          = some (blk.addr + i * tp.type.size)) ∧
      (0 < count →
        free_samples_asserts
          (sertype_default_realloc_samples env ptrs tp (some ob) oldcount count).1
          tp.type.size count 0 0 = true) ∧
      (oldcount < count →
        blk.bytes.drop (tp.type.size * oldcount)
          = List.replicate (tp.type.size * (count - oldcount)) 0) ∧
      blk.bytes.take (tp.type.size * min oldcount count)
        = ob.bytes.take (tp.type.size * min oldcount count) ∧
      (count = oldcount → blk = ob) := by
  have hmodc : tp.type.size * count % 2 ^ 64 = tp.type.size * count := Nat.mod_eq_of_lt hsz
  have hptr : ∀ (a : Nat) (i : Nat), i < count →
      (realloc_samples_loop a tp.type.size count 0 ptrs)[i]? = some (a + i * tp.type.size) := by
    intro a i hi
    rw [realloc_samples_loop_getElem? a tp.type.size count 0 ptrs i (by omega),
      if_pos (by omega)]
    have : i * tp.type.size ≤ tp.type.size * count := by
      rw [Nat.mul_comm]; exact Nat.mul_le_mul_left _ (by omega)
    rw [Nat.mod_eq_of_lt (by omega)]
  have hassert : ∀ (a : Nat), 0 < count →
      free_samples_asserts (realloc_samples_loop a tp.type.size count 0 ptrs)
        tp.type.size count 0 0 = true := by
    intro a hc
    have := free_samples_asserts_of_getElem? _ a tp.type.size count (hptr a)
      (by rw [Nat.mul_comm]; exact hsz) hc count 0 (by omega)
    rw [Nat.zero_mul] at this
    exact this
  unfold sertype_default_realloc_samples
  by_cases heq : oldcount = count
  · subst heq
    refine ⟨ob, ?_, ?_, ?_, ?_, ?_, ?_, ?_⟩
    · simp
    · simp
    · intro i hi
      simp only [if_true, gt_iff_lt, lt_irrefl, if_false]
      exact hptr ob.addr i hi
    · intro hc
      simp only [if_true, gt_iff_lt, lt_irrefl, if_false]
      exact hassert ob.addr hc
    · intro h; omega
    · rfl
    · intro _; rfl
  · obtain ⟨hr, hlen, hkeep⟩ := hrealloc heq
    simp only [if_neg heq, hmodc, hr, gt_iff_lt]
    by_cases hgt : oldcount < count
    · have hle : tp.type.size * oldcount ≤ tp.type.size * count :=
        Nat.mul_le_mul_left _ (by omega)
      have hm1 : tp.type.size * oldcount % 2 ^ 64 = tp.type.size * oldcount :=
        Nat.mod_eq_of_lt (by omega)
      have hsub : tp.type.size * (count - oldcount) ≤ tp.type.size * count :=
        Nat.mul_le_mul_left _ (by omega)
      have hm2 : tp.type.size * (count - oldcount) % 2 ^ 64 = tp.type.size * (count - oldcount) :=
        Nat.mod_eq_of_lt (by omega)
      have hsum : nb.bytes.length
          = tp.type.size * oldcount + tp.type.size * (count - oldcount) := by
        rw [hlen, ← Nat.mul_add]; congr 1; omega
      have hms := memset_tail nb.bytes _ _ hsum
      have hmin : min oldcount count = oldcount := by omega
      simp only [if_pos hgt, hm1, hm2]
      refine ⟨_, rfl, rfl, ?_, ?_, ?_, ?_, ?_⟩
      · intro i hi; exact hptr nb.addr i hi
      · intro hc; exact hassert nb.addr hc
      · intro _; exact hms.1
      · rw [hmin] at hkeep ⊢
        rw [hms.2]; exact hkeep
      · intro h; omega
    · simp only [if_neg hgt]
      refine ⟨nb, rfl, rfl, ?_, ?_, ?_, hkeep, ?_⟩
      · intro i hi; exact hptr nb.addr i hi
      · intro hc; exact hassert nb.addr hc
      · intro h; omega
      · intro h; omega

/-- Witness of `sertype_default_realloc_samples_spec`: a block of one sample of 8 bytes at
4096 grown to three samples. -/
theorem sertype_default_realloc_samples_spec_witness :
    ∃ blk : mem_block,
      (sertype_default_realloc_samples example_env [0, 0, 0, 7] example_sertype
        (some ⟨4096, [1, 2, 3, 4, 5, 6, 7, 8]⟩) 1 3).2 = some blk ∧
      blk.addr = (if 1 = 3 then 4096 else 69632) ∧
      (∀ i, i < 3 →
        (sertype_default_realloc_samples example_env [0, 0, 0, 7] example_sertype
          (some ⟨4096, [1, 2, 3, 4, 5, 6, 7, 8]⟩) 1 3).1[i]? = some (blk.addr + i * 8)) ∧
      (0 < 3 →
        free_samples_asserts
          (sertype_default_realloc_samples example_env [0, 0, 0, 7] example_sertype
            (some ⟨4096, [1, 2, 3, 4, 5, 6, 7, 8]⟩) 1 3).1 8 3 0 0 = true) ∧
      (1 < 3 → blk.bytes.drop (8 * 1) = List.replicate (8 * (3 - 1)) 0) ∧
      blk.bytes.take (8 * min 1 3) = [1, 2, 3, 4, 5, 6, 7, 8].take (8 * min 1 3) ∧
      (3 = 1 → blk = ⟨4096, [1, 2, 3, 4, 5, 6, 7, 8]⟩) :=
  sertype_default_realloc_samples_spec example_env example_sertype [0, 0, 0, 7]
    ⟨4096, [1, 2, 3, 4, 5, 6, 7, 8]⟩
    ⟨69632, [1, 2, 3, 4, 5, 6, 7, 8, 255, 255, 255, 255, 255, 255, 255, 255,
             255, 255, 255, 255, 255, 255, 255, 255]⟩
    1 3 (by decide) (by decide) (fun _ => ⟨by decide, by decide, by decide⟩)

/-! ## The key descriptor builder -/

theorem order_le_refl : ∀ (a : List Nat), order_le a a = true
  | [] => rfl
  | x :: xs => by simp [order_le, order_le_refl xs]

theorem order_le_total : ∀ (a b : List Nat), order_le a b = true ∨ order_le b a = true
  | [], _ => Or.inl rfl
  | _ :: _, [] => Or.inr rfl
  | x :: xs, y :: ys => by
    simp only [order_le, Bool.or_eq_true, Bool.and_eq_true, decide_eq_true_eq]
    rcases Nat.lt_trichotomy x y with h | h | h
    · exact Or.inl (Or.inl h)
    · rcases order_le_total xs ys with h2 | h2
      · exact Or.inl (Or.inr ⟨h, h2⟩)
      · exact Or.inr (Or.inr ⟨h.symm, h2⟩)
    · exact Or.inr (Or.inl h)

theorem order_le_trans : ∀ (a b c : List Nat), order_le a b = true → order_le b c = true →
    order_le a c = true
  | [], _, _, _, _ => rfl
  | _ :: _, [], _, h, _ => by simp [order_le] at h
  | _ :: _, _ :: _, [], _, h => by simp [order_le] at h
  | x :: xs, y :: ys, z :: zs, h1, h2 => by
    simp only [order_le, Bool.or_eq_true, Bool.and_eq_true, decide_eq_true_eq] at h1 h2 ⊢
    rcases h1 with h1 | ⟨e1, h1⟩
    · rcases h2 with h2 | ⟨e2, _⟩
      · exact Or.inl (by omega)
      · exact Or.inl (by omega)
    · rcases h2 with h2 | ⟨e2, h2⟩
      · exact Or.inl (by omega)
      · exact Or.inr ⟨by omega, order_le_trans xs ys zs h1 h2⟩

theorem key_le_total : IsTotal key_field key_le :=
  ⟨fun a b => order_le_total a.order b.order⟩

theorem key_le_trans : IsTrans key_field key_le :=
  ⟨fun a b c => order_le_trans a.order b.order c.order⟩

theorem assign_key_idx_length : ∀ (i : Nat) (ks : List key_field),
    (assign_key_idx i ks).length = ks.length
  | _, [] => rfl
  | i, k :: ks => by simp [assign_key_idx, assign_key_idx_length (i + 1) ks]

theorem assign_key_idx_map_key_idx : ∀ (i : Nat) (ks : List key_field),
    (assign_key_idx i ks).map (·.key_idx) = List.range' i ks.length
  | _, [] => rfl
  | i, k :: ks => by
    simp [assign_key_idx, assign_key_idx_map_key_idx (i + 1) ks, List.range'_succ]

theorem assign_key_idx_mem : ∀ (i : Nat) (ks : List key_field) (k : key_field),
    k ∈ assign_key_idx i ks → ∃ k0 ∈ ks, k.path = k0.path ∧ k.order = k0.order ∧
      k.size = k0.size ∧ k.framed = k0.framed
  | _, [], k, h => by simp [assign_key_idx] at h
  | i, k0 :: ks, k, h => by
    simp only [assign_key_idx, List.mem_cons] at h
    rcases h with rfl | h
    · exact ⟨k0, List.mem_cons_self _ _, rfl, rfl, rfl, rfl⟩
    · obtain ⟨k1, hk1, hh⟩ := assign_key_idx_mem (i + 1) ks k h
      exact ⟨k1, List.mem_cons_of_mem _ hk1, hh⟩

mutual
theorem type_keys_order_length (framed : Bool) : ∀ (t : idl_type_spec)
    (k : key_field), k ∈ t.keys framed → k.order.length = k.path.length
  | .struct s, k, h => by
    rw [idl_type_spec.keys] at h
    exact struct_keys_order_length _ framed s k h
  | .base sz, k, h => by
    rw [idl_type_spec.keys, List.mem_singleton] at h; subst h; rfl
  | .bstring b, k, h => by
    rw [idl_type_spec.keys, List.mem_singleton] at h; subst h; rfl
  | .string, k, h => by
    rw [idl_type_spec.keys, List.mem_singleton] at h; subst h; rfl
  | .sequence, k, h => by
    rw [idl_type_spec.keys, List.mem_singleton] at h; subst h; rfl
  | .array e n, k, h => by
    rw [idl_type_spec.keys, List.mem_singleton] at h; subst h; rfl
theorem struct_keys_order_length (all framed : Bool) : ∀ (s : idl_struct)
    (k : key_field), k ∈ s.keys all framed → k.order.length = k.path.length
  | .mk ext inh ms, k, h => by
    rw [idl_struct.keys, List.mem_append] at h
    rcases h with h | h
    · exact inherit_keys_order_length all _ ext inh k h
    · exact members_keys_order_length all _ _ ms k h
theorem inherit_keys_order_length (all framed : Bool) (ext : idl_extensibility) :
    ∀ (i : idl_inherit) (k : key_field), k ∈ i.keys all framed ext →
      k.order.length = k.path.length
  | .none, k, h => by simp [idl_inherit.keys] at h
  | .base s, k, h => by
    rw [idl_inherit.keys] at h
    split at h
    · exact struct_keys_order_length all framed s k h
    · rw [List.mem_map] at h
      obtain ⟨k0, hk0, rfl⟩ := h
      simp [key_field.nest, struct_keys_order_length all framed s k0 hk0]
theorem members_keys_order_length (all framed : Bool) (pos : Nat) :
    ∀ (ms : idl_members) (k : key_field), k ∈ ms.keys all framed pos →
      k.order.length = k.path.length
  | .nil, k, h => by simp [idl_members.keys] at h
  | .cons name id key type rest, k, h => by
    rw [idl_members.keys, List.mem_append] at h
    rcases h with h | h
    · split at h
      · rw [List.mem_map] at h
        obtain ⟨k0, hk0, rfl⟩ := h
        simp [key_field.nest, type_keys_order_length framed type k0 hk0]
      · simp at h
    · exact members_keys_order_length all framed (pos + 1) rest k h
end

mutual
theorem struct_keys_path_ne_nil (all framed : Bool) : ∀ (s : idl_struct)
    (k : key_field), k ∈ s.keys all framed → k.path ≠ []
  | .mk ext inh ms, k, h => by
    rw [idl_struct.keys, List.mem_append] at h
    rcases h with h | h
    · exact inherit_keys_path_ne_nil all _ ext inh k h
    · exact members_keys_path_ne_nil all _ _ ms k h
theorem inherit_keys_path_ne_nil (all framed : Bool) (ext : idl_extensibility) :
    ∀ (i : idl_inherit) (k : key_field), k ∈ i.keys all framed ext → k.path ≠ []
  | .none, k, h => by simp [idl_inherit.keys] at h
  | .base s, k, h => by
    rw [idl_inherit.keys] at h
    split at h
    · exact struct_keys_path_ne_nil all framed s k h
    · rw [List.mem_map] at h
      obtain ⟨k0, _, rfl⟩ := h
      simp [key_field.nest]
theorem members_keys_path_ne_nil (all framed : Bool) (pos : Nat) :
    ∀ (ms : idl_members) (k : key_field), k ∈ ms.keys all framed pos → k.path ≠ []
  | .nil, k, h => by simp [idl_members.keys] at h
  | .cons name id key type rest, k, h => by
    rw [idl_members.keys, List.mem_append] at h
    rcases h with h | h
    · split at h
      · rw [List.mem_map] at h
        obtain ⟨k0, _, rfl⟩ := h
        simp [key_field.nest]
      · simp at h
    · exact members_keys_path_ne_nil all framed (pos + 1) rest k h
end

theorem keylist_names_perm (name : String) (kl kl2 : List (List String)) (h : kl.Perm kl2) :
    keylist_names name kl = keylist_names name kl2 := by
  unfold keylist_names
  rw [Bool.eq_iff_iff, List.any_eq_true, List.any_eq_true]
  constructor
  · rintro ⟨p, hp, hh⟩; exact ⟨p, h.mem_iff.1 hp, hh⟩
  · rintro ⟨p, hp, hh⟩; exact ⟨p, h.mem_iff.2 hp, hh⟩

theorem sub_keylist_perm (name : String) (kl kl2 : List (List String)) (h : kl.Perm kl2) :
    (sub_keylist name kl).Perm (sub_keylist name kl2) :=
  List.Perm.filterMap _ h

mutual
theorem type_mark_perm : ∀ (t : idl_type_spec) (kl kl2 : List (List String)),
    kl.Perm kl2 → t.mark kl = t.mark kl2
  | .struct s, kl, kl2, h => by
    rw [idl_type_spec.mark, idl_type_spec.mark, struct_mark_perm s kl kl2 h]
  | .base _, _, _, _ => by rw [idl_type_spec.mark, idl_type_spec.mark]
  | .bstring _, _, _, _ => by rw [idl_type_spec.mark, idl_type_spec.mark]
  | .string, _, _, _ => by rw [idl_type_spec.mark, idl_type_spec.mark]
  | .sequence, _, _, _ => by rw [idl_type_spec.mark, idl_type_spec.mark]
  | .array _ _, _, _, _ => by rw [idl_type_spec.mark, idl_type_spec.mark]
theorem struct_mark_perm : ∀ (s : idl_struct) (kl kl2 : List (List String)),
    kl.Perm kl2 → s.mark kl = s.mark kl2
  | .mk ext inh ms, kl, kl2, h => by
    rw [idl_struct.mark, idl_struct.mark, inherit_mark_perm inh kl kl2 h,
      members_mark_perm ms kl kl2 h]
theorem inherit_mark_perm : ∀ (i : idl_inherit) (kl kl2 : List (List String)),
    kl.Perm kl2 → i.mark kl = i.mark kl2
  | .none, _, _, _ => by rw [idl_inherit.mark, idl_inherit.mark]
  | .base s, kl, kl2, h => by
    rw [idl_inherit.mark, idl_inherit.mark, struct_mark_perm s kl kl2 h]
theorem members_mark_perm : ∀ (ms : idl_members) (kl kl2 : List (List String)),
    kl.Perm kl2 → ms.mark kl = ms.mark kl2
  | .nil, _, _, _ => by rw [idl_members.mark, idl_members.mark]
  | .cons name id key type rest, kl, kl2, h => by
    rw [idl_members.mark, idl_members.mark, keylist_names_perm name kl kl2 h,
      type_mark_perm type _ _ (sub_keylist_perm name kl kl2 h),
      members_mark_perm rest kl kl2 h]
end

theorem resolves_all_perm (node : idl_struct) (kl kl2 : List (List String)) (h : kl.Perm kl2) :
    (kl.all fun p => node.resolves p) = (kl2.all fun p => node.resolves p) := by
  rw [Bool.eq_iff_iff, List.all_eq_true, List.all_eq_true]
  constructor
  · intro hh p hp; exact hh p (h.mem_iff.2 hp)
  · intro hh p hp; exact hh p (h.mem_iff.1 hp)

/-- What the builder returns for a topic it accepts: the descriptor of the marked topic
struct. -/
theorem generate_descriptor_impl_eq (topic : idl_topic) (d : descriptor)
    (h : generate_descriptor_impl topic = some d) : d = descriptor_init topic.marked := by
  unfold generate_descriptor_impl at h
  unfold idl_topic.marked
  cases hk : topic.keylist with
  | none =>
    rw [hk] at h
    simp only [Option.some.injEq] at h ⊢
    exact h.symm
  | some kl =>
    rw [hk] at h
    simp only at h ⊢
    split at h
    · exact absurd h (by simp)
    · split at h
      · simp only [Option.some.injEq] at h; exact h.symm
      · exact absurd h (by simp)

theorem descriptor_init_keys_perm (node : idl_struct) :
    (descriptor_init node).keys.Perm (topic_key_fields node) :=
  List.perm_insertionSort _ _

theorem descriptor_init_keys_sorted (node : idl_struct) :
    (descriptor_init node).keys.Sorted key_le :=
  @List.sorted_insertionSort key_field key_le _ key_le_total key_le_trans _

theorem topic_key_fields_path (node : idl_struct) (k : key_field)
    (h : k ∈ topic_key_fields node) : k.order.length = k.path.length ∧ k.path ≠ [] := by
  obtain ⟨k0, hk0, hp, ho, -, -⟩ := assign_key_idx_mem 0 _ k h
  rw [hp, ho]
  exact ⟨struct_keys_order_length false false node k0 hk0,
    struct_keys_path_ne_nil false false node k0 hk0⟩

theorem assign_key_idx_mem_of : ∀ (i : Nat) (ks : List key_field) (k0 : key_field),
    k0 ∈ ks → ∃ k ∈ assign_key_idx i ks, k.path = k0.path ∧ k.order = k0.order
  | _, [], k0, h => by simp at h
  | i, k1 :: ks, k0, h => by
    rcases List.mem_cons.1 h with rfl | h
    · exact ⟨{ k0 with key_idx := i }, by rw [assign_key_idx]; exact List.mem_cons_self _ _,
        rfl, rfl⟩
    · obtain ⟨k, hk, hh⟩ := assign_key_idx_mem_of (i + 1) ks k0 h
      exact ⟨k, by rw [assign_key_idx]; exact List.mem_cons_of_mem _ hk, hh⟩

theorem assign_key_idx_map_ids : ∀ (i : Nat) (ks : List key_field),
    (assign_key_idx i ks).map (fun k => (k.path, k.order)) = ks.map (fun k => (k.path, k.order))
  | _, [] => rfl
  | i, k :: ks => by
    simp [assign_key_idx, assign_key_idx_map_ids (i + 1) ks]


theorem seen_struct (keylist : Option (List (List String))) (kl : List (List String))
    (s : idl_struct) :
    seen keylist (idl_type_spec.struct s) ((idl_type_spec.struct s).mark kl) =
      .struct (seen keylist s (s.mark kl)) := by
  cases keylist
  · rfl
  · simp only [seen, idl_type_spec.mark]

theorem seen_not_struct (keylist : Option (List (List String))) (kl : List (List String))
    (t : idl_type_spec) (h : ∀ s, t ≠ .struct s) : seen keylist t (t.mark kl) = t := by
  cases keylist
  · rfl
  · cases t with
    | struct s => exact absurd rfl (h s)
    | base _ => simp only [seen, idl_type_spec.mark]
    | bstring _ => simp only [seen, idl_type_spec.mark]
    | string => simp only [seen, idl_type_spec.mark]
    | sequence => simp only [seen, idl_type_spec.mark]
    | array _ _ => simp only [seen, idl_type_spec.mark]

theorem seen_mk (keylist : Option (List (List String))) (kl : List (List String))
    (ext : idl_extensibility) (inh : idl_inherit) (ms : idl_members) :
    seen keylist (idl_struct.mk ext inh ms) ((idl_struct.mk ext inh ms).mark kl) =
      .mk ext (seen keylist inh (inh.mark kl)) (seen keylist ms (ms.mark kl)) := by
  cases keylist
  · rfl
  · simp only [seen, idl_struct.mark]

theorem seen_inherit_none (keylist : Option (List (List String))) (kl : List (List String)) :
    seen keylist idl_inherit.none (idl_inherit.none.mark kl) = .none := by
  cases keylist
  · rfl
  · simp only [seen, idl_inherit.mark]

theorem seen_inherit_base (keylist : Option (List (List String))) (kl : List (List String))
    (s : idl_struct) :
    seen keylist (idl_inherit.base s) ((idl_inherit.base s).mark kl) =
      .base (seen keylist s (s.mark kl)) := by
  cases keylist
  · rfl
  · simp only [seen, idl_inherit.mark]

theorem seen_nil (keylist : Option (List (List String))) (kl : List (List String)) :
    seen keylist idl_members.nil (idl_members.nil.mark kl) = .nil := by
  cases keylist
  · rfl
  · simp only [seen, idl_members.mark]

theorem seen_cons (keylist : Option (List (List String))) (kl : List (List String))
    (name : String) (id : Option Nat) (key : Bool) (type : idl_type_spec) (rest : idl_members) :
    seen keylist (idl_members.cons name id key type rest)
        ((idl_members.cons name id key type rest).mark kl) =
      .cons name id (seen keylist key (keylist_names name kl))
        (seen keylist type (type.mark (sub_keylist name kl)))
        (seen keylist rest (rest.mark kl)) := by
  cases keylist
  · rfl
  · simp only [seen, idl_members.mark]

theorem mem_sub_keylist (name : String) (kl : List (List String)) (q : List String) :
    q ∈ sub_keylist name kl ↔ q ≠ [] ∧ name :: q ∈ kl := by
  unfold sub_keylist
  rw [List.mem_filterMap]
  constructor
  · rintro ⟨p, hp, hq⟩
    rcases p with _ | ⟨n, _ | ⟨a, r⟩⟩
    · simp at hq
    · simp at hq
    · simp only at hq
      split at hq
      · rename_i hn
        subst hn
        simp only [Option.some.injEq] at hq
        subst hq
        exact ⟨by simp, hp⟩
      · simp at hq
  · rintro ⟨hne, hq⟩
    rcases q with _ | ⟨a, r⟩
    · exact absurd rfl hne
    · exact ⟨name :: a :: r, hq, by simp⟩

/-- The key annotation the builder sees on a member is that of the spec. -/
theorem seen_key_iff (keylist : Option (List (List String))) (m : List String)
    (kl : List (List String))
    (hinv : ∀ kl0, keylist = some kl0 → ∀ q, q ≠ [] → (q ∈ kl ↔ m ++ q ∈ kl0))
    (name : String) (key : Bool) :
    seen keylist key (keylist_names name kl) = true ↔ key_member keylist (m ++ [name]) key := by
  cases keylist with
  | none => simp [seen, key_member]
  | some kl0 =>
    simp only [seen, key_member, keylist_names, List.any_eq_true, decide_eq_true_eq]
    constructor
    · rintro ⟨p, hp, hh⟩
      rcases p with _ | ⟨n, r⟩
      · simp at hh
      · simp only [List.head?_cons, Option.some.injEq] at hh
        subst hh
        exact ⟨m ++ n :: r, (hinv kl0 rfl (n :: r) (by simp)).1 hp, r, by simp⟩
    · rintro ⟨q, hq, r, hr⟩
      subst hr
      refine ⟨name :: r, (hinv kl0 rfl (name :: r) (by simp)).2 (by simpa using hq), by simp⟩

/-- The keylist the builder leaves at the type of a member holds the fields below it. -/
theorem sub_keylist_below (keylist : Option (List (List String))) (m : List String)
    (kl : List (List String))
    (hinv : ∀ kl0, keylist = some kl0 → ∀ q, q ≠ [] → (q ∈ kl ↔ m ++ q ∈ kl0))
    (name : String) :
    ∀ kl0, keylist = some kl0 → ∀ q, q ≠ [] →
      (q ∈ sub_keylist name kl ↔ (m ++ [name]) ++ q ∈ kl0) := by
  intro kl0 hk q hq
  rw [mem_sub_keylist, hinv kl0 hk (name :: q) (by simp)]
  simp [hq]

mutual
theorem struct_has_key_seen (keylist : Option (List (List String))) (m : List String) :
    ∀ (s : idl_struct) (kl : List (List String)),
      (∀ kl0, keylist = some kl0 → ∀ q, q ≠ [] → (q ∈ kl ↔ m ++ q ∈ kl0)) →
      ((seen keylist s (s.mark kl)).has_key = true ↔
        ∃ x ∈ s.all_members, key_member keylist (m ++ [x.1]) x.2.2.1)
  | .mk ext inh ms, kl, hinv => by
    rw [seen_mk, idl_struct.has_key, idl_struct.all_members, Bool.or_eq_true,
      inherit_has_key_seen keylist m inh kl hinv, members_has_key_seen keylist m ms kl hinv]
    constructor
    · rintro (⟨x, hx, h⟩ | ⟨x, hx, h⟩)
      · exact ⟨x, List.mem_append_left _ hx, h⟩
      · exact ⟨x, List.mem_append_right _ hx, h⟩
    · rintro ⟨x, hx, h⟩
      rcases List.mem_append.1 hx with hx | hx
      · exact Or.inl ⟨x, hx, h⟩
      · exact Or.inr ⟨x, hx, h⟩
theorem inherit_has_key_seen (keylist : Option (List (List String))) (m : List String) :
    ∀ (i : idl_inherit) (kl : List (List String)),
      (∀ kl0, keylist = some kl0 → ∀ q, q ≠ [] → (q ∈ kl ↔ m ++ q ∈ kl0)) →
      ((seen keylist i (i.mark kl)).has_key = true ↔
        ∃ x ∈ i.all_members, key_member keylist (m ++ [x.1]) x.2.2.1)
  | .none, kl, _ => by
    rw [seen_inherit_none, idl_inherit.has_key, idl_inherit.all_members]
    exact ⟨fun h => Bool.noConfusion h, fun ⟨_, hx, _⟩ => absurd hx (List.not_mem_nil _)⟩
  | .base s, kl, hinv => by
    rw [seen_inherit_base, idl_inherit.has_key, idl_inherit.all_members]
    exact struct_has_key_seen keylist m s kl hinv
theorem members_has_key_seen (keylist : Option (List (List String))) (m : List String) :
    ∀ (ms : idl_members) (kl : List (List String)),
      (∀ kl0, keylist = some kl0 → ∀ q, q ≠ [] → (q ∈ kl ↔ m ++ q ∈ kl0)) →
      ((seen keylist ms (ms.mark kl)).has_key = true ↔
        ∃ x ∈ ms.all_members, key_member keylist (m ++ [x.1]) x.2.2.1)
  | .nil, kl, _ => by
    rw [seen_nil, idl_members.has_key, idl_members.all_members]
    exact ⟨fun h => Bool.noConfusion h, fun ⟨_, hx, _⟩ => absurd hx (List.not_mem_nil _)⟩
  | .cons name id key type rest, kl, hinv => by
    rw [seen_cons, idl_members.has_key, idl_members.all_members, Bool.or_eq_true,
      seen_key_iff keylist m kl hinv, members_has_key_seen keylist m rest kl hinv]
    constructor
    · rintro (h | ⟨x, hx, h⟩)
      · exact ⟨_, List.mem_cons_self _ _, h⟩
      · exact ⟨x, List.mem_cons_of_mem _ hx, h⟩
    · rintro ⟨x, hx, h⟩
      rcases List.mem_cons.1 hx with rfl | hx
      · exact Or.inl h
      · exact Or.inr ⟨x, hx, h⟩
end

mutual
theorem struct_count_seen (keylist : Option (List (List String))) :
    ∀ (s : idl_struct) (kl : List (List String)),
      (seen keylist s (s.mark kl)).count = s.all_members.length
  | .mk ext inh ms, kl => by
    rw [seen_mk, idl_struct.count, idl_struct.all_members, List.length_append,
      inherit_count_seen keylist inh kl, members_count_seen keylist ms kl]
theorem inherit_count_seen (keylist : Option (List (List String))) :
    ∀ (i : idl_inherit) (kl : List (List String)),
      (seen keylist i (i.mark kl)).count = i.all_members.length
  | .none, kl => by
    rw [seen_inherit_none, idl_inherit.count, idl_inherit.all_members, List.length_nil]
  | .base s, kl => by
    rw [seen_inherit_base, idl_inherit.count, idl_inherit.all_members]
    exact struct_count_seen keylist s kl
theorem members_count_seen (keylist : Option (List (List String))) :
    ∀ (ms : idl_members) (kl : List (List String)),
      (seen keylist ms (ms.mark kl)).count = ms.all_members.length
  | .nil, kl => by
    rw [seen_nil, idl_members.count, idl_members.all_members, List.length_nil]
  | .cons name id key type rest, kl => by
    rw [seen_cons, idl_members.count, idl_members.all_members, List.length_cons,
      members_count_seen keylist rest kl]
end

mutual
theorem struct_keys_no_key (framed : Bool) : ∀ (s : idl_struct),
    s.has_key = false → s.keys false framed = []
  | .mk ext inh ms, h => by
    rw [idl_struct.has_key, Bool.or_eq_false_iff] at h
    rw [idl_struct.keys, inherit_keys_no_key _ ext inh h.1, members_keys_no_key _ _ ms h.2,
      List.append_nil]
theorem inherit_keys_no_key (framed : Bool) (ext : idl_extensibility) : ∀ (i : idl_inherit),
    i.has_key = false → i.keys false framed ext = []
  | .none, _ => by rw [idl_inherit.keys]
  | .base s, h => by
    rw [idl_inherit.has_key] at h
    rw [idl_inherit.keys, struct_keys_no_key framed s h]
    simp
theorem members_keys_no_key (framed : Bool) (pos : Nat) : ∀ (ms : idl_members),
    ms.has_key = false → ms.keys false framed pos = []
  | .nil, _ => by rw [idl_members.keys]
  | .cons name id key type rest, h => by
    rw [idl_members.has_key, Bool.or_eq_false_iff] at h
    rw [idl_members.keys, members_keys_no_key framed (pos + 1) rest h.2, h.1]
    simp
end

mutual
theorem type_keys_reaches (keylist : Option (List (List String))) (framed : Bool) :
    ∀ (t : idl_type_spec) (m : List String) (kl : List (List String)) (k : key_field),
      (∀ kl0, keylist = some kl0 → ∀ q, q ≠ [] → (q ∈ kl ↔ m ++ q ∈ kl0)) →
      k ∈ (seen keylist t (t.mark kl)).keys framed → t.reaches keylist m k.path k.order
  | .struct s, m, kl, k, hinv, h => by
    rw [seen_struct, idl_type_spec.keys] at h
    cases hk : (seen keylist s (s.mark kl)).has_key with
    | true =>
      rw [hk] at h
      exact .own_keys m s _ _ (struct_keys_reaches keylist false framed s m kl k hinv h)
    | false =>
      rw [hk] at h
      refine .every_member m s _ _ ?_ (struct_keys_reaches keylist true framed s m kl k hinv h)
      intro x hx hkey
      have hh := (struct_has_key_seen keylist m s kl hinv).2 ⟨x, hx, hkey⟩
      rw [hk] at hh
      exact Bool.noConfusion hh
  | .base sz, m, kl, k, _, h => by
    rw [seen_not_struct keylist kl _ (fun s hs => by cases hs), idl_type_spec.keys,
      List.mem_singleton] at h
    subst h
    exact .field m _ (fun s hs => by cases hs)
  | .bstring b, m, kl, k, _, h => by
    rw [seen_not_struct keylist kl _ (fun s hs => by cases hs), idl_type_spec.keys,
      List.mem_singleton] at h
    subst h
    exact .field m _ (fun s hs => by cases hs)
  | .string, m, kl, k, _, h => by
    rw [seen_not_struct keylist kl _ (fun s hs => by cases hs), idl_type_spec.keys,
      List.mem_singleton] at h
    subst h
    exact .field m _ (fun s hs => by cases hs)
  | .sequence, m, kl, k, _, h => by
    rw [seen_not_struct keylist kl _ (fun s hs => by cases hs), idl_type_spec.keys,
      List.mem_singleton] at h
    subst h
    exact .field m _ (fun s hs => by cases hs)
  | .array e n, m, kl, k, _, h => by
    rw [seen_not_struct keylist kl _ (fun s hs => by cases hs), idl_type_spec.keys,
      List.mem_singleton] at h
    subst h
    exact .field m _ (fun s hs => by cases hs)
theorem struct_keys_reaches (keylist : Option (List (List String))) (all framed : Bool) :
    ∀ (s : idl_struct) (m : List String) (kl : List (List String)) (k : key_field),
      (∀ kl0, keylist = some kl0 → ∀ q, q ≠ [] → (q ∈ kl ↔ m ++ q ∈ kl0)) →
      k ∈ (seen keylist s (s.mark kl)).keys all framed → s.reaches keylist m all k.path k.order
  | .mk ext inh ms, m, kl, k, hinv, h => by
    rw [seen_mk, idl_struct.keys, List.mem_append] at h
    rcases h with h | h
    · exact .inherited _ _ _ _ _ _ _ (inherit_keys_reaches keylist all _ ext inh m kl k hinv h)
    · rw [inherit_count_seen] at h
      exact .own _ _ _ _ _ _ _ (members_keys_reaches keylist all _ _ ms m kl k hinv h)
theorem inherit_keys_reaches (keylist : Option (List (List String))) (all framed : Bool)
    (ext : idl_extensibility) :
    ∀ (i : idl_inherit) (m : List String) (kl : List (List String)) (k : key_field),
      (∀ kl0, keylist = some kl0 → ∀ q, q ≠ [] → (q ∈ kl ↔ m ++ q ∈ kl0)) →
      k ∈ (seen keylist i (i.mark kl)).keys all framed ext →
      i.reaches keylist m all ext k.path k.order
  | .none, m, kl, k, _, h => by
    rw [seen_inherit_none, idl_inherit.keys] at h
    exact absurd h (List.not_mem_nil _)
  | .base s, m, kl, k, hinv, h => by
    rw [seen_inherit_base, idl_inherit.keys] at h
    split at h
    · rename_i hext
      subst hext
      exact .merged _ _ _ _ _ (struct_keys_reaches keylist all framed s m kl k hinv h)
    · rename_i hext
      rw [List.mem_map] at h
      obtain ⟨k0, hk0, rfl⟩ := h
      exact .parent _ _ _ _ _ _ hext (struct_keys_reaches keylist all framed s m kl k0 hinv hk0)
theorem members_keys_reaches (keylist : Option (List (List String))) (all framed : Bool)
    (pos : Nat) :
    ∀ (ms : idl_members) (m : List String) (kl : List (List String)) (k : key_field),
      (∀ kl0, keylist = some kl0 → ∀ q, q ≠ [] → (q ∈ kl ↔ m ++ q ∈ kl0)) →
      k ∈ (seen keylist ms (ms.mark kl)).keys all framed pos →
      ms.reaches keylist m all pos k.path k.order
  | .nil, m, kl, k, _, h => by
    rw [seen_nil, idl_members.keys] at h
    exact absurd h (List.not_mem_nil _)
  | .cons name id key type rest, m, kl, k, hinv, h => by
    rw [seen_cons, idl_members.keys, List.mem_append] at h
    rcases h with h | h
    · split at h
      · rename_i hkey
        rw [List.mem_map] at h
        obtain ⟨k0, hk0, rfl⟩ := h
        refine .here _ _ _ _ _ _ _ _ _ _ ?_
          (type_keys_reaches keylist framed type (m ++ [name]) (sub_keylist name kl) k0
            (sub_keylist_below keylist m kl hinv name) hk0)
        rw [Bool.or_eq_true] at hkey
        rcases hkey with hkey | hkey
        · exact Or.inl ((seen_key_iff keylist m kl hinv name key).1 hkey)
        · exact Or.inr hkey
      · exact absurd h (List.not_mem_nil _)
    · exact .there _ _ _ _ _ _ _ _ _ _
        (members_keys_reaches keylist all framed (pos + 1) rest m kl k hinv h)
end

mutual
theorem type_reaches_keys (keylist : Option (List (List String))) (framed : Bool) :
    ∀ (t : idl_type_spec) (m : List String) (kl : List (List String)) (p : List String)
      (o : List Nat),
      (∀ kl0, keylist = some kl0 → ∀ q, q ≠ [] → (q ∈ kl ↔ m ++ q ∈ kl0)) →
      t.reaches keylist m p o →
      ∃ k ∈ (seen keylist t (t.mark kl)).keys framed, k.path = p ∧ k.order = o
  | .struct s, m, kl, p, o, hinv, h => by
    rw [seen_struct, idl_type_spec.keys]
    cases h with
    | field _ _ hns => exact absurd rfl (hns s)
    | own_keys _ _ _ _ h =>
      obtain ⟨k, hk, hh⟩ := struct_reaches_keys keylist false framed s m kl p o hinv h
      cases hkey : (seen keylist s (s.mark kl)).has_key with
      | true => exact ⟨k, hk, hh⟩
      | false =>
        rw [struct_keys_no_key framed _ hkey] at hk
        exact absurd hk (List.not_mem_nil _)
    | every_member _ _ _ _ hnone h =>
      have hkey : (seen keylist s (s.mark kl)).has_key = false := by
        cases hk : (seen keylist s (s.mark kl)).has_key with
        | false => rfl
        | true =>
          obtain ⟨x, hx, hh⟩ := (struct_has_key_seen keylist m s kl hinv).1 hk
          exact absurd hh (hnone x hx)
      rw [hkey]
      exact struct_reaches_keys keylist true framed s m kl p o hinv h
  | .base sz, m, kl, p, o, _, h => by
    rw [seen_not_struct keylist kl _ (fun s hs => by cases hs)]
    cases h
    exact ⟨_, by rw [idl_type_spec.keys]; exact List.mem_singleton_self _, rfl, rfl⟩
  | .bstring b, m, kl, p, o, _, h => by
    rw [seen_not_struct keylist kl _ (fun s hs => by cases hs)]
    cases h
    exact ⟨_, by rw [idl_type_spec.keys]; exact List.mem_singleton_self _, rfl, rfl⟩
  | .string, m, kl, p, o, _, h => by
    rw [seen_not_struct keylist kl _ (fun s hs => by cases hs)]
    cases h
    exact ⟨_, by rw [idl_type_spec.keys]; exact List.mem_singleton_self _, rfl, rfl⟩
  | .sequence, m, kl, p, o, _, h => by
    rw [seen_not_struct keylist kl _ (fun s hs => by cases hs)]
    cases h
    exact ⟨_, by rw [idl_type_spec.keys]; exact List.mem_singleton_self _, rfl, rfl⟩
  | .array e n, m, kl, p, o, _, h => by
    rw [seen_not_struct keylist kl _ (fun s hs => by cases hs)]
    cases h
    exact ⟨_, by rw [idl_type_spec.keys]; exact List.mem_singleton_self _, rfl, rfl⟩
theorem struct_reaches_keys (keylist : Option (List (List String))) (all framed : Bool) :
    ∀ (s : idl_struct) (m : List String) (kl : List (List String)) (p : List String)
      (o : List Nat),
      (∀ kl0, keylist = some kl0 → ∀ q, q ≠ [] → (q ∈ kl ↔ m ++ q ∈ kl0)) →
      s.reaches keylist m all p o →
      ∃ k ∈ (seen keylist s (s.mark kl)).keys all framed, k.path = p ∧ k.order = o
  | .mk ext inh ms, m, kl, p, o, hinv, h => by
    rw [seen_mk, idl_struct.keys]
    cases h with
    | own _ _ _ _ _ _ _ h =>
      obtain ⟨k, hk, hh⟩ := members_reaches_keys keylist all _ _ ms m kl p o hinv h
      exact ⟨k, List.mem_append_right _ (by rw [inherit_count_seen]; exact hk), hh⟩
    | inherited _ _ _ _ _ _ _ h =>
      obtain ⟨k, hk, hh⟩ := inherit_reaches_keys keylist all _ ext inh m kl p o hinv h
      exact ⟨k, List.mem_append_left _ hk, hh⟩
theorem inherit_reaches_keys (keylist : Option (List (List String))) (all framed : Bool)
    (ext : idl_extensibility) :
    ∀ (i : idl_inherit) (m : List String) (kl : List (List String)) (p : List String)
      (o : List Nat),
      (∀ kl0, keylist = some kl0 → ∀ q, q ≠ [] → (q ∈ kl ↔ m ++ q ∈ kl0)) →
      i.reaches keylist m all ext p o →
      ∃ k ∈ (seen keylist i (i.mark kl)).keys all framed ext, k.path = p ∧ k.order = o
  | .none, m, kl, p, o, _, h => by cases h
  | .base s, m, kl, p, o, hinv, h => by
    rw [seen_inherit_base, idl_inherit.keys]
    cases h with
    | merged _ _ _ _ _ h =>
      rw [if_pos rfl]
      exact struct_reaches_keys keylist all framed s m kl p o hinv h
    | parent _ _ _ _ p0 o0 hext h =>
      rw [if_neg hext]
      obtain ⟨k, hk, hp, ho⟩ := struct_reaches_keys keylist all framed s m kl p0 o0 hinv h
      exact ⟨k.nest "parent" 0, List.mem_map_of_mem _ hk, by simp [key_field.nest, hp],
        by simp [key_field.nest, ho]⟩
theorem members_reaches_keys (keylist : Option (List (List String))) (all framed : Bool)
    (pos : Nat) :
    ∀ (ms : idl_members) (m : List String) (kl : List (List String)) (p : List String)
      (o : List Nat),
      (∀ kl0, keylist = some kl0 → ∀ q, q ≠ [] → (q ∈ kl ↔ m ++ q ∈ kl0)) →
      ms.reaches keylist m all pos p o →
      ∃ k ∈ (seen keylist ms (ms.mark kl)).keys all framed pos, k.path = p ∧ k.order = o
  | .nil, m, kl, p, o, _, h => by cases h
  | .cons name id key type rest, m, kl, p, o, hinv, h => by
    rw [seen_cons, idl_members.keys]
    cases h with
    | here _ _ _ _ _ _ _ _ p0 o0 hkey h =>
      obtain ⟨k, hk, hp, ho⟩ := type_reaches_keys keylist framed type (m ++ [name])
        (sub_keylist name kl) p0 o0 (sub_keylist_below keylist m kl hinv name) h
      have hc : (seen keylist key (keylist_names name kl) || all) = true := by
        rw [Bool.or_eq_true]
        rcases hkey with hkey | hkey
        · exact Or.inl ((seen_key_iff keylist m kl hinv name key).2 hkey)
        · exact Or.inr hkey
      rw [if_pos hc]
      exact ⟨k.nest name (id.getD pos), List.mem_append_left _ (List.mem_map_of_mem _ hk),
        by simp [key_field.nest, hp], by simp [key_field.nest, ho]⟩
    | there _ _ _ _ _ _ _ _ _ _ h =>
      obtain ⟨k, hk, hh⟩ := members_reaches_keys keylist all framed (pos + 1) rest m kl p o hinv h
      exact ⟨k, List.mem_append_right _ hk, hh⟩
end

mutual
theorem type_mark_fields : ∀ (t : idl_type_spec) (kl : List (List String)),
    (t.mark kl).fields = t.fields
  | .struct s, kl => by
    rw [idl_type_spec.mark, idl_type_spec.fields, idl_type_spec.fields, struct_mark_fields s kl]
  | .base _, _ => by rw [idl_type_spec.mark]
  | .bstring _, _ => by rw [idl_type_spec.mark]
  | .string, _ => by rw [idl_type_spec.mark]
  | .sequence, _ => by rw [idl_type_spec.mark]
  | .array _ _, _ => by rw [idl_type_spec.mark]
theorem struct_mark_fields : ∀ (s : idl_struct) (kl : List (List String)),
    (s.mark kl).fields = s.fields
  | .mk ext inh ms, kl => by
    rw [idl_struct.mark, idl_struct.fields, idl_struct.fields, inherit_mark_fields ext inh kl,
      members_mark_fields ms kl]
theorem inherit_mark_fields (ext : idl_extensibility) :
    ∀ (i : idl_inherit) (kl : List (List String)), (i.mark kl).fields ext = i.fields ext
  | .none, _ => by rw [idl_inherit.mark]
  | .base s, kl => by
    rw [idl_inherit.mark, idl_inherit.fields, idl_inherit.fields, struct_mark_fields s kl]
theorem members_mark_fields : ∀ (ms : idl_members) (kl : List (List String)),
    (ms.mark kl).fields = ms.fields
  | .nil, _ => by rw [idl_members.mark]
  | .cons name id key type rest, kl => by
    rw [idl_members.mark, idl_members.fields, idl_members.fields, type_mark_fields type _,
      members_mark_fields rest kl]
end

mutual
theorem type_keys_sublist (framed : Bool) : ∀ (t : idl_type_spec),
    ((t.keys framed).map (·.path)).Sublist t.fields
  | .struct s => by
    rw [idl_type_spec.keys, idl_type_spec.fields]
    exact struct_keys_sublist _ framed s
  | .base _ => by
    rw [idl_type_spec.keys, idl_type_spec.fields]
    · exact List.Sublist.refl _
    · exact fun _ hs => idl_type_spec.noConfusion hs
  | .bstring _ => by
    rw [idl_type_spec.keys, idl_type_spec.fields]
    · exact List.Sublist.refl _
    · exact fun _ hs => idl_type_spec.noConfusion hs
  | .string => by
    rw [idl_type_spec.keys, idl_type_spec.fields]
    · exact List.Sublist.refl _
    · exact fun _ hs => idl_type_spec.noConfusion hs
  | .sequence => by
    rw [idl_type_spec.keys, idl_type_spec.fields]
    · exact List.Sublist.refl _
    · exact fun _ hs => idl_type_spec.noConfusion hs
  | .array _ _ => by
    rw [idl_type_spec.keys, idl_type_spec.fields]
    · exact List.Sublist.refl _
    · exact fun _ hs => idl_type_spec.noConfusion hs
theorem struct_keys_sublist (all framed : Bool) : ∀ (s : idl_struct),
    ((s.keys all framed).map (·.path)).Sublist s.fields
  | .mk ext inh ms => by
    rw [idl_struct.keys, idl_struct.fields, List.map_append]
    exact (inherit_keys_sublist all _ ext inh).append (members_keys_sublist all _ _ ms)
theorem inherit_keys_sublist (all framed : Bool) (ext : idl_extensibility) :
    ∀ (i : idl_inherit), ((i.keys all framed ext).map (·.path)).Sublist (i.fields ext)
  | .none => by
    rw [idl_inherit.keys, idl_inherit.fields]
    exact List.Sublist.refl _
  | .base s => by
    rw [idl_inherit.keys, idl_inherit.fields]
    split
    · exact struct_keys_sublist all framed s
    · have hs := (struct_keys_sublist all framed s).map (fun p => "parent" :: p)
      rw [List.map_map] at hs ⊢
      exact hs
theorem members_keys_sublist (all framed : Bool) (pos : Nat) :
    ∀ (ms : idl_members), ((ms.keys all framed pos).map (·.path)).Sublist ms.fields
  | .nil => by
    rw [idl_members.keys, idl_members.fields]
    exact List.Sublist.refl _
  | .cons name id key type rest => by
    rw [idl_members.keys, idl_members.fields, List.map_append]
    refine List.Sublist.append ?_ (members_keys_sublist all framed (pos + 1) rest)
    split
    · have hs := (type_keys_sublist framed type).map (fun p => name :: p)
      rw [List.map_map] at hs ⊢
      exact hs
    · exact List.nil_sublist _
end

theorem assign_key_idx_map_path : ∀ (i : Nat) (ks : List key_field),
    (assign_key_idx i ks).map (·.path) = ks.map (·.path)
  | _, [] => rfl
  | i, k :: ks => by
    simp [assign_key_idx, assign_key_idx_map_path (i + 1) ks]

/-- The fields of the struct the builder collects the keys from are those of the topic
struct. -/
theorem marked_fields (topic : idl_topic) : topic.marked.fields = topic.node.fields := by
  unfold idl_topic.marked
  cases topic.keylist with
  | none => rfl
  | some kl => exact struct_mark_fields topic.node kl

/-- The paths of the key fields of the descriptor are a sublist of the fields of the topic
struct, once the key fields are taken in the order of their key indexes. -/
theorem topic_key_fields_sublist (topic : idl_topic) :
    ((topic_key_fields topic.marked).map (·.path)).Sublist topic.node.fields := by
  unfold topic_key_fields
  rw [assign_key_idx_map_path, ← marked_fields]
  exact struct_keys_sublist false false topic.marked

theorem nodup_pairwise_field_position : ∀ (l : List (List String)), l.Nodup →
    l.Pairwise (fun a b => field_position l a < field_position l b)
  | [], _ => List.Pairwise.nil
  | x :: xs, h => by
    rw [List.nodup_cons] at h
    refine List.Pairwise.cons ?_ ?_
    · intro b hb
      have hne : x ≠ b := fun e => h.1 (e ▸ hb)
      rw [field_position, field_position, if_pos rfl, if_neg hne]
      exact Nat.succ_pos _
    · refine (nodup_pairwise_field_position xs h.2).imp_of_mem ?_
      intro a b ha hb hab
      have hna : x ≠ a := fun e => h.1 (e ▸ ha)
      have hnb : x ≠ b := fun e => h.1 (e ▸ hb)
      rw [field_position, field_position, if_neg hna, if_neg hnb]
      exact Nat.succ_lt_succ hab

/-- Keys that are numbered along a list whose paths are a sublist of distinct fields are
numbered in the order of these fields. -/
theorem key_idx_order_of_sublist (l : List key_field) (n : Nat) (fs : List (List String))
    (hidx : l.map (·.key_idx) = List.range n) (hsub : (l.map (·.path)).Sublist fs)
    (hnd : fs.Nodup) (k1 k2 : key_field) (h1 : k1 ∈ l) (h2 : k2 ∈ l) :
    k1.key_idx < k2.key_idx ↔ field_position fs k1.path < field_position fs k2.path := by
  have hp1 : l.Pairwise (fun a b => a.key_idx < b.key_idx) := by
    have := List.pairwise_lt_range n
    rw [← hidx, List.pairwise_map] at this
    exact this
  have hp2 : l.Pairwise (fun a b => field_position fs a.path < field_position fs b.path) := by
    have := (nodup_pairwise_field_position fs hnd).sublist hsub
    rw [List.pairwise_map] at this
    exact this
  have hp : l.Pairwise (fun a b =>
      (a.key_idx < b.key_idx ∧ field_position fs a.path < field_position fs b.path) ∨
      (b.key_idx < a.key_idx ∧ field_position fs b.path < field_position fs a.path)) :=
    (hp1.and hp2).imp fun h => Or.inl h
  by_cases he : k1 = k2
  · subst he
    exact ⟨fun h => absurd h (Nat.lt_irrefl _), fun h => absurd h (Nat.lt_irrefl _)⟩
  · have hs := hp.forall (fun a b h => h.symm) h1 h2 he
    rcases hs with ⟨ha, hb⟩ | ⟨ha, hb⟩
    · exact ⟨fun _ => hb, fun _ => ha⟩
    · exact ⟨fun h => absurd h (Nat.lt_asymm ha), fun h => absurd h (Nat.lt_asymm hb)⟩

theorem marked_eq_seen (topic : idl_topic) :
    topic.marked = seen topic.keylist topic.node (topic.node.mark (topic.keylist.getD [])) := by
  unfold idl_topic.marked
  cases topic.keylist <;> rfl

/-- The keys of the descriptor are the key fields reachable through key members. -/
theorem descriptor_init_keys_reaches (topic : idl_topic) (p : List String) (o : List Nat) :
    (∃ k ∈ (descriptor_init topic.marked).keys, k.path = p ∧ k.order = o) ↔
      topic.node.reaches topic.keylist [] false p o := by
  have hinv : ∀ kl0, topic.keylist = some kl0 → ∀ q, q ≠ [] →
      (q ∈ topic.keylist.getD [] ↔ [] ++ q ∈ kl0) := by
    intro kl0 hk q _
    rw [hk]
    rfl
  constructor
  · rintro ⟨k, hk, rfl, rfl⟩
    have hk2 := (descriptor_init_keys_perm topic.marked).mem_iff.1 hk
    obtain ⟨k0, hk0, hp, ho, -, -⟩ := assign_key_idx_mem 0 _ k hk2
    rw [hp, ho]
    rw [marked_eq_seen] at hk0
    exact struct_keys_reaches topic.keylist false false topic.node [] _ k0 hinv hk0
  · intro h
    obtain ⟨k0, hk0, hp, ho⟩ :=
      struct_reaches_keys topic.keylist false false topic.node [] _ p o hinv h
    rw [← marked_eq_seen] at hk0
    obtain ⟨k, hk, hp2, ho2⟩ := assign_key_idx_mem_of 0 _ k0 hk0
    exact ⟨k, (descriptor_init_keys_perm topic.marked).mem_iff.2 hk, by rw [hp2, hp],
      by rw [ho2, ho]⟩

/-- The order of member-id paths is the lexicographic order. -/
theorem order_le_iff_lex : ∀ (a b : List Nat),
    order_le a b = true ↔ (a = b ∨ List.Lex (· < ·) a b)
  | [], [] => by simp [order_le]
  | [], y :: ys => by
    simp only [order_le, true_iff]
    exact Or.inr List.Lex.nil
  | x :: xs, [] => by
    simp only [order_le, Bool.false_eq_true, false_iff, not_or]
    exact ⟨fun h => List.noConfusion h, fun h => by cases h⟩
  | x :: xs, y :: ys => by
    simp only [order_le, Bool.or_eq_true, Bool.and_eq_true, decide_eq_true_eq,
      order_le_iff_lex xs ys, List.cons.injEq]
    constructor
    · rintro (h | ⟨rfl, h | h⟩)
      · exact Or.inr (.rel h)
      · exact Or.inl ⟨rfl, h⟩
      · exact Or.inr (.cons h)
    · rintro (⟨rfl, rfl⟩ | h)
      · exact Or.inr ⟨rfl, Or.inl rfl⟩
      · cases h with
        | cons h => exact Or.inr ⟨rfl, Or.inr h⟩
        | rel h => exact Or.inl h

/-- C11: for every topic the builder accepts, with annotations as with a keylist: the keys
of the descriptor are exactly the key fields reachable through the key members of the
topic struct, where a member is a key member when it is annotated `@key` (annotations) or
when the keylist names its path or a path through it (keylist), and a struct-typed key
contributes its own keys, or all its members when none is marked; each key is named by its
dotted path and carries a member-id path of length 1 + nesting depth; the list is in
ascending lexicographic order of member-id paths; no key is listed twice when the fields
of the topic struct have distinct paths; and with a keylist the descriptor is the same for
every order of the fields of the keylist. -/
theorem generate_descriptor_key_list (topic : idl_topic) (d : descriptor)
    (h : generate_descriptor_impl topic = some d) :
    (∀ p o, (∃ k ∈ d.keys, k.path = p ∧ k.order = o) ↔
      topic.node.reaches topic.keylist [] false p o) ∧
    (∀ k ∈ d.keys, k.name = dotted k.path ∧ k.path ≠ [] ∧
      k.order.length = 1 + (k.path.length - 1)) ∧
    d.keys.Sorted (fun a b => a.order = b.order ∨ List.Lex (· < ·) a.order b.order) ∧
    d.n_keys = d.keys.length ∧
    (topic.node.fields.Nodup → (d.keys.map (·.path)).Nodup) ∧
    (∀ kl kl2, topic.keylist = some kl → kl.Perm kl2 →
      generate_descriptor_impl ⟨topic.node, some kl2⟩ = some d) := by
  have hd := generate_descriptor_impl_eq topic d h
  refine ⟨?_, ?_, ?_, ?_, ?_, ?_⟩
  · intro p o
    rw [hd]
    exact descriptor_init_keys_reaches topic p o
  · intro k hk
    rw [hd] at hk
    obtain ⟨h1, h2⟩ := topic_key_fields_path _ k ((descriptor_init_keys_perm _).mem_iff.1 hk)
    refine ⟨rfl, h2, ?_⟩
    have : 1 ≤ k.path.length := List.length_pos.2 h2
    omega
  · rw [hd]
    exact (descriptor_init_keys_sorted _).imp fun hab => (order_le_iff_lex _ _).1 hab
  · rw [hd]
    show (topic_key_fields topic.marked).length = _
    exact ((descriptor_init_keys_perm _).length_eq).symm
  · intro hnd
    rw [hd]
    exact (((descriptor_init_keys_perm topic.marked).map _).nodup_iff).2
      ((topic_key_fields_sublist topic).nodup hnd)
  · intro kl kl2 hkl hperm
    rw [← h]
    unfold generate_descriptor_impl
    simp only [hkl]
    rw [resolves_all_perm topic.node kl kl2 hperm, struct_mark_perm topic.node kl kl2 hperm]

/-- Witness of `generate_descriptor_key_list`: the topic with `#pragma keylist outer o2.i1
o1.i1` has the keys o1.i1 and o2.i1, in this order, o1.i1 is reachable through the
members the keylist names, and no key is listed twice; of `struct test { long a; short
b; }` with `#pragma keylist test a` the member a is the one key, and b is not reachable. -/
theorem generate_descriptor_key_list_witness :
    (generate_descriptor_impl example_topic_keylist).map
        (fun d => d.keys.map fun k => (k.name, k.order))
      = some [("o1.i1", [0, 0]), ("o2.i1", [1, 0])] ∧
    example_topic_keylist.node.reaches example_topic_keylist.keylist [] false
      ["o1", "i1"] [0, 0] ∧
    ((descriptor_init example_topic_keylist.marked).keys.map (·.path)).Nodup ∧
    (generate_descriptor_impl example_topic_keylist_a).map
        (fun d => d.keys.map fun k => (k.name, k.order))
      = some [("a", [0])] ∧
    ¬ example_topic_keylist_a.node.reaches example_topic_keylist_a.keylist [] false
      ["b"] [1] :=
  ⟨by decide,
   ((generate_descriptor_key_list example_topic_keylist
      (descriptor_init example_topic_keylist.marked) (by decide)).1 ["o1", "i1"] [0, 0]).1
      (by decide),
   (generate_descriptor_key_list example_topic_keylist
      (descriptor_init example_topic_keylist.marked) (by decide)).2.2.2.2.1 (by decide),
   by decide,
   fun hr => absurd
     (((generate_descriptor_key_list example_topic_keylist_a
        (descriptor_init example_topic_keylist_a.marked) (by decide)).1 ["b"] [1]).2 hr)
     (by decide)⟩

theorem key_layout_static (maxalign : Nat) : ∀ (ks : List key_field) (off : Nat),
    (∀ k ∈ ks, k.static) → key_layout maxalign off ks = some (key_total maxalign off ks)
  | [], _, _ => rfl
  | k :: ks, off, h => by
    have hk := h k (List.mem_cons_self _ _)
    have ih := fun off2 => key_layout_static maxalign ks off2
      (fun x hx => h x (List.mem_cons_of_mem _ hx))
    obtain ⟨hs, hf⟩ := hk
    rw [key_layout, key_total, hf]
    cases hsz : k.size with
    | var => exact absurd hsz hs
    | fixed size align dims => exact ih _

theorem key_layout_not_static (maxalign : Nat) : ∀ (ks : List key_field) (off : Nat),
    ¬ (∀ k ∈ ks, k.static) → key_layout maxalign off ks = none
  | [], _, h => absurd (fun _ hk => by simp at hk) h
  | k :: ks, off, h => by
    rw [key_layout]
    cases hsz : k.size with
    | var => rfl
    | fixed size align dims =>
      cases hf : k.framed with
      | true => rfl
      | false =>
        apply key_layout_not_static maxalign ks
        intro hall
        apply h
        intro x hx
        rcases List.mem_cons.1 hx with rfl | hx
        · exact ⟨(by rw [hsz]; exact fun hh => key_size.noConfusion hh), hf⟩
        · exact hall x hx

theorem key_is_fixed_iff (maxalign : Nat) (ks : List key_field) :
    key_is_fixed (key_layout maxalign 0 ks) = true ↔
      (∀ k ∈ ks, k.static) ∧ key_total maxalign 0 ks ≤ FIXED_KEY_MAX_SIZE := by
  by_cases hall : ∀ k ∈ ks, k.static
  · rw [key_layout_static maxalign ks 0 hall]
    simp only [key_is_fixed, decide_eq_true_eq]
    exact ⟨fun h => ⟨hall, h⟩, fun h => h.2⟩
  · rw [key_layout_not_static maxalign ks 0 hall]
    simp only [key_is_fixed]
    exact ⟨fun h => absurd h (by decide), fun h => absurd h.1 hall⟩

theorem key_size_reported_eq (maxalign : Nat) (ks : List key_field) :
    key_size_reported (key_layout maxalign 0 ks) =
      if key_is_fixed (key_layout maxalign 0 ks) = true then key_total maxalign 0 ks
      else FIXED_KEY_MAX_SIZE + 1 := by
  by_cases hall : ∀ k ∈ ks, k.static
  · rw [key_layout_static maxalign ks 0 hall]
    simp only [key_size_reported, key_is_fixed, decide_eq_true_eq]
  · rw [key_layout_not_static maxalign ks 0 hall]
    simp [key_size_reported, key_is_fixed]

theorem align_up_spec (off a : Nat) (ha : 0 < a) :
    off ≤ align_up off a ∧ align_up off a < off + a ∧ a ∣ align_up off a := by
  unfold align_up
  rw [if_neg (by omega)]
  have h1 := Nat.div_add_mod (off + a - 1) a
  have h2 := Nat.mod_lt (off + a - 1) ha
  have h3 : (off + a - 1) / a * a = a * ((off + a - 1) / a) := Nat.mul_comm _ _
  refine ⟨by omega, by omega, ⟨(off + a - 1) / a, h3⟩⟩

theorem map_nest_ids (name : String) (id : Nat) (l : List key_field) :
    (l.map (key_field.nest name id)).map (fun k => (k.path, k.order)) =
      (l.map (fun k => (k.path, k.order))).map (fun q => (name :: q.1, id :: q.2)) := by
  rw [List.map_map, List.map_map]
  rfl

mutual
theorem type_keys_ids_framed (f1 f2 : Bool) : ∀ (t : idl_type_spec),
    (t.keys f1).map (fun k => (k.path, k.order)) = (t.keys f2).map (fun k => (k.path, k.order))
  | .struct s => by
    rw [idl_type_spec.keys, idl_type_spec.keys]
    exact struct_keys_ids_framed _ f1 f2 s
  | .base _ => by rw [idl_type_spec.keys, idl_type_spec.keys]; rfl
  | .bstring _ => by rw [idl_type_spec.keys, idl_type_spec.keys]; rfl
  | .string => by rw [idl_type_spec.keys, idl_type_spec.keys]; rfl
  | .sequence => by rw [idl_type_spec.keys, idl_type_spec.keys]; rfl
  | .array _ _ => by rw [idl_type_spec.keys, idl_type_spec.keys]; rfl
theorem struct_keys_ids_framed (all f1 f2 : Bool) : ∀ (s : idl_struct),
    (s.keys all f1).map (fun k => (k.path, k.order)) =
      (s.keys all f2).map (fun k => (k.path, k.order))
  | .mk ext inh ms => by
    rw [idl_struct.keys, idl_struct.keys, List.map_append, List.map_append,
      inherit_keys_ids_framed all _ (f2 || decide (ext = .IDL_MUTABLE)) ext inh,
      members_keys_ids_framed all _ (f2 || decide (ext = .IDL_MUTABLE)) _ ms]
theorem inherit_keys_ids_framed (all f1 f2 : Bool) (ext : idl_extensibility) :
    ∀ (i : idl_inherit),
      (i.keys all f1 ext).map (fun k => (k.path, k.order)) =
        (i.keys all f2 ext).map (fun k => (k.path, k.order))
  | .none => by rw [idl_inherit.keys, idl_inherit.keys]
  | .base s => by
    rw [idl_inherit.keys, idl_inherit.keys]
    by_cases hext : ext = .IDL_MUTABLE
    · rw [if_pos hext, if_pos hext]
      exact struct_keys_ids_framed all f1 f2 s
    · rw [if_neg hext, if_neg hext, map_nest_ids, map_nest_ids,
        struct_keys_ids_framed all f1 f2 s]
theorem members_keys_ids_framed (all f1 f2 : Bool) (pos : Nat) : ∀ (ms : idl_members),
    (ms.keys all f1 pos).map (fun k => (k.path, k.order)) =
      (ms.keys all f2 pos).map (fun k => (k.path, k.order))
  | .nil => by rw [idl_members.keys, idl_members.keys]
  | .cons name id key type rest => by
    rw [idl_members.keys, idl_members.keys, List.map_append, List.map_append,
      members_keys_ids_framed all f1 f2 (pos + 1) rest]
    by_cases hk : (key || all) = true
    · rw [if_pos hk, if_pos hk, map_nest_ids, map_nest_ids,
        type_keys_ids_framed f1 f2 type]
    · rw [if_neg hk, if_neg hk]
end

theorem dotted_parent (p : List String) (hp : p ≠ []) :
    dotted ("parent" :: p) = "parent." ++ dotted p := by
  cases p with
  | nil => exact absurd rfl hp
  | cons a rest =>
    rw [dotted]
    rfl

/-- C14: for every topic struct that inherits from a base struct, every key of the base
(the keys the base has as a topic of its own, those of its own bases included) is a key
of the topic: under FINAL or APPENDABLE extensibility it is named with the prefix
`parent.` and lies below the member `parent`, under MUTABLE extensibility it keeps its
name; in both cases the keys of the topic are in ascending order of member-id paths. -/
theorem inherited_keys_named (ext : idl_extensibility) (b : idl_struct) (ms : idl_members)
    (k : key_field) (hk : k ∈ (descriptor_init b).keys) :
    generate_descriptor_impl ⟨.mk ext (.base b) ms, none⟩ =
      some (descriptor_init (.mk ext (.base b) ms)) ∧
    (ext ≠ .IDL_MUTABLE →
      ∃ k2 ∈ (descriptor_init (.mk ext (.base b) ms)).keys,
        k2.path = "parent" :: k.path ∧ k2.name = "parent." ++ k.name ∧ k2.order = 0 :: k.order) ∧
    (ext = .IDL_MUTABLE →
      ∃ k2 ∈ (descriptor_init (.mk ext (.base b) ms)).keys,
        k2.path = k.path ∧ k2.name = k.name ∧ k2.order = k.order) ∧
    (descriptor_init (.mk ext (.base b) ms)).keys.Sorted key_le := by
  have hk1 := (descriptor_init_keys_perm b).mem_iff.1 hk
  obtain ⟨hlen, hne⟩ := topic_key_fields_path b k hk1
  obtain ⟨k0, hk0, hp, ho, -, -⟩ := assign_key_idx_mem 0 _ k hk1
  refine ⟨rfl, ?_, ?_, descriptor_init_keys_sorted _⟩
  · intro hext
    have hd : decide (ext = idl_extensibility.IDL_MUTABLE) = false := by simpa using hext
    have hmem : k0.nest "parent" 0 ∈ (idl_struct.mk ext (.base b) ms).keys false false := by
      rw [idl_struct.keys, idl_inherit.keys, if_neg hext, hd]
      exact List.mem_append_left _ (List.mem_map_of_mem _ hk0)
    obtain ⟨k2, hk2, hp2, ho2⟩ := assign_key_idx_mem_of 0 _ _ hmem
    refine ⟨k2, (descriptor_init_keys_perm _).mem_iff.2 hk2, ?_, ?_, ?_⟩
    · rw [hp2, hp]; rfl
    · unfold key_field.name
      rw [hp2, ← dotted_parent k.path hne, hp]; rfl
    · rw [ho2, ho]; rfl
  · intro hext
    subst hext
    have hids : (k0.path, k0.order) ∈
        (b.keys false true).map (fun k => (k.path, k.order)) := by
      rw [← struct_keys_ids_framed false false true b]
      exact List.mem_map_of_mem (fun k : key_field => (k.path, k.order)) hk0
    obtain ⟨k1, hk1m, hk1e⟩ := List.mem_map.1 hids
    have hmem : k1 ∈ (idl_struct.mk .IDL_MUTABLE (.base b) ms).keys false false := by
      rw [idl_struct.keys, idl_inherit.keys, if_pos rfl]
      exact List.mem_append_left _ hk1m
    obtain ⟨k2, hk2, hp2, ho2⟩ := assign_key_idx_mem_of 0 _ _ hmem
    have e1 : k1.path = k0.path := congrArg Prod.fst hk1e
    have e2 : k1.order = k0.order := congrArg Prod.snd hk1e
    refine ⟨k2, (descriptor_init_keys_perm _).mem_iff.2 hk2, ?_, ?_, ?_⟩
    · rw [hp2, e1, hp]
    · unfold key_field.name
      rw [hp2, e1, hp]
    · rw [ho2, e2, ho]

/-- Witness of `inherited_keys_named`: the key `b` of `struct base { @key @id(1) long a;
@key @id(0) short b; }` is the key `parent.b` of a FINAL struct that inherits from it; the
keys of `@mutable struct base { @key @id(1) long a; @key @id(0) short b; }; @mutable
struct test : base { };` are b, a and with FINAL structs they are parent.b, parent.a. -/
theorem inherited_keys_named_witness :
    (∃ k2 ∈ (descriptor_init (.mk .IDL_FINAL (.base example_final_base) .nil)).keys,
      k2.path = ["parent", "b"] ∧ k2.name = "parent." ++ "b" ∧ k2.order = [0, 0]) ∧
    keys_inheritance_result ⟨.mk .IDL_MUTABLE (.base example_mutable_base) .nil, none⟩
      = some (2, ["b", "a"]) ∧
    keys_inheritance_result ⟨.mk .IDL_FINAL (.base example_final_base) .nil, none⟩
      = some (2, ["parent.b", "parent.a"]) :=
  ⟨(inherited_keys_named .IDL_FINAL example_final_base .nil
      ⟨["b"], [0], .fixed 2 2 1, false, 1⟩ (by decide)).2.1 (by decide),
   by decide, by decide⟩

/-- The model of the builder meets the expectations of the three tests of `descriptor.c`. -/
theorem descriptor_tests_pass :
    (keys_nested_tests.all fun t => decide (keys_nested_result t.1 = some t.2)) = true ∧
    (key_size_tests.all fun t => decide (key_size_result t.1 = some t.2)) = true ∧
    (keys_inheritance_tests.all fun t => decide (keys_inheritance_result t.1 = some t.2))
      = true := by
  decide

end Sertype
